import Mathlib

/-!
# Filter: BMP codec and pixel filters

A shallow embedding of `src/src/hbmp_helpers.c`, `src/src/hbmp_io.c`,
`src/src/hbmp_filter.c` and `src/src/hbmp.h`, and of the functions
`parse_options` and `apply_filter` of `src/src/main.c`.

Conventions of the embedding:

* `uint8_t`, `uint16_t`, `uint32_t` and `size_t` values are natural numbers;
  where the C arithmetic can wrap, the reduction modulo `2^w` is written out.
  `size_t` is 64 bits wide. `int32_t` values are integers.
* A `FILE *` opened for reading is the list of the bytes that remain to be
  read; `fread` consumes a prefix of it.
* A `FILE *` opened for writing is the number of bytes the stream still
  accepts (`room`) together with the bytes it has accepted so far.
* The host is little-endian (`main` refuses to run otherwise), so a struct
  field of `n` bytes is transferred as its `n` little-endian bytes.
* `RGBTRIPLE image[height][width]` is a list of rows, each a list of triples.
* `calloc` is an oracle: a function that tells whether a request is granted.
  A function that calls `exit` when a request is refused returns an `Option`.
* The command line is the list of the values `getopt_long` returns for it.
-/

namespace Filter

/-! ## Data types (`hbmp.h`) -/

/-- The C struct `BITMAPFILEHEADER`. -/
structure BITMAPFILEHEADER where
  bf_type : Nat
  bf_size : Nat
  bf_reserved1 : Nat
  bf_reserved2 : Nat
  bf_offbits : Nat
deriving DecidableEq

/-- The C struct `BITMAPINFOHEADER`; the three `int32_t` fields are integers. -/
structure BITMAPINFOHEADER where
  bi_size : Nat
  bi_width : Int
  bi_height : Int
  bi_planes : Nat
  bi_bitcount : Nat
  bi_compression : Nat
  bi_size_image : Nat
  bi_x_resolution_ppm : Int
  bi_y_resolution_ppm : Int
  bi_clr_used : Nat
  bi_clr_important : Nat
deriving DecidableEq

/-- The C struct `RGBTRIPLE`: blue, green, red, one byte each, in this order. -/
structure RGBTRIPLE where
  rgbt_blue : Nat
  rgbt_green : Nat
  rgbt_red : Nat
deriving DecidableEq

/-- The largest value of `size_t` (64 bits). -/
def SIZE_MAX : Nat := 18446744073709551615

/-- Number of values of `size_t`: arithmetic on `size_t` is modulo this. -/
def SIZE_MOD : Nat := 18446744073709551616

/-- The value of `sizeof (RGBTRIPLE)`. -/
def sizeof_RGBTRIPLE : Nat := 3

/-! ## `hbmp_helpers.c` -/

def SUPPORTED_BF_TYPE : Nat := 0x4d42
def SUPPORTED_BF_OFF_BITS : Nat := 54
def SUPPORTED_BI_SIZE : Nat := 40
def SUPPORTED_BI_BIT_COUNT : Nat := 24
def SUPPORTED_BI_COMPRESSION : Nat := 0

/-- The function `bmp_check_header` of `hbmp_helpers.c`. -/
def bmp_check_header (bf : BITMAPFILEHEADER) (bi : BITMAPINFOHEADER) : Bool :=
  bf.bf_type == SUPPORTED_BF_TYPE
    && bf.bf_offbits == SUPPORTED_BF_OFF_BITS
    && bi.bi_size == SUPPORTED_BI_SIZE
    && bi.bi_bitcount == SUPPORTED_BI_BIT_COUNT
    && bi.bi_compression == SUPPORTED_BI_COMPRESSION

/-! ## `hbmp_io.c` -/

def BMP_SCANLINE_PADDING : Nat := 4
def BF_UNPADDED_REGION_SIZE : Nat := 12

/-- The function `determine_padding` of `hbmp_io.c`; the product and the
difference are taken in `size_t`. -/
def determine_padding (width : Nat) : Nat :=
  ((BMP_SCANLINE_PADDING + SIZE_MOD
      - (width * sizeof_RGBTRIPLE % SIZE_MOD) % BMP_SCANLINE_PADDING) % SIZE_MOD)
    % BMP_SCANLINE_PADDING

/-- What one call of `fread` does: `count` is the value returned (the number
of complete items read), `data` the bytes stored at the destination and
`rest` the stream after the call. -/
structure FreadResult where
  count : Nat
  data : List Nat
  rest : List Nat

/-- The library function `fread (ptr, size, nmemb, in_file)` on a stream that
ends after `in_file`: it transfers `size * nmemb` bytes, or all the remaining
ones when there are fewer. -/
def fread (size nmemb : Nat) (in_file : List Nat) : FreadResult :=
  let n := min (size * nmemb) in_file.length
  { count := n / size, data := in_file.take n, rest := in_file.drop n }

/-- The byte at index `k` of a block of memory. -/
def byte_at (bytes : List Nat) (k : Nat) : Nat := bytes.getD k 0

/-- A `uint16_t` field stored at byte offset `off` (little-endian host). -/
def load_uint16 (bytes : List Nat) (off : Nat) : Nat :=
  byte_at bytes off + 256 * byte_at bytes (off + 1)

/-- A `uint32_t` field stored at byte offset `off` (little-endian host). -/
def load_uint32 (bytes : List Nat) (off : Nat) : Nat :=
  byte_at bytes off + 256 * byte_at bytes (off + 1)
    + 65536 * byte_at bytes (off + 2) + 16777216 * byte_at bytes (off + 3)

/-- An `int32_t` field stored at byte offset `off` (two's complement). -/
def load_int32 (bytes : List Nat) (off : Nat) : Int :=
  if load_uint32 bytes off < 2147483648 then (load_uint32 bytes off : Int)
  else (load_uint32 bytes off : Int) - 4294967296

/-- The two bytes of a `uint16_t` object in memory. -/
def store_uint16 (x : Nat) : List Nat := [x % 256, x / 256 % 256]

/-- The four bytes of a `uint32_t` object in memory. -/
def store_uint32 (x : Nat) : List Nat :=
  [x % 256, x / 256 % 256, x / 65536 % 256, x / 16777216 % 256]

/-- The four bytes of an `int32_t` object in memory. -/
def store_int32 (x : Int) : List Nat := store_uint32 (x % 4294967296).toNat

/-- The file header after `fread (&bf->bf_type, sizeof bf->bf_type, 1, f)` has
stored `sig` and `fread (&bf->bf_size, BF_UNPADDED_REGION_SIZE, 1, f)` has
stored `region` over `bf_size`, `bf_reserved1`, `bf_reserved2`, `bf_offbits`. -/
def load_file_header (sig region : List Nat) : BITMAPFILEHEADER :=
  { bf_type := load_uint16 sig 0
    bf_size := load_uint32 region 0
    bf_reserved1 := load_uint16 region 4
    bf_reserved2 := load_uint16 region 6
    bf_offbits := load_uint32 region 8 }

/-- The info header after `fread (bi, sizeof *bi, 1, f)` has stored `bytes`. -/
def load_info_header (bytes : List Nat) : BITMAPINFOHEADER :=
  { bi_size := load_uint32 bytes 0
    bi_width := load_int32 bytes 4
    bi_height := load_int32 bytes 8
    bi_planes := load_uint16 bytes 12
    bi_bitcount := load_uint16 bytes 14
    bi_compression := load_uint32 bytes 16
    bi_size_image := load_uint32 bytes 20
    bi_x_resolution_ppm := load_int32 bytes 24
    bi_y_resolution_ppm := load_int32 bytes 28
    bi_clr_used := load_uint32 bytes 32
    bi_clr_important := load_uint32 bytes 36 }

/-- The 12 bytes of a file header from `&bf->bf_size` on. -/
def file_header_region (bf : BITMAPFILEHEADER) : List Nat :=
  store_uint32 bf.bf_size ++ store_uint16 bf.bf_reserved1
    ++ store_uint16 bf.bf_reserved2 ++ store_uint32 bf.bf_offbits

/-- The 40 bytes of an info header object. -/
def info_header_bytes (bi : BITMAPINFOHEADER) : List Nat :=
  store_uint32 bi.bi_size ++ store_int32 bi.bi_width ++ store_int32 bi.bi_height
    ++ store_uint16 bi.bi_planes ++ store_uint16 bi.bi_bitcount
    ++ store_uint32 bi.bi_compression ++ store_uint32 bi.bi_size_image
    ++ store_int32 bi.bi_x_resolution_ppm ++ store_int32 bi.bi_y_resolution_ppm
    ++ store_uint32 bi.bi_clr_used ++ store_uint32 bi.bi_clr_important

/-- The row `image[i]` after `width` triples have been read into it from
`bytes`: triple `j` occupies bytes `3j`, `3j+1`, `3j+2` as blue, green, red. -/
def load_row (width : Nat) (bytes : List Nat) : List RGBTRIPLE :=
  (List.range width).map fun j =>
    { rgbt_blue := byte_at bytes (3 * j)
      rgbt_green := byte_at bytes (3 * j + 1)
      rgbt_red := byte_at bytes (3 * j + 2) }

/-- The bytes of one triple in memory. -/
def triple_bytes (p : RGBTRIPLE) : List Nat := [p.rgbt_blue, p.rgbt_green, p.rgbt_red]

/-- The bytes of a row of triples in memory. -/
def row_bytes : List RGBTRIPLE → List Nat
  | [] => []
  | p :: row => triple_bytes p ++ row_bytes row

/-- The buffer `calloc (height, sizeof (RGBTRIPLE[width]))` returns: all zero. -/
def zero_image (height width : Nat) : List (List RGBTRIPLE) :=
  List.replicate height (List.replicate width ⟨0, 0, 0⟩)

/-- The loop of `read_scanlines`, with `n` iterations left and `i` the row
index; `none` is the return value -1. -/
def read_scanlines_loop (width padding : Nat) :
    Nat → Nat → List Nat → List (List RGBTRIPLE) → Option (List Nat × List (List RGBTRIPLE))
  | 0, _, in_file, image => some (in_file, image)
  | n + 1, i, in_file, image =>
    let row := fread sizeof_RGBTRIPLE width in_file
    if row.count ≠ width then none
    else
      let pad := fread 1 padding row.rest
      if pad.count ≠ padding then none
      else read_scanlines_loop width padding n (i + 1) pad.rest
        (image.set i (load_row width row.data))

/-- The function `read_scanlines` of `hbmp_io.c`: the stream and the image
after the call, or `none` when it returns -1. -/
def read_scanlines (in_file : List Nat) (height width : Nat)
    (image : List (List RGBTRIPLE)) (padding : Nat) :
    Option (List Nat × List (List RGBTRIPLE)) :=
  read_scanlines_loop width padding height 0 in_file image

/-- The ways `read_image` returns `NULL`, one for each `fputs` of an error
message in its body. The first and the last print the same text,
"Error - failed to read input file.". -/
inductive ReadError where
  | failed_to_read_header
  | unsupported_file_format
  | dimensions_too_large
  | width_or_height_is_zero
  | width_too_large
  | not_enough_memory
  | failed_to_read_scanlines
deriving DecidableEq

/-- What a successful `read_image` leaves behind: the two headers, `*height_ptr`,
`*width_ptr` and the image returned. -/
structure ReadResult where
  bf : BITMAPFILEHEADER
  bi : BITMAPINFOHEADER
  height : Nat
  width : Nat
  image : List (List RGBTRIPLE)
deriving DecidableEq

/-- The value of `abs_height` in `read_image`:
`bi_height < 0 ? 0u - (uint32_t) bi_height : (uint32_t) bi_height`. -/
def abs_height (bi_height : Int) : Nat :=
  if bi_height < 0 then (0 + 4294967296 - (bi_height % 4294967296).toNat) % 4294967296
  else (bi_height % 4294967296).toNat

/-- The conversion `(size_t) x` of an `int32_t`. -/
def int32_to_size_t (x : Int) : Nat := (x % (SIZE_MOD : Int)).toNat

/-- The function `read_image` of `hbmp_io.c`. `calloc_ok nmemb size` tells
whether `calloc (nmemb, size)` returns a buffer. -/
def read_image (calloc_ok : Nat → Nat → Bool) (in_file : List Nat) :
    Except ReadError ReadResult :=
  let sig := fread 2 1 in_file
  if sig.count ≠ 1 then .error .failed_to_read_header
  else
    let region := fread BF_UNPADDED_REGION_SIZE 1 sig.rest
    if region.count ≠ 1 then .error .failed_to_read_header
    else
      let info := fread 40 1 region.rest
      if info.count ≠ 1 then .error .failed_to_read_header
      else
        let bf := load_file_header sig.data region.data
        let bi := load_info_header info.data
        if !bmp_check_header bf bi then .error .unsupported_file_format
        else if abs_height bi.bi_height > SIZE_MAX then .error .dimensions_too_large
        else
          let height := abs_height bi.bi_height
          let width := int32_to_size_t bi.bi_width
          if height = 0 ∨ width = 0 then .error .width_or_height_is_zero
          else if width > (SIZE_MAX - sizeof_RGBTRIPLE) / sizeof_RGBTRIPLE then
            .error .width_too_large
          else if !calloc_ok height (width * sizeof_RGBTRIPLE % SIZE_MOD) then
            .error .not_enough_memory
          else
            let padding := determine_padding width
            match read_scanlines info.rest height width (zero_image height width) padding with
            | none => .error .failed_to_read_scanlines
            | some (_, image) => .ok ⟨bf, bi, height, width, image⟩

/-- A stream opened for writing: `room` is the number of bytes it still
accepts before a write comes back short, `written` the bytes accepted so far. -/
structure OutFile where
  room : Nat
  written : List Nat

/-- The library function `fwrite (ptr, size, nmemb, out_file)`, where `data`
is the memory at `ptr`: the value returned (the number of complete items
written) and the stream after the call. -/
def fwrite (data : List Nat) (size nmemb : Nat) (out_file : OutFile) : Nat × OutFile :=
  let n := min (size * nmemb) out_file.room
  (n / size, { room := out_file.room - n, written := out_file.written ++ data.take n })

/-- The bytes of `const size_t pad_byte = 0x00` in memory. -/
def pad_byte : List Nat := List.replicate 8 0

/-- The loop of `write_scanlines`, with `n` iterations left and `i` the row
index: the value returned (0 or -1) and the stream after the call. -/
def write_scanlines_loop (width padding : Nat) (image : List (List RGBTRIPLE)) :
    Nat → Nat → OutFile → Int × OutFile
  | 0, _, out_file => (0, out_file)
  | n + 1, i, out_file =>
    let row := fwrite (row_bytes (image.getD i [])) sizeof_RGBTRIPLE width out_file
    if row.1 ≠ width then (-1, row.2)
    else
      let pad := fwrite pad_byte 1 padding row.2
      if pad.1 ≠ padding then (-1, pad.2)
      else write_scanlines_loop width padding image n (i + 1) pad.2

/-- The function `write_scanlines` of `hbmp_io.c`. -/
def write_scanlines (out_file : OutFile) (height width : Nat)
    (image : List (List RGBTRIPLE)) (padding : Nat) : Int × OutFile :=
  write_scanlines_loop width padding image height 0 out_file

/-- The `FILE *out_file` handed to `write_image`: whether it is `stdout`,
whether `freopen` and `fclose` succeed on it, and how many bytes it accepts. -/
structure OutStream where
  is_stdout : Bool
  freopen_ok : Bool
  fclose_ok : Bool
  room : Nat

/-- The function `write_image` of `hbmp_io.c`: the value returned and the
bytes the stream accepted. -/
def write_image (bf : BITMAPFILEHEADER) (bi : BITMAPINFOHEADER) (out_file : OutStream)
    (height width : Nat) (image : List (List RGBTRIPLE)) : Int × List Nat :=
  if !out_file.is_stdout && !out_file.freopen_ok then (-1, [])
  else
    let sig := fwrite (store_uint16 bf.bf_type) 2 1 { room := out_file.room, written := [] }
    if sig.1 ≠ 1 then (-1, sig.2.written)
    else
      let region := fwrite (file_header_region bf) BF_UNPADDED_REGION_SIZE 1 sig.2
      if region.1 ≠ 1 then (-1, region.2.written)
      else
        let info := fwrite (info_header_bytes bi) 40 1 region.2
        if info.1 ≠ 1 then (-1, info.2.written)
        else
          let padding := determine_padding width
          let lines := write_scanlines info.2 height width image padding
          if lines.1 = -1 then (-1, lines.2.written)
          else (if out_file.is_stdout || out_file.fclose_ok then 1 else 0, lines.2.written)

/-! ## `hbmp_filter.c`

Index arithmetic (`i + 1`, `width + 2`, ...) and the channel sums are written
without reduction modulo `2^64`: for a buffer that fits in memory none of them
can wrap (the sums stay below `2^22`). The narrowing casts `(uint8_t) x` are
written `x % 256`. -/

def NEIGHBORHOOD_SIZE : Nat := 9
def SCALE : Nat := 8192
def BLUR_TIMES : Nat := 3

/-- The macro `SCALE_UP(x)`, `(uint_fast32_t) ((x) * SCALE + 0.5)`, on the exact
value of the decimal constant `x` (the conversion truncates). -/
def SCALE_UP (x : ℚ) : Nat := (⌊x * (SCALE : ℚ) + 1 / 2⌋).toNat

/-- The macro `MIN(x, y)`, `((x) < (y) ? (x) : (y))`. -/
def MIN (x y : Nat) : Nat := if x < y then x else y

/-- The loop `for (size_t i = start; ...; ++i) s = body (i, s)` with `n`
iterations left. -/
def for_loop_from {σ : Type} (body : Nat → σ → σ) : Nat → Nat → σ → σ
  | 0, _, s => s
  | n + 1, i, s => for_loop_from body n (i + 1) (body i s)

/-- The loop `for (size_t i = start; i < stop; ++i) s = body (i, s)`. -/
def for_loop {σ : Type} (start stop : Nat) (body : Nat → σ → σ) (s : σ) : σ :=
  for_loop_from body (stop - start) start s

/-- The pixel `image[i][j]` of a buffer. -/
def pixel (image : List (List RGBTRIPLE)) (i j : Nat) : RGBTRIPLE :=
  (image.getD i []).getD j ⟨0, 0, 0⟩

/-- The assignment `image[i][j] = p`. -/
def set_pixel (image : List (List RGBTRIPLE)) (i j : Nat) (p : RGBTRIPLE) :
    List (List RGBTRIPLE) :=
  image.set i ((image.getD i []).set j p)

/-- The function `grayscale` of `hbmp_filter.c`. -/
def grayscale (height width : Nat) (image : List (List RGBTRIPLE)) : List (List RGBTRIPLE) :=
  for_loop 0 height (fun i image =>
    for_loop 0 width (fun j image =>
      let average := (pixel image i j).rgbt_blue + (pixel image i j).rgbt_red
        + (pixel image i j).rgbt_green
      let average := (average + average % 2 + 1) / 3
      set_pixel image i j
        { rgbt_blue := average % 256, rgbt_green := average % 256, rgbt_red := average % 256 })
      image) image

/-- The function `sepia` of `hbmp_filter.c`. -/
def sepia (height width : Nat) (image : List (List RGBTRIPLE)) : List (List RGBTRIPLE) :=
  for_loop 0 height (fun i image =>
    for_loop 0 width (fun j image =>
      let sepia_red :=
        ((SCALE_UP (393 / 1000) * (pixel image i j).rgbt_red
          + SCALE_UP (769 / 1000) * (pixel image i j).rgbt_green
          + SCALE_UP (189 / 1000) * (pixel image i j).rgbt_blue) + SCALE / 2) / SCALE
      let sepia_green :=
        ((SCALE_UP (349 / 1000) * (pixel image i j).rgbt_red
          + SCALE_UP (686 / 1000) * (pixel image i j).rgbt_green
          + SCALE_UP (168 / 1000) * (pixel image i j).rgbt_blue) + SCALE / 2) / SCALE
      let sepia_blue :=
        ((SCALE_UP (272 / 1000) * (pixel image i j).rgbt_red
          + SCALE_UP (534 / 1000) * (pixel image i j).rgbt_green
          + SCALE_UP (131 / 1000) * (pixel image i j).rgbt_blue) + SCALE / 2) / SCALE
      set_pixel image i j
        { rgbt_blue := MIN 255 sepia_blue % 256, rgbt_green := MIN 255 sepia_green % 256,
          rgbt_red := MIN 255 sepia_red % 256 })
      image) image

/-- The function `swap` of `hbmp_filter.c` on `&image[i][lhs]` and `&image[i][rhs]`. -/
def swap (image : List (List RGBTRIPLE)) (i lhs rhs : Nat) : List (List RGBTRIPLE) :=
  let tmp := pixel image i lhs
  let image := set_pixel image i lhs (pixel image i rhs)
  set_pixel image i rhs tmp

/-- The loop `while (start < end) { --end; swap (...); ++start; }` of `reflect`
on row `i`; `stop` is the variable `end`. -/
@[semireducible]
def reflect_while (i start stop : Nat) (image : List (List RGBTRIPLE)) :
    List (List RGBTRIPLE) :=
  if start < stop then
    reflect_while i (start + 1) (stop - 1) (swap image i start (stop - 1))
  else image
termination_by stop - start
decreasing_by omega

/-- The function `reflect` of `hbmp_filter.c`. -/
def reflect (height width : Nat) (image : List (List RGBTRIPLE)) : List (List RGBTRIPLE) :=
  for_loop 0 height (fun i image => reflect_while i 0 width image) image

/-- The three sums `red`, `green`, `blue` of `box_blur` after the loops over
`k` and `l` around `temp[i][j]`. -/
def neighborhood_sums (temp : List (List RGBTRIPLE)) (i j : Nat) : Nat × Nat × Nat :=
  for_loop (i - 1) (i + 2) (fun k sums =>
    for_loop (j - 1) (j + 2) (fun l sums =>
      (sums.1 + (pixel temp k l).rgbt_red, sums.2.1 + (pixel temp k l).rgbt_green,
        sums.2.2 + (pixel temp k l).rgbt_blue)) sums) (0, 0, 0)

/-- The function `box_blur` of `hbmp_filter.c`; `none` when `calloc` returns
no buffer and the function calls `exit (EXIT_FAILURE)`. `calloc_ok nmemb size`
tells whether `calloc (nmemb, size)` returns a buffer. -/
def box_blur (calloc_ok : Nat → Nat → Bool) (height width : Nat)
    (image : List (List RGBTRIPLE)) : Option (List (List RGBTRIPLE)) :=
  if !calloc_ok (height + 2) ((width + 2) * sizeof_RGBTRIPLE) then none
  else
    let temp := zero_image (height + 2) (width + 2)
    let temp := for_loop 0 height (fun i temp =>
      for_loop 0 width (fun j temp => set_pixel temp (i + 1) (j + 1) (pixel image i j)) temp)
      temp
    let temp := for_loop 0 (height + 2) (fun i temp =>
      let temp := set_pixel temp i 0 (pixel temp i 1)
      set_pixel temp i (width + 1) (pixel temp i width)) temp
    let temp := for_loop 0 (width + 2) (fun j temp =>
      let temp := set_pixel temp 0 j (pixel temp 1 j)
      set_pixel temp (height + 1) j (pixel temp height j)) temp
    some (for_loop 1 (height + 1) (fun i image =>
      for_loop 1 (width + 1) (fun j image =>
        let sums := neighborhood_sums temp i j
        set_pixel image (i - 1) (j - 1)
          { rgbt_blue := (sums.2.2 + NEIGHBORHOOD_SIZE / 2) / NEIGHBORHOOD_SIZE % 256
            rgbt_green := (sums.2.1 + NEIGHBORHOOD_SIZE / 2) / NEIGHBORHOOD_SIZE % 256
            rgbt_red := (sums.1 + NEIGHBORHOOD_SIZE / 2) / NEIGHBORHOOD_SIZE % 256 })
        image) image)

/-- The function `blur` of `hbmp_filter.c`: `BLUR_TIMES` calls of `box_blur`,
each on the buffer the previous one left; `none` once a call has exited. -/
def blur (calloc_ok : Nat → Nat → Bool) (height width : Nat)
    (image : List (List RGBTRIPLE)) : Option (List (List RGBTRIPLE)) :=
  for_loop 0 BLUR_TIMES (fun _ state => state.bind (box_blur calloc_ok height width))
    (some image)

/-! ## `main.c` -/

/-- The value of the member `out_file` of `struct flags`: `stdout`, a stream
that `fopen` returned for the named file, or `NULL`. -/
inductive OutFileRef where
  | stdout
  | opened (name : String)
  | null
deriving DecidableEq

/-- The C struct `flags` of `main.c`. -/
structure flags where
  sflag : Bool
  rflag : Bool
  gflag : Bool
  bflag : Bool
  out_file : OutFileRef
deriving DecidableEq

/-- The function `parse_options` of `main.c`. The argument `opts` lists what the
successive calls of `getopt_long` return before -1, each with its `optarg`;
`fopen_ok` tells whether `fopen (optarg, "ab")` succeeds. The result is the
flags at the end of the loop, or the exit status when `help` (status 0) or
`err_and_exit` (status 1) ends the process. -/
def parse_options (fopen_ok : String → Bool) :
    List (Char × String) → flags → Except Nat flags
  | [], opt => .ok opt
  | (c, optarg) :: opts, opt =>
    if c = 's' then parse_options fopen_ok opts { opt with sflag := true }
    else if c = 'r' then parse_options fopen_ok opts { opt with rflag := true }
    else if c = 'g' then parse_options fopen_ok opts { opt with gflag := true }
    else if c = 'b' then parse_options fopen_ok opts { opt with bflag := true }
    else if c = 'h' then .error 0
    else if c = 'o' then
      parse_options fopen_ok opts
        { opt with out_file := if fopen_ok optarg then .opened optarg else .null }
    else .error 1

/-- The flags `main` starts from: `{ false, false, false, false, stdout }`. -/
def initial_flags : flags :=
  { sflag := false, rflag := false, gflag := false, bflag := false, out_file := .stdout }

/-- The function `apply_filter` of `main.c`: the loop over the four entries of
`group`; `none` once `blur` has exited. -/
def apply_filter (calloc_ok : Nat → Nat → Bool) (options : flags) (height width : Nat)
    (image : List (List RGBTRIPLE)) : Option (List (List RGBTRIPLE)) :=
  let group : List (Bool × (List (List RGBTRIPLE) → Option (List (List RGBTRIPLE)))) :=
    [ (options.sflag, fun image => some (sepia height width image)),
      (options.rflag, fun image => some (reflect height width image)),
      (options.gflag, fun image => some (grayscale height width image)),
      (options.bflag, fun image => blur calloc_ok height width image) ]
  for_loop 0 group.length (fun i state =>
    if (group.getD i (false, some)).1 then state.bind (group.getD i (false, some)).2
    else state) (some image)

/-! ## Vocabulary of the statements -/

/-- The file header `read_image` decodes from the first 14 bytes of a stream. -/
def decoded_bf (in_file : List Nat) : BITMAPFILEHEADER :=
  load_file_header (in_file.take 2) ((in_file.drop 2).take 12)

/-- The info header `read_image` decodes from bytes 14 to 53 of a stream. -/
def decoded_bi (in_file : List Nat) : BITMAPINFOHEADER :=
  load_info_header ((in_file.drop 14).take 40)

/-- Every field of the file header holds a value of its C type. -/
def bf_in_range (bf : BITMAPFILEHEADER) : Prop :=
  bf.bf_type < 65536 ∧ bf.bf_size < 4294967296 ∧ bf.bf_reserved1 < 65536
    ∧ bf.bf_reserved2 < 65536 ∧ bf.bf_offbits < 4294967296

/-- A value of type `int32_t`. -/
def int32_in_range (x : Int) : Prop := -2147483648 ≤ x ∧ x < 2147483648

/-- Every field of the info header holds a value of its C type. -/
def bi_in_range (bi : BITMAPINFOHEADER) : Prop :=
  bi.bi_size < 4294967296 ∧ int32_in_range bi.bi_width ∧ int32_in_range bi.bi_height
    ∧ bi.bi_planes < 65536 ∧ bi.bi_bitcount < 65536 ∧ bi.bi_compression < 4294967296
    ∧ bi.bi_size_image < 4294967296 ∧ int32_in_range bi.bi_x_resolution_ppm
    ∧ int32_in_range bi.bi_y_resolution_ppm ∧ bi.bi_clr_used < 4294967296
    ∧ bi.bi_clr_important < 4294967296

/-- Every channel of the triple holds a value of type `uint8_t`. -/
def triple_in_range (p : RGBTRIPLE) : Prop :=
  p.rgbt_blue < 256 ∧ p.rgbt_green < 256 ∧ p.rgbt_red < 256

/-- The list is an object of type `RGBTRIPLE[height][width]`. -/
def is_image (height width : Nat) (image : List (List RGBTRIPLE)) : Prop :=
  image.length = height ∧ ∀ row ∈ image, row.length = width ∧ ∀ p ∈ row, triple_in_range p

/-- The list has `height` rows of `width` triples each. -/
def has_shape (height width : Nat) (image : List (List RGBTRIPLE)) : Prop :=
  image.length = height ∧ ∀ row ∈ image, row.length = width

/-- Rounding half-up to the nearest integer. -/
def round_half_up (q : ℚ) : Int := ⌊q + 1 / 2⌋

/-- Clamping to the interval from 0 to 255. -/
def clamp_byte (z : Int) : Int := max 0 (min 255 z)

/-- The value `x` clamped to the interval from `lo` to `hi`. -/
def clamp (x lo hi : Int) : Int := max lo (min hi x)

/-- The sum of one channel of `B` over the nine positions
`(clamp (i + di, 0, h - 1), clamp (j + dj, 0, w - 1))`, `di` and `dj` in -1, 0, 1. -/
def box_sum (channel : RGBTRIPLE → Nat) (B : List (List RGBTRIPLE)) (h w i j : Nat) : Nat :=
  (([-1, 0, 1] : List Int).map fun di =>
    (([-1, 0, 1] : List Int).map fun dj =>
      channel (pixel B (clamp ((i : Int) + di) 0 ((h : Int) - 1)).toNat
        (clamp ((j : Int) + dj) 0 ((w : Int) - 1)).toNat)).sum).sum

/-- The sum `R + G + B` of the three channels of a pixel. -/
def channel_sum (p : RGBTRIPLE) : Nat := p.rgbt_red + p.rgbt_green + p.rgbt_blue

/-- The value `f x` when the flag is set, `x` itself otherwise. -/
def apply_if {α : Type} (flag : Bool) (f : α → α) (x : α) : α := if flag then f x else x

/-- Every element of the stream is a byte. -/
def is_bytes (bytes : List Nat) : Prop := ∀ b ∈ bytes, b < 256

/-- The first `n` bytes of the stream `f` with every padding byte replaced by
zero, a byte at offset `k` being a padding byte when it lies in the pixel
data, `54 ≤ k`, at one of the last `padding` places of its scanline of
`3 * width + padding` bytes. -/
def clear_padding (width padding : Nat) (f : List Nat) (n : Nat) : List Nat :=
  (List.range n).map fun k =>
    if 54 ≤ k ∧ 3 * width ≤ (k - 54) % (3 * width + padding) then 0 else byte_at f k

/-- The image whose row `i` holds the first `width` triples of scanline `i`
of the pixel data, a scanline being `3 * width + padding` bytes long. -/
def scanline_image (height width padding : Nat) (pixels : List Nat) :
    List (List RGBTRIPLE) :=
  (List.range height).map fun i =>
    load_row width ((pixels.drop (i * (3 * width + padding))).take (3 * width))

/-- A 54-byte header of the supported profile with the given width and height bytes. -/
def sample_header (w0 h0 h1 h2 h3 : Nat) : List Nat :=
  [0x42, 0x4d, 0, 0, 0, 0, 0, 0, 0, 0, 54, 0, 0, 0,
   40, 0, 0, 0, w0, 0, 0, 0, h0, h1, h2, h3, 1, 0, 24, 0,
   0, 0, 0, 0, 0, 0, 0, 0, 0, 0, 0, 0, 0, 0, 0, 0, 0, 0, 0, 0, 0, 0, 0, 0]

/-! ## Header validator -/

/-- C1: `bmp_check_header` returns true exactly when the signature is 0x4D42,
the pixel offset 54, the info-header size 40, the bit count 24 and the
compression 0; replacing every other field of both headers by arbitrary values
leaves the result unchanged. -/
theorem bmp_check_header_iff (bf : BITMAPFILEHEADER) (bi : BITMAPINFOHEADER) :
    (bmp_check_header bf bi = true ↔
      bf.bf_type = 0x4D42 ∧ bf.bf_offbits = 54 ∧ bi.bi_size = 40
        ∧ bi.bi_bitcount = 24 ∧ bi.bi_compression = 0)
    ∧ ∀ (size r1 r2 : Nat) (width height : Int) (planes size_image : Nat)
        (xres yres : Int) (used important : Nat),
        bmp_check_header ⟨bf.bf_type, size, r1, r2, bf.bf_offbits⟩
          ⟨bi.bi_size, width, height, planes, bi.bi_bitcount, bi.bi_compression,
            size_image, xres, yres, used, important⟩
          = bmp_check_header bf bi := by
  refine ⟨?_, ?_⟩
  · simp [bmp_check_header, SUPPORTED_BF_TYPE, SUPPORTED_BF_OFF_BITS, SUPPORTED_BI_SIZE,
      SUPPORTED_BI_BIT_COUNT, SUPPORTED_BI_COMPRESSION, and_assoc]
  · intros
    rfl

/-! ## Row padding -/

theorem determine_padding_eq (w : Nat) : determine_padding w = w % 4 := by
  simp only [determine_padding, BMP_SCANLINE_PADDING, SIZE_MOD, sizeof_RGBTRIPLE]
  omega

/-- C2: for every width `w` (whether or not `3 * w` fits in `size_t`),
`determine_padding w` is one of 0, 1, 2, 3, `3 * w + determine_padding w` is
the least multiple of 4 that is at least `3 * w`, the padding equals `w mod 4`,
and widths 1, 2, 3, 4 give 1, 2, 3, 0. -/
theorem determine_padding_spec (w : Nat) :
    determine_padding w < 4
    ∧ (3 * w + determine_padding w) % 4 = 0
    ∧ (∀ m, 3 * w ≤ m → m % 4 = 0 → 3 * w + determine_padding w ≤ m)
    ∧ determine_padding w = w % 4
    ∧ determine_padding 1 = 1 ∧ determine_padding 2 = 2
    ∧ determine_padding 3 = 3 ∧ determine_padding 4 = 0 := by
  have h := determine_padding_eq w
  refine ⟨by omega, by omega, ?_, h, by decide, by decide, by decide, by decide⟩
  intro m h1 h2
  omega

theorem determine_padding_spec_witness :
    determine_padding 5 < 4 ∧ 3 * 5 + determine_padding 5 ≤ 16 :=
  ⟨(determine_padding_spec 5).1, (determine_padding_spec 5).2.2.1 16 (by decide) (by decide)⟩

/-! ## Reading: how `fread` and the scanline loop behave -/

theorem fread_of_le (size nmemb : Nat) (f : List Nat) (hs : 0 < size)
    (h : size * nmemb ≤ f.length) :
    fread size nmemb f = ⟨nmemb, f.take (size * nmemb), f.drop (size * nmemb)⟩ := by
  simp only [fread, Nat.min_eq_left h]
  congr 1
  exact Nat.mul_div_cancel_left nmemb hs

theorem fread_count_of_lt (size nmemb : Nat) (f : List Nat)
    (h : f.length < size * nmemb) : (fread size nmemb f).count ≠ nmemb := by
  simp only [fread, Nat.min_eq_right (Nat.le_of_lt h)]
  have hs : 0 < size := by
    rcases Nat.eq_zero_or_pos size with h0 | h0
    · subst h0; simp at h
    · exact h0
  have : f.length / size < nmemb := (Nat.div_lt_iff_lt_mul hs).2 (by rw [Nat.mul_comm]; exact h)
  omega

theorem read_scanlines_loop_none (w p : Nat) :
    ∀ (n i : Nat) (f : List Nat) (image : List (List RGBTRIPLE)),
      f.length < n * (3 * w + p) → read_scanlines_loop w p n i f image = none := by
  intro n
  induction n with
  | zero => intro i f image h; simp at h
  | succ n ih =>
    intro i f image h
    rw [read_scanlines_loop]
    by_cases h1 : f.length < 3 * w
    · have := fread_count_of_lt 3 w f h1
      simp only [sizeof_RGBTRIPLE]
      rw [if_pos this]
    · have h1 : 3 * w ≤ f.length := Nat.le_of_not_lt h1
      simp only [sizeof_RGBTRIPLE]
      rw [fread_of_le 3 w f (by decide) h1]
      simp only [ne_eq, not_true_eq_false, if_false]
      by_cases h2 : (f.drop (3 * w)).length < 1 * p
      · have := fread_count_of_lt 1 p _ h2
        rw [if_pos this]
      · have h2 : 1 * p ≤ (f.drop (3 * w)).length := Nat.le_of_not_lt h2
        rw [fread_of_le 1 p _ (by decide) h2]
        simp only [ne_eq, not_true_eq_false, if_false]
        apply ih
        simp only [List.length_drop] at h2 ⊢
        have : (n + 1) * (3 * w + p) = n * (3 * w + p) + (3 * w + p) := Nat.succ_mul _ _
        omega

theorem read_scanlines_loop_some (w p : Nat) :
    ∀ (n i : Nat) (f : List Nat) (image : List (List RGBTRIPLE)),
      n * (3 * w + p) ≤ f.length →
      ∃ image', read_scanlines_loop w p n i f image = some (f.drop (n * (3 * w + p)), image')
        ∧ image'.length = image.length
        ∧ ∀ k, image'[k]? =
            if i ≤ k ∧ k < i + n ∧ k < image.length then
              some (load_row w ((f.drop ((k - i) * (3 * w + p))).take (3 * w)))
            else image[k]? := by
  intro n
  induction n with
  | zero =>
    intro i f image _
    refine ⟨image, by simp [read_scanlines_loop], rfl, ?_⟩
    intro k
    rw [if_neg (by omega)]
  | succ n ih =>
    intro i f image h
    have hs : (n + 1) * (3 * w + p) = n * (3 * w + p) + (3 * w + p) := Nat.succ_mul _ _
    have h1 : 3 * w ≤ f.length := by omega
    have h2 : 1 * p ≤ (f.drop (3 * w)).length := by
      simp only [List.length_drop]; omega
    have h3 : n * (3 * w + p) ≤ (List.drop (1 * p) (List.drop (3 * w) f)).length := by
      simp only [List.length_drop]; omega
    obtain ⟨image', e1, e2, e3⟩ := ih (i + 1) (List.drop (1 * p) (List.drop (3 * w) f))
      (image.set i (load_row w (f.take (3 * w)))) h3
    refine ⟨image', ?_, ?_, ?_⟩
    · rw [read_scanlines_loop]
      simp only [sizeof_RGBTRIPLE]
      rw [fread_of_le 3 w f (by decide) h1]
      simp only [ne_eq, not_true_eq_false, if_false]
      rw [fread_of_le 1 p _ (by decide) h2]
      simp only [ne_eq, not_true_eq_false, if_false]
      rw [e1]
      simp only [List.drop_drop]
      congr 3
      omega
    · rw [e2, List.length_set]
    · intro k
      rw [e3 k, List.length_set, List.getElem?_set]
      by_cases hk : i + 1 ≤ k ∧ k < i + 1 + n ∧ k < image.length
      · rw [if_pos hk, if_pos (by omega)]
        simp only [List.drop_drop]
        have : 3 * w + 1 * p + (k - (i + 1)) * (3 * w + p) = (k - i) * (3 * w + p) := by
          have e : k - i = (k - (i + 1)) + 1 := by omega
          rw [e]
          ring
        rw [this]
      · rw [if_neg hk]
        by_cases hik : i = k
        · subst hik
          rw [if_pos rfl]
          by_cases hl : i < image.length
          · rw [if_pos hl, if_pos (by omega)]
            simp
          · rw [if_neg hl, if_neg (by omega)]
            simp only [Nat.not_lt] at hl
            exact (List.getElem?_eq_none hl).symm
        · rw [if_neg hik, if_neg (by omega)]

theorem read_scanlines_zero_image (h w p : Nat) (f : List Nat) :
    read_scanlines f h w (zero_image h w) p =
      if f.length < h * (3 * w + p) then none
      else some (f.drop (h * (3 * w + p)), scanline_image h w p f) := by
  unfold read_scanlines
  by_cases hl : f.length < h * (3 * w + p)
  · rw [if_pos hl]
    exact read_scanlines_loop_none w p h 0 f _ hl
  · rw [if_neg hl]
    obtain ⟨image', e1, e2, e3⟩ :=
      read_scanlines_loop_some w p h 0 f (zero_image h w) (Nat.le_of_not_lt hl)
    rw [e1]
    congr 2
    have hz : (zero_image h w).length = h := by simp [zero_image]
    apply List.ext_getElem?
    intro k
    rw [e3 k, hz]
    simp only [scanline_image, List.getElem?_map]
    by_cases hk : k < h
    · rw [if_pos (by omega), List.getElem?_range hk]
      simp
    · rw [if_neg (by omega)]
      have hk : h ≤ k := Nat.le_of_not_lt hk
      rw [List.getElem?_eq_none (by rw [hz]; exact hk),
        List.getElem?_eq_none (by simpa using hk)]
      rfl

theorem read_image_eq (c : Nat → Nat → Bool) (s : List Nat) :
    read_image c s =
      if s.length < 54 then .error .failed_to_read_header
      else if !bmp_check_header (decoded_bf s) (decoded_bi s) then
        .error .unsupported_file_format
      else if abs_height (decoded_bi s).bi_height > SIZE_MAX then .error .dimensions_too_large
      else if abs_height (decoded_bi s).bi_height = 0
          ∨ int32_to_size_t (decoded_bi s).bi_width = 0 then
        .error .width_or_height_is_zero
      else if int32_to_size_t (decoded_bi s).bi_width > (SIZE_MAX - 3) / 3 then
        .error .width_too_large
      else if !c (abs_height (decoded_bi s).bi_height)
          (int32_to_size_t (decoded_bi s).bi_width * 3 % SIZE_MOD) then
        .error .not_enough_memory
      else if s.length < 54 + abs_height (decoded_bi s).bi_height
          * (3 * int32_to_size_t (decoded_bi s).bi_width
            + determine_padding (int32_to_size_t (decoded_bi s).bi_width)) then
        .error .failed_to_read_scanlines
      else .ok ⟨decoded_bf s, decoded_bi s, abs_height (decoded_bi s).bi_height,
        int32_to_size_t (decoded_bi s).bi_width,
        scanline_image (abs_height (decoded_bi s).bi_height)
          (int32_to_size_t (decoded_bi s).bi_width)
          (determine_padding (int32_to_size_t (decoded_bi s).bi_width)) (s.drop 54)⟩ := by
  unfold read_image
  by_cases h2 : s.length < 2 * 1
  · rw [if_pos (fread_count_of_lt 2 1 s h2), if_pos (by omega)]
  have h2 : 2 * 1 ≤ s.length := Nat.le_of_not_lt h2
  rw [fread_of_le 2 1 s (by decide) h2]
  simp only [ne_eq, not_true_eq_false, if_false, BF_UNPADDED_REGION_SIZE]
  by_cases h14 : (s.drop (2 * 1)).length < 12 * 1
  · rw [if_pos (fread_count_of_lt 12 1 _ h14), if_pos (by simp at h14; omega)]
  have h14 : 12 * 1 ≤ (s.drop (2 * 1)).length := Nat.le_of_not_lt h14
  rw [fread_of_le 12 1 _ (by decide) h14]
  simp only [ne_eq, not_true_eq_false, if_false]
  by_cases h54 : (List.drop (12 * 1) (s.drop (2 * 1))).length < 40 * 1
  · rw [if_pos (fread_count_of_lt 40 1 _ h54), if_pos (by simp at h54; omega)]
  have h54 : 40 * 1 ≤ (List.drop (12 * 1) (s.drop (2 * 1))).length := Nat.le_of_not_lt h54
  rw [fread_of_le 40 1 _ (by decide) h54]
  simp only [ne_eq, not_true_eq_false, if_false]
  have hlen : ¬ s.length < 54 := by simp at h54; omega
  rw [if_neg hlen]
  simp only [List.drop_drop, Nat.mul_one, sizeof_RGBTRIPLE]
  have e1 : load_file_header (List.take 2 s) (List.take 12 (List.drop 2 s)) = decoded_bf s := rfl
  have e2 : load_info_header (List.take 40 (List.drop (2 + 12) s)) = decoded_bi s := rfl
  rw [e1, e2, read_scanlines_zero_image]
  simp only [List.length_drop]
  have e3 : ∀ x, (s.length - (2 + 12 + 40) < x) = (s.length < 54 + x) := by
    intro x
    apply propext
    omega
  simp only [e3]
  split_ifs <;> rfl

/-! ## Ranges of the decoded fields -/

theorem abs_height_lt (x : Int) : abs_height x < 4294967296 := by
  unfold abs_height
  split_ifs <;> omega

theorem abs_height_of_in_range (x : Int) (hx : int32_in_range x) : abs_height x = x.natAbs := by
  unfold int32_in_range at hx
  unfold abs_height
  split_ifs <;> omega

theorem int32_to_size_t_of_nonneg (x : Int) (h0 : 0 ≤ x) (hx : x < 2147483648) :
    (int32_to_size_t x : Int) = x := by
  unfold int32_to_size_t SIZE_MOD
  omega

theorem int32_to_size_t_of_neg (x : Int) (h0 : x < 0) (hx : -2147483648 ≤ x) :
    int32_to_size_t x > (SIZE_MAX - 3) / 3 := by
  unfold int32_to_size_t SIZE_MOD SIZE_MAX
  omega

theorem byte_at_lt (l : List Nat) (hl : is_bytes l) (k : Nat) : byte_at l k < 256 := by
  unfold byte_at
  rw [List.getD_eq_getElem?_getD]
  cases h : l[k]? with
  | none => simp
  | some b =>
    simp only [Option.getD_some]
    exact hl b (List.getElem?_mem h)

theorem load_int32_in_range (l : List Nat) (hl : is_bytes l) (off : Nat) :
    int32_in_range (load_int32 l off) := by
  have h0 := byte_at_lt l hl off
  have h1 := byte_at_lt l hl (off + 1)
  have h2 := byte_at_lt l hl (off + 2)
  have h3 := byte_at_lt l hl (off + 3)
  unfold int32_in_range load_int32 load_uint32
  split_ifs <;> omega

theorem load_int32_neg (l : List Nat) (off : Nat) (h : load_int32 l off < 0) :
    -2147483648 ≤ load_int32 l off := by
  unfold load_int32 at h ⊢
  split_ifs at h ⊢ <;> omega

theorem is_bytes_take_drop (s : List Nat) (hs : is_bytes s) (a b : Nat) :
    is_bytes ((s.drop a).take b) := by
  intro x hx
  exact hs x (List.mem_of_mem_drop (List.mem_of_mem_take hx))

/-! ## Decoding: the error paths -/

/-- C10: a stream of fewer than 54 bytes makes `read_image` fail with the read
error of the header, whatever the bytes are. -/
theorem read_image_truncated_header (c : Nat → Nat → Bool) (s : List Nat)
    (h : s.length < 54) : read_image c s = .error .failed_to_read_header := by
  rw [read_image_eq, if_pos h]

theorem read_image_truncated_header_witness :
    [0x42, 0x4d, 0, 0].length < 54
      ∧ read_image (fun _ _ => true) [0x42, 0x4d, 0, 0] = .error .failed_to_read_header :=
  ⟨by decide, read_image_truncated_header _ _ (by decide)⟩

/-- C6: on a stream of at least 54 bytes whose decoded headers fail
`bmp_check_header`, `read_image` fails with the unsupported-format error,
whatever the width, the height and the pixel data are; a stream that starts
with the two bytes 'XX' is such a stream. -/
theorem read_image_unsupported (c : Nat → Nat → Bool) (s : List Nat) (hlen : 54 ≤ s.length) :
    (bmp_check_header (decoded_bf s) (decoded_bi s) = false →
      read_image c s = .error .unsupported_file_format)
    ∧ (byte_at s 0 = 0x58 → byte_at s 1 = 0x58 →
      read_image c s = .error .unsupported_file_format) := by
  have key : bmp_check_header (decoded_bf s) (decoded_bi s) = false →
      read_image c s = .error .unsupported_file_format := by
    intro h
    rw [read_image_eq, if_neg (by omega), h]
    rfl
  refine ⟨key, ?_⟩
  intro h0 h1
  apply key
  have ht : (decoded_bf s).bf_type = 0x5858 := by
    simp only [decoded_bf, load_file_header, load_uint16, byte_at] at h0 h1 ⊢
    rw [List.getD_eq_getElem?_getD] at h0 h1 ⊢
    rw [List.getD_eq_getElem?_getD]
    simp only [List.getElem?_take] at h0 h1 ⊢
    simp only [Nat.zero_lt_succ, if_true, Nat.zero_add, Nat.one_lt_ofNat] at h0 h1 ⊢
    rw [h0, h1]
  simp [bmp_check_header, ht, SUPPORTED_BF_TYPE]

theorem read_image_unsupported_witness :
    read_image (fun _ _ => true) (0x58 :: 0x58 :: List.replicate 52 0)
      = .error .unsupported_file_format :=
  (read_image_unsupported (fun _ _ => true) (0x58 :: 0x58 :: List.replicate 52 0)
    (by decide)).2 (by decide) (by decide)

/-- C7: on a stream whose headers pass `bmp_check_header` and whose width field
or height field is 0, `read_image` fails with the error "width or height is
zero", whatever pixel data follows. -/
theorem read_image_zero_dimension (c : Nat → Nat → Bool) (s : List Nat) (hlen : 54 ≤ s.length)
    (hchk : bmp_check_header (decoded_bf s) (decoded_bi s) = true)
    (hz : (decoded_bi s).bi_width = 0 ∨ (decoded_bi s).bi_height = 0) :
    read_image c s = .error .width_or_height_is_zero := by
  have hh := abs_height_lt (decoded_bi s).bi_height
  rw [read_image_eq, if_neg (by omega), hchk]
  simp only [Bool.not_true, Bool.false_eq_true, if_false]
  rw [if_neg (by unfold SIZE_MAX; omega), if_pos]
  rcases hz with hz | hz
  · right
    rw [hz]
    rfl
  · left
    rw [hz]
    rfl

theorem read_image_zero_dimension_witness :
    read_image (fun _ _ => true) (sample_header 0 2 0 0 0 ++ [1, 2, 3])
      = .error .width_or_height_is_zero :=
  read_image_zero_dimension _ _ (by decide) (by decide) (by decide)

/-! ## Decoding: the dimensions accepted -/

/-- What `read_image` returns when it succeeds, read off `read_image_eq`. -/
theorem read_image_ok (c : Nat → Nat → Bool) (s : List Nat) (r : ReadResult)
    (h : read_image c s = .ok r) :
    54 ≤ s.length
    ∧ bmp_check_header (decoded_bf s) (decoded_bi s) = true
    ∧ abs_height (decoded_bi s).bi_height ≠ 0
    ∧ int32_to_size_t (decoded_bi s).bi_width ≠ 0
    ∧ int32_to_size_t (decoded_bi s).bi_width ≤ (SIZE_MAX - 3) / 3
    ∧ c (abs_height (decoded_bi s).bi_height)
        (int32_to_size_t (decoded_bi s).bi_width * 3 % SIZE_MOD) = true
    ∧ 54 + abs_height (decoded_bi s).bi_height
          * (3 * int32_to_size_t (decoded_bi s).bi_width
            + determine_padding (int32_to_size_t (decoded_bi s).bi_width)) ≤ s.length
    ∧ r = ⟨decoded_bf s, decoded_bi s, abs_height (decoded_bi s).bi_height,
        int32_to_size_t (decoded_bi s).bi_width,
        scanline_image (abs_height (decoded_bi s).bi_height)
          (int32_to_size_t (decoded_bi s).bi_width)
          (determine_padding (int32_to_size_t (decoded_bi s).bi_width)) (s.drop 54)⟩ := by
  rw [read_image_eq] at h
  split_ifs at h with h1 h2 h3 h4 h5 h6 h7
  simp only [Except.ok.injEq] at h
  refine ⟨by omega, by simpa using h2, fun e => h4 (Or.inl e), fun e => h4 (Or.inr e),
    by omega, by simpa using h6, by omega, h.symm⟩

theorem decoded_bi_in_range (s : List Nat) (hs : is_bytes s) :
    int32_in_range (decoded_bi s).bi_width ∧ int32_in_range (decoded_bi s).bi_height :=
  ⟨load_int32_in_range _ (is_bytes_take_drop s hs 14 40) 4,
    load_int32_in_range _ (is_bytes_take_drop s hs 14 40) 8⟩

/-- C8: when `read_image` succeeds on a stream of bytes, the height returned
is the absolute value of the height field as an integer (and `abs_height`
maps -2^31 to 2^31), the width returned is the width field as a signed 32-bit
value, and both are at least 1; a stream whose width field is negative is
never decoded successfully. -/
theorem read_image_dimensions (c : Nat → Nat → Bool) (s : List Nat) (hs : is_bytes s) :
    (∀ r, read_image c s = .ok r →
      r.bi = decoded_bi s
      ∧ r.height = r.bi.bi_height.natAbs
      ∧ (r.width : Int) = r.bi.bi_width
      ∧ 1 ≤ r.height ∧ 1 ≤ r.width)
    ∧ abs_height (-2147483648) = 2147483648
    ∧ ((decoded_bi s).bi_width < 0 → ∃ e, read_image c s = .error e) := by
  obtain ⟨hw, hh⟩ := decoded_bi_in_range s hs
  have hneg : (decoded_bi s).bi_width < 0 → ∀ r, read_image c s ≠ .ok r := by
    intro hlt r hr
    obtain ⟨_, _, _, _, h5, _⟩ := read_image_ok c s r hr
    have := int32_to_size_t_of_neg _ hlt hw.1
    omega
  refine ⟨?_, by decide, ?_⟩
  · intro r hr
    obtain ⟨_, _, h3, h4, h5, _, _, rfl⟩ := read_image_ok c s r hr
    have hnn : 0 ≤ (decoded_bi s).bi_width := by
      by_contra hlt
      exact hneg (by omega) _ hr
    have e := int32_to_size_t_of_nonneg _ hnn hw.2
    refine ⟨rfl, abs_height_of_in_range _ hh, e, ?_, ?_⟩
    · show 1 ≤ abs_height (decoded_bi s).bi_height
      omega
    · show 1 ≤ int32_to_size_t (decoded_bi s).bi_width
      omega
  · intro hlt
    cases hr : read_image c s with
    | error e => exact ⟨e, rfl⟩
    | ok r => exact absurd hr (hneg hlt r)

theorem read_image_dimensions_witness :
    (∀ r, read_image (fun _ _ => true) (sample_header 1 0xff 0xff 0xff 0xff ++ [1, 2, 3, 0])
        = .ok r →
      r.bi = decoded_bi (sample_header 1 0xff 0xff 0xff 0xff ++ [1, 2, 3, 0])
      ∧ r.height = r.bi.bi_height.natAbs
      ∧ (r.width : Int) = r.bi.bi_width
      ∧ 1 ≤ r.height ∧ 1 ≤ r.width)
    ∧ read_image (fun _ _ => true) (sample_header 1 0xff 0xff 0xff 0xff ++ [1, 2, 3, 0])
        = .ok ⟨decoded_bf (sample_header 1 0xff 0xff 0xff 0xff),
            decoded_bi (sample_header 1 0xff 0xff 0xff 0xff), 1, 1, [[⟨1, 2, 3⟩]]⟩ :=
  ⟨(read_image_dimensions (fun _ _ => true)
      (sample_header 1 0xff 0xff 0xff 0xff ++ [1, 2, 3, 0]) (by unfold is_bytes; decide)).1,
    rfl⟩

/-! ## Decoding: the pixels -/

theorem byte_at_take_drop (f : List Nat) (a n k : Nat) (hk : k < n) :
    byte_at ((f.drop a).take n) k = byte_at f (a + k) := by
  unfold byte_at
  rw [List.getD_eq_getElem?_getD, List.getD_eq_getElem?_getD, List.getElem?_take, if_pos hk,
    List.getElem?_drop]

theorem length_scanline_image (h w p : Nat) (f : List Nat) :
    (scanline_image h w p f).length = h := by
  simp [scanline_image]

theorem length_load_row (w : Nat) (bytes : List Nat) : (load_row w bytes).length = w := by
  simp [load_row]

theorem row_length_scanline_image (h w p : Nat) (f : List Nat) :
    ∀ row ∈ scanline_image h w p f, row.length = w := by
  intro row hrow
  simp only [scanline_image, List.mem_map] at hrow
  obtain ⟨i, _, rfl⟩ := hrow
  exact length_load_row _ _

theorem pixel_load_row (w : Nat) (bytes : List Nat) (j : Nat) (hj : j < w) :
    (load_row w bytes).getD j ⟨0, 0, 0⟩
      = ⟨byte_at bytes (3 * j), byte_at bytes (3 * j + 1), byte_at bytes (3 * j + 2)⟩ := by
  simp [load_row, List.getD_eq_getElem?_getD, List.getElem?_map, List.getElem?_range hj]

theorem pixel_scanline_image (h w p : Nat) (f : List Nat) (i j : Nat) (hi : i < h)
    (hj : j < w) :
    pixel (scanline_image h w p f) i j
      = ⟨byte_at f (i * (3 * w + p) + 3 * j), byte_at f (i * (3 * w + p) + 3 * j + 1),
          byte_at f (i * (3 * w + p) + 3 * j + 2)⟩ := by
  have hrow : (scanline_image h w p f).getD i []
      = load_row w ((f.drop (i * (3 * w + p))).take (3 * w)) := by
    simp [scanline_image, List.getD_eq_getElem?_getD, List.getElem?_map, List.getElem?_range hi]
  unfold pixel
  rw [hrow, pixel_load_row _ _ _ hj, byte_at_take_drop _ _ _ _ (by omega),
    byte_at_take_drop _ _ _ _ (by omega), byte_at_take_drop _ _ _ _ (by omega)]
  simp only [Nat.add_assoc]

theorem byte_at_drop (f : List Nat) (a k : Nat) : byte_at (f.drop a) k = byte_at f (a + k) := by
  unfold byte_at
  rw [List.getD_eq_getElem?_getD, List.getD_eq_getElem?_getD, List.getElem?_drop]

theorem load_row_congr (w : Nat) (b1 b2 : List Nat)
    (hb : ∀ k, k < 3 * w → byte_at b1 k = byte_at b2 k) : load_row w b1 = load_row w b2 := by
  unfold load_row
  apply List.map_congr_left
  intro j hj
  have hj : j < w := List.mem_range.1 hj
  rw [hb (3 * j) (by omega), hb (3 * j + 1) (by omega), hb (3 * j + 2) (by omega)]

theorem scanline_image_congr (h w p : Nat) (f1 f2 : List Nat)
    (hb : ∀ i j k, i < h → j < w → k < 3 →
      byte_at f1 (i * (3 * w + p) + 3 * j + k) = byte_at f2 (i * (3 * w + p) + 3 * j + k)) :
    scanline_image h w p f1 = scanline_image h w p f2 := by
  unfold scanline_image
  apply List.map_congr_left
  intro i hi
  have hi : i < h := List.mem_range.1 hi
  apply load_row_congr
  intro k hk
  rw [byte_at_take_drop _ _ _ _ hk, byte_at_take_drop _ _ _ _ hk]
  have e : k = 3 * (k / 3) + k % 3 := (Nat.div_add_mod k 3).symm
  have := hb i (k / 3) (k % 3) hi (by omega) (Nat.mod_lt _ (by decide))
  rw [Nat.add_assoc, ← e] at this
  exact this

theorem decoded_bf_take (s : List Nat) : decoded_bf (s.take 54) = decoded_bf s := by
  unfold decoded_bf
  rw [List.take_take, List.drop_take, List.take_take]
  rfl

theorem decoded_bi_take (s : List Nat) : decoded_bi (s.take 54) = decoded_bi s := by
  unfold decoded_bi
  rw [List.drop_take, List.take_take]
  rfl

/-- C3: when `read_image` succeeds with height `h` and width `w`, the buffer
has `h` rows of `w` triples and pixel `(i, j)` holds, as blue, green and red,
the stream bytes at offsets `54 + i * (3 * w + p) + 3 * j`, `+ 1` and `+ 2`
with `p = determine_padding w`: rows are in file order whatever the sign of
the height field. Any other stream that is long enough, has the same 54
header bytes and the same bytes at those offsets decodes to the same result,
so padding bytes and trailing bytes have no influence. -/
theorem read_image_pixels (c : Nat → Nat → Bool) (s : List Nat) (r : ReadResult)
    (h : read_image c s = .ok r) :
    r.image.length = r.height
    ∧ (∀ row ∈ r.image, row.length = r.width)
    ∧ (∀ i j, i < r.height → j < r.width →
        pixel r.image i j =
          ⟨byte_at s (54 + i * (3 * r.width + determine_padding r.width) + 3 * j),
            byte_at s (54 + i * (3 * r.width + determine_padding r.width) + 3 * j + 1),
            byte_at s (54 + i * (3 * r.width + determine_padding r.width) + 3 * j + 2)⟩)
    ∧ (∀ s' : List Nat,
        54 + r.height * (3 * r.width + determine_padding r.width) ≤ s'.length →
        s'.take 54 = s.take 54 →
        (∀ i j k, i < r.height → j < r.width → k < 3 →
          byte_at s' (54 + i * (3 * r.width + determine_padding r.width) + 3 * j + k)
            = byte_at s (54 + i * (3 * r.width + determine_padding r.width) + 3 * j + k)) →
        read_image c s' = .ok r) := by
  obtain ⟨h1, h2, h3, h4, h5, h6, h7, rfl⟩ := read_image_ok c s r h
  refine ⟨length_scanline_image _ _ _ _, row_length_scanline_image _ _ _ _, ?_, ?_⟩
  · intro i j hi hj
    rw [pixel_scanline_image _ _ _ _ i j hi hj, byte_at_drop, byte_at_drop, byte_at_drop]
    simp only [Nat.add_assoc]
  · intro s' hlen htake hbytes
    simp only at hlen hbytes
    have ebf : decoded_bf s' = decoded_bf s := by
      rw [← decoded_bf_take s', htake, decoded_bf_take]
    have ebi : decoded_bi s' = decoded_bi s := by
      rw [← decoded_bi_take s', htake, decoded_bi_take]
    rw [read_image_eq, ebf, ebi, if_neg (by omega), h2]
    simp only [Bool.not_true, Bool.false_eq_true, if_false]
    have hh := abs_height_lt (decoded_bi s).bi_height
    rw [if_neg (by unfold SIZE_MAX; omega), if_neg (by omega), if_neg (by omega), h6]
    simp only [Bool.not_true, Bool.false_eq_true, if_false]
    rw [if_neg (by omega)]
    congr 2
    apply scanline_image_congr
    intro i j k hi hj hk
    rw [byte_at_drop, byte_at_drop]
    have := hbytes i j k hi hj hk
    simp only [Nat.add_assoc] at this ⊢
    exact this

theorem read_image_pixels_witness :
    read_image (fun _ _ => true)
        (sample_header 2 0xfe 0xff 0xff 0xff ++ [1, 2, 3, 4, 5, 6, 9, 9, 7, 8, 9, 10, 11, 12, 9, 9])
      = .ok ⟨decoded_bf (sample_header 2 0xfe 0xff 0xff 0xff),
          decoded_bi (sample_header 2 0xfe 0xff 0xff 0xff), 2, 2,
          [[⟨1, 2, 3⟩, ⟨4, 5, 6⟩], [⟨7, 8, 9⟩, ⟨10, 11, 12⟩]]⟩
    ∧ read_image (fun _ _ => true)
        (sample_header 2 0xfe 0xff 0xff 0xff
          ++ [1, 2, 3, 4, 5, 6, 0, 0, 7, 8, 9, 10, 11, 12, 0, 0, 77])
      = .ok ⟨decoded_bf (sample_header 2 0xfe 0xff 0xff 0xff),
          decoded_bi (sample_header 2 0xfe 0xff 0xff 0xff), 2, 2,
          [[⟨1, 2, 3⟩, ⟨4, 5, 6⟩], [⟨7, 8, 9⟩, ⟨10, 11, 12⟩]]⟩ := by
  refine ⟨rfl, ?_⟩
  refine (read_image_pixels (fun _ _ => true)
    (sample_header 2 0xfe 0xff 0xff 0xff ++ [1, 2, 3, 4, 5, 6, 9, 9, 7, 8, 9, 10, 11, 12, 9, 9])
    ⟨decoded_bf (sample_header 2 0xfe 0xff 0xff 0xff),
      decoded_bi (sample_header 2 0xfe 0xff 0xff 0xff), 2, 2,
      [[⟨1, 2, 3⟩, ⟨4, 5, 6⟩], [⟨7, 8, 9⟩, ⟨10, 11, 12⟩]]⟩ (by rfl)).2.2.2 _
    (by decide) (by decide) ?_
  intro i j k hi hj hk
  simp only at hi hj
  interval_cases i <;> interval_cases j <;> interval_cases k <;> rfl

/-! ## Decoding: no wrap-around in the byte counts -/

/-- The outcomes of `read_image` that lie behind its last dimension check. -/
theorem read_image_past_checks (c : Nat → Nat → Bool) (s : List Nat)
    (h : read_image c s = .error .not_enough_memory
      ∨ read_image c s = .error .failed_to_read_scanlines
      ∨ ∃ r, read_image c s = .ok r) :
    abs_height (decoded_bi s).bi_height ≠ 0
    ∧ int32_to_size_t (decoded_bi s).bi_width ≠ 0
    ∧ int32_to_size_t (decoded_bi s).bi_width ≤ (SIZE_MAX - 3) / 3 := by
  rw [read_image_eq] at h
  split_ifs at h with h1 h2 h3 h4 h5 h6 h7
  all_goals first
    | exact ⟨fun e => h4 (Or.inl e), fun e => h4 (Or.inr e), by omega⟩
    | (exfalso; rcases h with h | h | ⟨r, h⟩ <;> simp at h)

/-- C9: when `read_image` gets past its dimension checks (it then fails for
lack of memory, fails on a short scanline, or succeeds), `w` being the width
and `h` the height it accepted and `p = determine_padding w`, both
`3 * w + p` and `h * (3 * w + p)` are at most `SIZE_MAX` (64-bit `size_t`);
on success `w` and `h` are the width and the height returned. -/
theorem read_image_no_overflow (c : Nat → Nat → Bool) (s : List Nat) (hs : is_bytes s)
    (hpass : read_image c s = .error .not_enough_memory
      ∨ read_image c s = .error .failed_to_read_scanlines
      ∨ ∃ r, read_image c s = .ok r) :
    3 * int32_to_size_t (decoded_bi s).bi_width
        + determine_padding (int32_to_size_t (decoded_bi s).bi_width) ≤ SIZE_MAX
    ∧ abs_height (decoded_bi s).bi_height
        * (3 * int32_to_size_t (decoded_bi s).bi_width
          + determine_padding (int32_to_size_t (decoded_bi s).bi_width)) ≤ SIZE_MAX
    ∧ ∀ r, read_image c s = .ok r →
        r.width = int32_to_size_t (decoded_bi s).bi_width
        ∧ r.height = abs_height (decoded_bi s).bi_height := by
  obtain ⟨hw, hh⟩ := decoded_bi_in_range s hs
  obtain ⟨h1, h2, h3⟩ := read_image_past_checks c s hpass
  have hnn : 0 ≤ (decoded_bi s).bi_width := by
    by_contra hlt
    have := int32_to_size_t_of_neg _ (by omega) hw.1
    omega
  have ew := int32_to_size_t_of_nonneg _ hnn hw.2
  have eh := abs_height_of_in_range _ hh
  have hp := determine_padding_eq (int32_to_size_t (decoded_bi s).bi_width)
  have hwb : int32_to_size_t (decoded_bi s).bi_width < 2147483648 := by
    have := hw.2
    omega
  have hhb : abs_height (decoded_bi s).bi_height ≤ 2147483648 := by
    have := hh.1
    have := hh.2
    omega
  have hline : 3 * int32_to_size_t (decoded_bi s).bi_width
      + determine_padding (int32_to_size_t (decoded_bi s).bi_width) ≤ 6442450944 := by
    omega
  refine ⟨by unfold SIZE_MAX; omega, ?_, ?_⟩
  · calc abs_height (decoded_bi s).bi_height
          * (3 * int32_to_size_t (decoded_bi s).bi_width
            + determine_padding (int32_to_size_t (decoded_bi s).bi_width))
        ≤ 2147483648 * 6442450944 := Nat.mul_le_mul hhb hline
      _ ≤ SIZE_MAX := by decide
  · intro r hr
    obtain ⟨_, _, _, _, _, _, _, rfl⟩ := read_image_ok c s r hr
    exact ⟨rfl, rfl⟩

theorem read_image_no_overflow_witness :
    3 * int32_to_size_t (decoded_bi (sample_header 2 0xfe 0xff 0xff 0xff)).bi_width
        + determine_padding
            (int32_to_size_t (decoded_bi (sample_header 2 0xfe 0xff 0xff 0xff)).bi_width)
      ≤ SIZE_MAX
    ∧ read_image (fun _ _ => true) (sample_header 2 0xfe 0xff 0xff 0xff)
      = .error .failed_to_read_scanlines :=
  ⟨(read_image_no_overflow (fun _ _ => true) (sample_header 2 0xfe 0xff 0xff 0xff)
      (by unfold is_bytes; decide) (Or.inr (Or.inl (by rfl)))).1, by rfl⟩

/-! ## Writing: how `fwrite` and the scanline loop behave -/

theorem fwrite_of_le (data : List Nat) (size nmemb : Nat) (out : OutFile) (hs : 0 < size)
    (h : size * nmemb ≤ out.room) :
    fwrite data size nmemb out
      = (nmemb, ⟨out.room - size * nmemb, out.written ++ data.take (size * nmemb)⟩) := by
  simp only [fwrite, Nat.min_eq_left h]
  congr 1
  exact Nat.mul_div_cancel_left nmemb hs

theorem fwrite_count_of_lt (data : List Nat) (size nmemb : Nat) (out : OutFile)
    (h : out.room < size * nmemb) : (fwrite data size nmemb out).1 ≠ nmemb := by
  simp only [fwrite, Nat.min_eq_right (Nat.le_of_lt h)]
  have hs : 0 < size := by
    rcases Nat.eq_zero_or_pos size with h0 | h0
    · subst h0; simp at h
    · exact h0
  have : out.room / size < nmemb := (Nat.div_lt_iff_lt_mul hs).2 (by rw [Nat.mul_comm]; exact h)
  omega

theorem length_row_bytes (row : List RGBTRIPLE) : (row_bytes row).length = 3 * row.length := by
  induction row with
  | nil => rfl
  | cons p row ih =>
    simp only [row_bytes, triple_bytes, List.length_append, List.length_cons, List.length_nil, ih]
    omega

theorem take_pad_byte (p : Nat) (hp : p ≤ 8) : pad_byte.take p = List.replicate p 0 := by
  unfold pad_byte
  interval_cases p <;> rfl

theorem write_scanlines_loop_fail (w p : Nat) (image : List (List RGBTRIPLE)) :
    ∀ (n i : Nat) (out : OutFile), out.room < n * (3 * w + p) →
      (write_scanlines_loop w p image n i out).1 = -1 := by
  intro n
  induction n with
  | zero => intro i out h; simp at h
  | succ n ih =>
    intro i out h
    rw [write_scanlines_loop]
    simp only [sizeof_RGBTRIPLE]
    by_cases h1 : out.room < 3 * w
    · rw [if_pos (fwrite_count_of_lt _ 3 w out h1)]
    · have h1 : 3 * w ≤ out.room := Nat.le_of_not_lt h1
      rw [fwrite_of_le _ 3 w out (by decide) h1]
      simp only [ne_eq, not_true_eq_false, if_false]
      by_cases h2 : out.room - 3 * w < 1 * p
      · rw [if_pos (fwrite_count_of_lt _ 1 p _ h2)]
      · have h2 : 1 * p ≤ out.room - 3 * w := Nat.le_of_not_lt h2
        rw [fwrite_of_le _ 1 p _ (by decide) h2]
        simp only [ne_eq, not_true_eq_false, if_false]
        apply ih
        have : (n + 1) * (3 * w + p) = n * (3 * w + p) + (3 * w + p) := Nat.succ_mul _ _
        simp only
        omega

theorem write_scanlines_loop_ok (w p : Nat) (hp : p ≤ 8) (image : List (List RGBTRIPLE)) :
    ∀ (n i : Nat) (out : OutFile), n * (3 * w + p) ≤ out.room →
      write_scanlines_loop w p image n i out
        = (0, ⟨out.room - n * (3 * w + p),
            out.written ++ ((List.range n).map fun k =>
              (row_bytes (image.getD (i + k) [])).take (3 * w) ++ List.replicate p 0).flatten⟩) := by
  intro n
  induction n with
  | zero => intro i out _; simp [write_scanlines_loop]
  | succ n ih =>
    intro i out h
    have hs : (n + 1) * (3 * w + p) = n * (3 * w + p) + (3 * w + p) := Nat.succ_mul _ _
    have h1 : 3 * w ≤ out.room := by omega
    have h2 : 1 * p ≤ out.room - 3 * w := by omega
    rw [write_scanlines_loop]
    simp only [sizeof_RGBTRIPLE]
    rw [fwrite_of_le _ 3 w out (by decide) h1]
    simp only [ne_eq, not_true_eq_false, if_false]
    rw [fwrite_of_le _ 1 p _ (by decide) h2]
    simp only [ne_eq, not_true_eq_false, if_false]
    rw [ih (i + 1) _ (by simp only; omega)]
    simp only [Nat.one_mul, take_pad_byte p hp, List.range_succ_eq_map, List.map_cons,
      List.flatten_cons, List.map_map, Nat.add_zero, List.append_assoc]
    congr 2
    · omega
    · have hm : List.map (fun k =>
            List.take (3 * w) (row_bytes (image.getD (i + 1 + k) [])) ++ List.replicate p 0)
            (List.range n)
          = List.map ((fun k =>
            List.take (3 * w) (row_bytes (image.getD (i + k) [])) ++ List.replicate p 0)
              ∘ Nat.succ) (List.range n) := by
        apply List.map_congr_left
        intro k _
        simp only [Function.comp]
        have e : i + 1 + k = i + k.succ := by omega
        rw [e]
      rw [hm]

theorem map_range_getD {β : Type} (image : List (List RGBTRIPLE)) (h : Nat)
    (himg : image.length = h) (f : List RGBTRIPLE → β) :
    (List.range h).map (fun k => f (image.getD (0 + k) [])) = image.map f := by
  apply List.ext_getElem?
  intro k
  simp only [List.getElem?_map, Nat.zero_add]
  by_cases hk : k < h
  · rw [List.getElem?_range hk]
    have hk2 : k < image.length := by omega
    simp [List.getD_eq_getElem?_getD, List.getElem?_eq_getElem hk2]
  · have hk : h ≤ k := Nat.le_of_not_lt hk
    rw [List.getElem?_eq_none (by simpa using hk), List.getElem?_eq_none (by omega)]
    rfl

theorem write_image_fail_reopen (bf : BITMAPFILEHEADER) (bi : BITMAPINFOHEADER)
    (out : OutStream) (h w : Nat) (image : List (List RGBTRIPLE))
    (h1 : out.is_stdout = false) (h2 : out.freopen_ok = false) :
    write_image bf bi out h w image = (-1, []) := by
  simp [write_image, h1, h2]

theorem write_image_fail_room (bf : BITMAPFILEHEADER) (bi : BITMAPINFOHEADER)
    (out : OutStream) (h w : Nat) (image : List (List RGBTRIPLE))
    (hroom : out.room < 54 + h * (3 * w + determine_padding w)) :
    (write_image bf bi out h w image).1 = -1 := by
  unfold write_image
  by_cases c1 : (!out.is_stdout && !out.freopen_ok) = true
  · rw [if_pos c1]
  rw [if_neg c1]
  by_cases r2 : out.room < 2 * 1
  · rw [if_pos (fwrite_count_of_lt _ 2 1 ⟨out.room, []⟩ r2)]
  have r2 : 2 * 1 ≤ out.room := Nat.le_of_not_lt r2
  rw [fwrite_of_le _ 2 1 ⟨out.room, []⟩ (by decide) r2]
  simp only [ne_eq, not_true_eq_false, if_false, BF_UNPADDED_REGION_SIZE]
  by_cases r14 : out.room - 2 * 1 < 12 * 1
  · rw [if_pos (fwrite_count_of_lt _ 12 1 _ r14)]
  have r14 : 12 * 1 ≤ out.room - 2 * 1 := Nat.le_of_not_lt r14
  rw [fwrite_of_le _ 12 1 _ (by decide) r14]
  simp only [ne_eq, not_true_eq_false, if_false]
  by_cases r54 : out.room - 2 * 1 - 12 * 1 < 40 * 1
  · rw [if_pos (fwrite_count_of_lt _ 40 1 _ r54)]
  have r54 : 40 * 1 ≤ out.room - 2 * 1 - 12 * 1 := Nat.le_of_not_lt r54
  rw [fwrite_of_le _ 40 1 _ (by decide) r54]
  simp only [ne_eq, not_true_eq_false, if_false]
  have hl : (write_scanlines
      { room := out.room - 2 * 1 - 12 * 1 - 40 * 1,
        written := [] ++ List.take (2 * 1) (store_uint16 bf.bf_type)
          ++ List.take (12 * 1) (file_header_region bf)
          ++ List.take (40 * 1) (info_header_bytes bi) }
      h w image (determine_padding w)).1 = -1 := by
    unfold write_scanlines
    apply write_scanlines_loop_fail
    simp only
    omega
  rw [if_pos hl]

theorem write_image_ok (bf : BITMAPFILEHEADER) (bi : BITMAPINFOHEADER)
    (out : OutStream) (h w : Nat) (image : List (List RGBTRIPLE))
    (hopen : out.is_stdout = true ∨ out.freopen_ok = true)
    (hroom : 54 + h * (3 * w + determine_padding w) ≤ out.room)
    (himg : image.length = h) (hrow : ∀ row ∈ image, row.length = w) :
    write_image bf bi out h w image
      = (if out.is_stdout || out.fclose_ok then 1 else 0,
          store_uint16 bf.bf_type ++ file_header_region bf ++ info_header_bytes bi
            ++ (image.map fun row =>
                row_bytes row ++ List.replicate (determine_padding w) 0).flatten) := by
  have hp : determine_padding w ≤ 8 := by
    rw [determine_padding_eq]
    omega
  have c1 : ¬ ((!out.is_stdout && !out.freopen_ok) = true) := by
    rcases hopen with e | e <;> simp [e]
  unfold write_image
  rw [if_neg c1]
  rw [fwrite_of_le _ 2 1 ⟨out.room, []⟩ (by decide) (by simp only; omega)]
  simp only [ne_eq, not_true_eq_false, if_false, BF_UNPADDED_REGION_SIZE]
  rw [fwrite_of_le _ 12 1 _ (by decide) (by simp only; omega)]
  simp only [ne_eq, not_true_eq_false, if_false]
  rw [fwrite_of_le _ 40 1 _ (by decide) (by simp only; omega)]
  simp only [ne_eq, not_true_eq_false, if_false]
  unfold write_scanlines
  rw [write_scanlines_loop_ok w _ hp image h 0 _ (by simp only; omega)]
  simp only [Int.reduceNeg, zero_eq_neg, one_ne_zero, if_false, List.nil_append]
  congr 1
  have t1 : List.take (2 * 1) (store_uint16 bf.bf_type) = store_uint16 bf.bf_type := rfl
  have t2 : List.take (12 * 1) (file_header_region bf) = file_header_region bf := rfl
  have t3 : List.take (40 * 1) (info_header_bytes bi) = info_header_bytes bi := rfl
  rw [t1, t2, t3]
  congr 1
  have e1 := map_range_getD image h himg
    (fun row => List.take (3 * w) (row_bytes row) ++ List.replicate (determine_padding w) 0)
  rw [e1]
  congr 1
  apply List.map_congr_left
  intro row hr
  rw [List.take_of_length_le (by rw [length_row_bytes, hrow row hr])]

/-! ## Headers: storing then loading -/

theorem byte_at_cons_succ (b : Nat) (l : List Nat) (k : Nat) :
    byte_at (b :: l) (k + 1) = byte_at l k := rfl

theorem byte_at_skip2 (x : Nat) (l : List Nat) (k : Nat) (hk : 2 ≤ k) :
    byte_at (store_uint16 x ++ l) k = byte_at l (k - 2) := by
  obtain ⟨j, rfl⟩ : ∃ j, k = j + 2 := ⟨k - 2, by omega⟩
  rfl

theorem byte_at_skip4 (x : Nat) (l : List Nat) (k : Nat) (hk : 4 ≤ k) :
    byte_at (store_uint32 x ++ l) k = byte_at l (k - 4) := by
  obtain ⟨j, rfl⟩ : ∃ j, k = j + 4 := ⟨k - 4, by omega⟩
  rfl

theorem load_uint16_store (x : Nat) (hx : x < 65536) (l : List Nat) :
    load_uint16 (store_uint16 x ++ l) 0 = x := by
  show x % 256 + 256 * (x / 256 % 256) = x
  omega

theorem load_uint32_store (x : Nat) (hx : x < 4294967296) (l : List Nat) :
    load_uint32 (store_uint32 x ++ l) 0 = x := by
  show x % 256 + 256 * (x / 256 % 256) + 65536 * (x / 65536 % 256)
    + 16777216 * (x / 16777216 % 256) = x
  omega

theorem load_int32_store (x : Int) (hx : int32_in_range x) (l : List Nat) :
    load_int32 (store_int32 x ++ l) 0 = x := by
  unfold int32_in_range at hx
  have hu1 : (x % 4294967296).toNat < 4294967296 := by omega
  have hu2 : 0 ≤ x → ((x % 4294967296).toNat : Int) = x := by omega
  have hu3 : x < 0 → ((x % 4294967296).toNat : Int) = x + 4294967296 := by omega
  unfold load_int32 store_int32
  rw [load_uint32_store _ hu1]
  split_ifs <;> omega

theorem load_uint16_skip2 (x : Nat) (l : List Nat) (k : Nat) (hk : 2 ≤ k) :
    load_uint16 (store_uint16 x ++ l) k = load_uint16 l (k - 2) := by
  unfold load_uint16
  rw [byte_at_skip2 _ _ _ hk, byte_at_skip2 _ _ _ (by omega)]
  congr 3
  omega

theorem load_uint16_skip4 (x : Nat) (l : List Nat) (k : Nat) (hk : 4 ≤ k) :
    load_uint16 (store_uint32 x ++ l) k = load_uint16 l (k - 4) := by
  unfold load_uint16
  rw [byte_at_skip4 _ _ _ hk, byte_at_skip4 _ _ _ (by omega)]
  congr 3
  omega

theorem load_uint32_skip2 (x : Nat) (l : List Nat) (k : Nat) (hk : 2 ≤ k) :
    load_uint32 (store_uint16 x ++ l) k = load_uint32 l (k - 2) := by
  unfold load_uint32
  rw [byte_at_skip2 _ _ _ hk, byte_at_skip2 _ _ _ (by omega), byte_at_skip2 _ _ _ (by omega),
    byte_at_skip2 _ _ _ (by omega)]
  have e1 : k + 1 - 2 = k - 2 + 1 := by omega
  have e2 : k + 2 - 2 = k - 2 + 2 := by omega
  have e3 : k + 3 - 2 = k - 2 + 3 := by omega
  rw [e1, e2, e3]

theorem load_uint32_skip4 (x : Nat) (l : List Nat) (k : Nat) (hk : 4 ≤ k) :
    load_uint32 (store_uint32 x ++ l) k = load_uint32 l (k - 4) := by
  unfold load_uint32
  rw [byte_at_skip4 _ _ _ hk, byte_at_skip4 _ _ _ (by omega), byte_at_skip4 _ _ _ (by omega),
    byte_at_skip4 _ _ _ (by omega)]
  have e1 : k + 1 - 4 = k - 4 + 1 := by omega
  have e2 : k + 2 - 4 = k - 4 + 2 := by omega
  have e3 : k + 3 - 4 = k - 4 + 3 := by omega
  rw [e1, e2, e3]

theorem load_int32_skip2 (x : Nat) (l : List Nat) (k : Nat) (hk : 2 ≤ k) :
    load_int32 (store_uint16 x ++ l) k = load_int32 l (k - 2) := by
  unfold load_int32
  rw [load_uint32_skip2 _ _ _ hk]

theorem load_int32_skip4 (x : Nat) (l : List Nat) (k : Nat) (hk : 4 ≤ k) :
    load_int32 (store_uint32 x ++ l) k = load_int32 l (k - 4) := by
  unfold load_int32
  rw [load_uint32_skip4 _ _ _ hk]

theorem decoded_bf_encoded (bf : BITMAPFILEHEADER) (hbf : bf_in_range bf) (rest : List Nat) :
    decoded_bf (store_uint16 bf.bf_type ++ file_header_region bf ++ rest) = bf := by
  obtain ⟨t, s, r1, r2, o⟩ := bf
  obtain ⟨h1, h2, h3, h4, h5⟩ := hbf
  simp only at h1 h2 h3 h4 h5
  have e1 : List.take 2 (store_uint16 t ++ file_header_region ⟨t, s, r1, r2, o⟩ ++ rest)
      = store_uint16 t ++ [] := rfl
  have e2 : List.take 12 (List.drop 2
        (store_uint16 t ++ file_header_region ⟨t, s, r1, r2, o⟩ ++ rest))
      = store_uint32 s ++ (store_uint16 r1 ++ (store_uint16 r2 ++ (store_uint32 o ++ []))) :=
    rfl
  unfold decoded_bf load_file_header
  rw [e1, e2, load_uint16_store _ h1, load_uint32_store _ h2,
    load_uint16_skip4 _ _ _ (by decide), load_uint16_store _ h3,
    load_uint16_skip4 _ _ _ (by decide), load_uint16_skip2 _ _ _ (by decide),
    load_uint16_store _ h4,
    load_uint32_skip4 _ _ _ (by decide), load_uint32_skip2 _ _ _ (by decide),
    load_uint32_skip2 _ _ _ (by decide), load_uint32_store _ h5]

theorem load_int32_store_unfolded (x : Int) (hx : int32_in_range x) (l : List Nat) :
    load_int32 (store_uint32 (x % 4294967296).toNat ++ l) 0 = x :=
  load_int32_store x hx l

theorem decoded_bi_encoded (bi : BITMAPINFOHEADER) (hbi : bi_in_range bi)
    (pre rest : List Nat) (hpre : pre.length = 14) :
    decoded_bi (pre ++ info_header_bytes bi ++ rest) = bi := by
  obtain ⟨a, b, c, d, e, f, g, h, i, j, k⟩ := bi
  obtain ⟨h1, h2, h3, h4, h5, h6, h7, h8, h9, h10, h11⟩ := hbi
  simp only at h1 h2 h3 h4 h5 h6 h7 h8 h9 h10 h11
  have hd : List.drop 14 (pre ++ info_header_bytes ⟨a, b, c, d, e, f, g, h, i, j, k⟩ ++ rest)
      = info_header_bytes ⟨a, b, c, d, e, f, g, h, i, j, k⟩ ++ rest := by
    rw [List.append_assoc, List.drop_append_of_le_length (by omega), ← hpre, List.drop_length,
      List.nil_append]
  have ht : List.take 40 (info_header_bytes ⟨a, b, c, d, e, f, g, h, i, j, k⟩ ++ rest)
      = store_uint32 a ++ (store_uint32 (b % 4294967296).toNat
        ++ (store_uint32 (c % 4294967296).toNat ++ (store_uint16 d ++ (store_uint16 e
        ++ (store_uint32 f ++ (store_uint32 g ++ (store_uint32 (h % 4294967296).toNat
        ++ (store_uint32 (i % 4294967296).toNat
        ++ (store_uint32 j ++ (store_uint32 k ++ [])))))))))) := rfl
  unfold decoded_bi load_info_header
  rw [hd, ht]
  congr 1
  · exact load_uint32_store _ h1 _
  · rw [load_int32_skip4 _ _ _ (by decide)]
    exact load_int32_store_unfolded _ h2 _
  · rw [load_int32_skip4 _ _ _ (by decide), load_int32_skip4 _ _ _ (by decide)]
    exact load_int32_store_unfolded _ h3 _
  · rw [load_uint16_skip4 _ _ _ (by decide), load_uint16_skip4 _ _ _ (by decide),
      load_uint16_skip4 _ _ _ (by decide)]
    exact load_uint16_store _ h4 _
  · rw [load_uint16_skip4 _ _ _ (by decide), load_uint16_skip4 _ _ _ (by decide),
      load_uint16_skip4 _ _ _ (by decide), load_uint16_skip2 _ _ _ (by decide)]
    exact load_uint16_store _ h5 _
  · rw [load_uint32_skip4 _ _ _ (by decide), load_uint32_skip4 _ _ _ (by decide),
      load_uint32_skip4 _ _ _ (by decide), load_uint32_skip2 _ _ _ (by decide),
      load_uint32_skip2 _ _ _ (by decide)]
    exact load_uint32_store _ h6 _
  · rw [load_uint32_skip4 _ _ _ (by decide), load_uint32_skip4 _ _ _ (by decide),
      load_uint32_skip4 _ _ _ (by decide), load_uint32_skip2 _ _ _ (by decide),
      load_uint32_skip2 _ _ _ (by decide), load_uint32_skip4 _ _ _ (by decide)]
    exact load_uint32_store _ h7 _
  · rw [load_int32_skip4 _ _ _ (by decide), load_int32_skip4 _ _ _ (by decide),
      load_int32_skip4 _ _ _ (by decide), load_int32_skip2 _ _ _ (by decide),
      load_int32_skip2 _ _ _ (by decide), load_int32_skip4 _ _ _ (by decide),
      load_int32_skip4 _ _ _ (by decide)]
    exact load_int32_store_unfolded _ h8 _
  · rw [load_int32_skip4 _ _ _ (by decide), load_int32_skip4 _ _ _ (by decide),
      load_int32_skip4 _ _ _ (by decide), load_int32_skip2 _ _ _ (by decide),
      load_int32_skip2 _ _ _ (by decide), load_int32_skip4 _ _ _ (by decide),
      load_int32_skip4 _ _ _ (by decide), load_int32_skip4 _ _ _ (by decide)]
    exact load_int32_store_unfolded _ h9 _
  · rw [load_uint32_skip4 _ _ _ (by decide), load_uint32_skip4 _ _ _ (by decide),
      load_uint32_skip4 _ _ _ (by decide), load_uint32_skip2 _ _ _ (by decide),
      load_uint32_skip2 _ _ _ (by decide), load_uint32_skip4 _ _ _ (by decide),
      load_uint32_skip4 _ _ _ (by decide), load_uint32_skip4 _ _ _ (by decide),
      load_uint32_skip4 _ _ _ (by decide)]
    exact load_uint32_store _ h10 _
  · rw [load_uint32_skip4 _ _ _ (by decide), load_uint32_skip4 _ _ _ (by decide),
      load_uint32_skip4 _ _ _ (by decide), load_uint32_skip2 _ _ _ (by decide),
      load_uint32_skip2 _ _ _ (by decide), load_uint32_skip4 _ _ _ (by decide),
      load_uint32_skip4 _ _ _ (by decide), load_uint32_skip4 _ _ _ (by decide),
      load_uint32_skip4 _ _ _ (by decide), load_uint32_skip4 _ _ _ (by decide)]
    exact load_uint32_store _ h11 _

/-! ## Scanlines: storing then loading -/

theorem load_row_succ (n : Nat) (b g r : Nat) (l : List Nat) :
    load_row (n + 1) (b :: g :: r :: l) = ⟨b, g, r⟩ :: load_row n l := by
  unfold load_row
  rw [List.range_succ_eq_map, List.map_cons, List.map_map]
  rfl

theorem load_row_row_bytes (row : List RGBTRIPLE) (l : List Nat) :
    load_row row.length (row_bytes row ++ l) = row := by
  induction row with
  | nil => rfl
  | cons p row ih =>
    show load_row (row.length + 1)
      (p.rgbt_blue :: p.rgbt_green :: p.rgbt_red :: (row_bytes row ++ l)) = p :: row
    rw [load_row_succ, ih]

theorem byte_at_take (l : List Nat) (n k : Nat) (hk : k < n) :
    byte_at (l.take n) k = byte_at l k := by
  unfold byte_at
  rw [List.getD_eq_getElem?_getD, List.getD_eq_getElem?_getD, List.getElem?_take, if_pos hk]

theorem scanline_image_cons (h w p : Nat) (line f : List Nat)
    (hline : line.length = 3 * w + p) :
    scanline_image (h + 1) w p (line ++ f)
      = load_row w ((line ++ f).take (3 * w)) :: scanline_image h w p f := by
  unfold scanline_image
  rw [List.range_succ_eq_map, List.map_cons, List.map_map]
  congr 1
  · simp
  · apply List.map_congr_left
    intro i _
    simp only [Function.comp]
    have e : i.succ * (3 * w + p) = line.length + i * (3 * w + p) := by
      rw [hline, Nat.succ_mul]
      omega
    rw [e, ← List.drop_drop, List.drop_left]

theorem scanline_image_encoded (w p : Nat) (image : List (List RGBTRIPLE))
    (hrow : ∀ row ∈ image, row.length = w) :
    scanline_image image.length w p
      (image.map fun row => row_bytes row ++ List.replicate p 0).flatten = image := by
  induction image with
  | nil => rfl
  | cons row image ih =>
    have hr : row.length = w := hrow row (List.mem_cons_self _ _)
    rw [List.map_cons, List.flatten_cons, List.length_cons,
      scanline_image_cons _ _ _ _ _ (by simp [length_row_bytes, hr]),
      ih (fun r hm => hrow r (List.mem_cons_of_mem _ hm))]
    congr 1
    have e : load_row w (List.take (3 * w) (row_bytes row ++ List.replicate p 0
        ++ (List.map (fun row => row_bytes row ++ List.replicate p 0) image).flatten))
        = load_row w (row_bytes row ++ List.replicate p 0
        ++ (List.map (fun row => row_bytes row ++ List.replicate p 0) image).flatten) :=
      load_row_congr _ _ _ (fun k hk => byte_at_take _ _ _ hk)
    rw [e, List.append_assoc, ← hr]
    exact load_row_row_bytes _ _

theorem length_scanlines (w p : Nat) (image : List (List RGBTRIPLE))
    (hrow : ∀ row ∈ image, row.length = w) :
    (image.map fun row => row_bytes row ++ List.replicate p 0).flatten.length
      = image.length * (3 * w + p) := by
  induction image with
  | nil => simp
  | cons row image ih =>
    have hr : row.length = w := hrow row (List.mem_cons_self _ _)
    rw [List.map_cons, List.flatten_cons, List.length_append,
      ih (fun r hm => hrow r (List.mem_cons_of_mem _ hm)), List.length_cons,
      List.length_append, length_row_bytes, hr, List.length_replicate]
    ring

/-! ## Encoding -/

/-- When `write_image` does not return -1 the stream was reopened (or is
`stdout`) and had room for the whole file. -/
theorem write_image_not_failed (bf : BITMAPFILEHEADER) (bi : BITMAPINFOHEADER)
    (out : OutStream) (h w : Nat) (image : List (List RGBTRIPLE))
    (hok : (write_image bf bi out h w image).1 ≠ -1) :
    (out.is_stdout = true ∨ out.freopen_ok = true)
    ∧ 54 + h * (3 * w + determine_padding w) ≤ out.room := by
  constructor
  · by_contra hc
    have h1 : out.is_stdout = false := by
      cases e : out.is_stdout
      · rfl
      · exact absurd (Or.inl e) hc
    have h2 : out.freopen_ok = false := by
      cases e : out.freopen_ok
      · rfl
      · exact absurd (Or.inr e) hc
    rw [write_image_fail_reopen bf bi out h w image h1 h2] at hok
    exact hok rfl
  · by_contra hc
    exact hok (write_image_fail_room bf bi out h w image (Nat.lt_of_not_le hc))

/-- C4: when `write_image` does not fail on a buffer of `h` rows of `w`
triples, the bytes written are the 2 bytes of `bf_type`, the 12 bytes of
`bf_size`, `bf_reserved1`, `bf_reserved2`, `bf_offbits`, the 40 bytes of the
info header (every field little-endian, as stored in the headers given), then
for each row in buffer order its triples as blue, green, red followed by
`determine_padding w` zero bytes; their number is `54 + h * (3 * w + p)`. -/
theorem write_image_bytes (bf : BITMAPFILEHEADER) (bi : BITMAPINFOHEADER)
    (out : OutStream) (h w : Nat) (image : List (List RGBTRIPLE))
    (himg : image.length = h) (hrow : ∀ row ∈ image, row.length = w)
    (hok : (write_image bf bi out h w image).1 ≠ -1) :
    (write_image bf bi out h w image).2
      = store_uint16 bf.bf_type
        ++ (store_uint32 bf.bf_size ++ store_uint16 bf.bf_reserved1
          ++ store_uint16 bf.bf_reserved2 ++ store_uint32 bf.bf_offbits)
        ++ (store_uint32 bi.bi_size ++ store_int32 bi.bi_width ++ store_int32 bi.bi_height
          ++ store_uint16 bi.bi_planes ++ store_uint16 bi.bi_bitcount
          ++ store_uint32 bi.bi_compression ++ store_uint32 bi.bi_size_image
          ++ store_int32 bi.bi_x_resolution_ppm ++ store_int32 bi.bi_y_resolution_ppm
          ++ store_uint32 bi.bi_clr_used ++ store_uint32 bi.bi_clr_important)
        ++ (image.map fun row =>
            row_bytes row ++ List.replicate (determine_padding w) 0).flatten
    ∧ (∀ (p : RGBTRIPLE) (row : List RGBTRIPLE),
        row_bytes (p :: row) = p.rgbt_blue :: p.rgbt_green :: p.rgbt_red :: row_bytes row)
    ∧ (write_image bf bi out h w image).2.length
        = 54 + h * (3 * w + determine_padding w) := by
  obtain ⟨hopen, hroom⟩ := write_image_not_failed bf bi out h w image hok
  have e := write_image_ok bf bi out h w image hopen hroom himg hrow
  refine ⟨?_, fun _ _ => rfl, ?_⟩
  · rw [e]
    rfl
  · rw [e]
    simp only [List.length_append, length_scanlines w _ image hrow, himg]
    rfl

theorem write_image_bytes_witness :
    (write_image ⟨0x4d42, 0, 0, 0, 54⟩ ⟨40, 2, -2, 1, 24, 0, 0, 0, 0, 0, 0⟩
        ⟨false, true, true, 100⟩ 2 2 [[⟨1, 2, 3⟩, ⟨4, 5, 6⟩], [⟨7, 8, 9⟩, ⟨10, 11, 12⟩]]).2
      = sample_header 2 0xfe 0xff 0xff 0xff
          ++ [1, 2, 3, 4, 5, 6, 0, 0, 7, 8, 9, 10, 11, 12, 0, 0]
    ∧ (write_image ⟨0x4d42, 0, 0, 0, 54⟩ ⟨40, 2, -2, 1, 24, 0, 0, 0, 0, 0, 0⟩
        ⟨false, true, true, 100⟩ 2 2
        [[⟨1, 2, 3⟩, ⟨4, 5, 6⟩], [⟨7, 8, 9⟩, ⟨10, 11, 12⟩]]).2.length = 54 + 2 * (3 * 2 + 2) :=
  ⟨by rfl,
    (write_image_bytes ⟨0x4d42, 0, 0, 0, 54⟩ ⟨40, 2, -2, 1, 24, 0, 0, 0, 0, 0, 0⟩
      ⟨false, true, true, 100⟩ 2 2 [[⟨1, 2, 3⟩, ⟨4, 5, 6⟩], [⟨7, 8, 9⟩, ⟨10, 11, 12⟩]]
      (by rfl) (by decide) (by decide)).2.2⟩

/-! ## Round trip -/

/-- C5: for a header pair accepted by `bmp_check_header` whose width field is
`w ≥ 1` and whose height field has magnitude `h ≥ 1`, and an `h`-by-`w` buffer
`B`, `read_image` applied to the bytes of a `write_image` that did not fail
succeeds (the allocation of the buffer being granted) and returns the same
two headers, height `h`, width `w` and the buffer `B`. -/
theorem read_write_roundtrip (c : Nat → Nat → Bool) (bf : BITMAPFILEHEADER)
    (bi : BITMAPINFOHEADER) (out : OutStream) (h w : Nat) (B : List (List RGBTRIPLE))
    (hbf : bf_in_range bf) (hbi : bi_in_range bi)
    (hchk : bmp_check_header bf bi = true)
    (hw : bi.bi_width = (w : Int)) (hw1 : 1 ≤ w)
    (hh : bi.bi_height.natAbs = h) (hh1 : 1 ≤ h)
    (hB : is_image h w B)
    (hok : (write_image bf bi out h w B).1 ≠ -1)
    (halloc : c h (3 * w) = true) :
    read_image c (write_image bf bi out h w B).2 = .ok ⟨bf, bi, h, w, B⟩ := by
  obtain ⟨himg, hrows⟩ := hB
  have hrow : ∀ row ∈ B, row.length = w := fun row hr => (hrows row hr).1
  obtain ⟨hopen, hroom⟩ := write_image_not_failed bf bi out h w B hok
  rw [write_image_ok bf bi out h w B hopen hroom himg hrow]
  simp only
  have hwr : int32_in_range bi.bi_width := hbi.2.1
  have hhr : int32_in_range bi.bi_height := hbi.2.2.1
  have ebf : decoded_bf (store_uint16 bf.bf_type ++ file_header_region bf
      ++ info_header_bytes bi
      ++ (B.map fun row => row_bytes row ++ List.replicate (determine_padding w) 0).flatten)
      = bf := by
    rw [List.append_assoc]
    exact decoded_bf_encoded bf hbf _
  have ebi : decoded_bi (store_uint16 bf.bf_type ++ file_header_region bf
      ++ info_header_bytes bi
      ++ (B.map fun row => row_bytes row ++ List.replicate (determine_padding w) 0).flatten)
      = bi := decoded_bi_encoded bi hbi _ _ rfl
  have eh : abs_height bi.bi_height = h := by
    rw [abs_height_of_in_range _ hhr, hh]
  have ew : int32_to_size_t bi.bi_width = w := by
    have := int32_to_size_t_of_nonneg bi.bi_width (by omega) hwr.2
    omega
  have hwb : w < 2147483648 := by
    have := hwr.2
    omega
  have hhb : h ≤ 2147483648 := by
    have h1 := hhr.1
    have h2 := hhr.2
    omega
  have elen : (store_uint16 bf.bf_type ++ file_header_region bf ++ info_header_bytes bi
      ++ (B.map fun row => row_bytes row ++ List.replicate (determine_padding w) 0).flatten).length
      = 54 + h * (3 * w + determine_padding w) := by
    simp only [List.length_append, length_scanlines w _ B hrow, himg]
    rfl
  have edrop : List.drop 54 (store_uint16 bf.bf_type ++ file_header_region bf
      ++ info_header_bytes bi
      ++ (B.map fun row => row_bytes row ++ List.replicate (determine_padding w) 0).flatten)
      = (B.map fun row => row_bytes row ++ List.replicate (determine_padding w) 0).flatten := by
    have e54 : (store_uint16 bf.bf_type ++ file_header_region bf
        ++ info_header_bytes bi).length = 54 := rfl
    rw [← e54, List.drop_left]
  have emul : w * 3 % SIZE_MOD = 3 * w := by
    unfold SIZE_MOD
    omega
  rw [read_image_eq, ebf, ebi, eh, ew, elen, edrop, emul, hchk, halloc]
  simp only [Bool.not_true, Bool.false_eq_true, if_false]
  rw [if_neg (by omega), if_neg (by unfold SIZE_MAX; omega), if_neg (by omega),
    if_neg (by unfold SIZE_MAX; omega), if_neg (by omega)]
  have := scanline_image_encoded w (determine_padding w) B hrow
  rw [himg] at this
  rw [this]

theorem read_write_roundtrip_witness :
    read_image (fun _ _ => true)
        (write_image ⟨0x4d42, 70, 0, 0, 54⟩ ⟨40, 2, -2, 1, 24, 0, 16, 0, 0, 0, 0⟩
          ⟨false, true, true, 100⟩ 2 2
          [[⟨1, 2, 3⟩, ⟨4, 5, 6⟩], [⟨7, 8, 9⟩, ⟨10, 11, 12⟩]]).2
      = .ok ⟨⟨0x4d42, 70, 0, 0, 54⟩, ⟨40, 2, -2, 1, 24, 0, 16, 0, 0, 0, 0⟩, 2, 2,
          [[⟨1, 2, 3⟩, ⟨4, 5, 6⟩], [⟨7, 8, 9⟩, ⟨10, 11, 12⟩]]⟩ :=
  read_write_roundtrip (fun _ _ => true) ⟨0x4d42, 70, 0, 0, 54⟩
    ⟨40, 2, -2, 1, 24, 0, 16, 0, 0, 0, 0⟩ ⟨false, true, true, 100⟩ 2 2
    [[⟨1, 2, 3⟩, ⟨4, 5, 6⟩], [⟨7, 8, 9⟩, ⟨10, 11, 12⟩]]
    (by unfold bf_in_range; decide) (by unfold bi_in_range int32_in_range; decide)
    (by decide) (by rfl) (by decide) (by rfl) (by decide)
    (by unfold is_image triple_in_range; decide) (by decide) (by rfl)

/-! ## Filters: loops, pixels and shapes -/

/-- The invariant rule of the `for` loop. -/
theorem for_loop_from_inv {σ : Type} (body : Nat → σ → σ) (P : Nat → σ → Prop) :
    ∀ (n i : Nat) (s : σ), P i s →
      (∀ k t, i ≤ k → k < i + n → P k t → P (k + 1) (body k t)) →
      P (i + n) (for_loop_from body n i s) := by
  intro n
  induction n with
  | zero => intro i s h _; exact h
  | succ n ih =>
    intro i s h hstep
    rw [for_loop_from]
    have := ih (i + 1) (body i s) (hstep i s (Nat.le_refl _) (by omega) h)
      (fun k t h1 h2 hp => hstep k t (by omega) (by omega) hp)
    have e : i + 1 + n = i + (n + 1) := by omega
    rw [e] at this
    exact this

theorem for_loop_inv {σ : Type} (body : Nat → σ → σ) (P : Nat → σ → Prop)
    (start stop : Nat) (s : σ) (hle : start ≤ stop) (h0 : P start s)
    (hstep : ∀ k t, start ≤ k → k < stop → P k t → P (k + 1) (body k t)) :
    P stop (for_loop start stop body s) := by
  have := for_loop_from_inv body P (stop - start) start s h0
    (fun k t h1 h2 hp => hstep k t h1 (by omega) hp)
  have e : start + (stop - start) = stop := by omega
  rw [e] at this
  exact this

theorem getD_set_row (image : List (List RGBTRIPLE)) (i a : Nat) (r : List RGBTRIPLE) :
    (image.set i r).getD a [] = if i = a ∧ i < image.length then r else image.getD a [] := by
  rw [List.getD_eq_getElem?_getD, List.getD_eq_getElem?_getD, List.getElem?_set]
  by_cases h1 : i = a
  · by_cases h2 : i < image.length
    · rw [if_pos h1, if_pos h2, if_pos ⟨h1, h2⟩]
      rfl
    · rw [if_pos h1, if_neg h2, if_neg (fun h => h2 h.2)]
      subst h1
      rw [List.getElem?_eq_none (Nat.le_of_not_lt h2)]
  · rw [if_neg h1, if_neg (fun h => h1 h.1)]

theorem getD_set_triple (row : List RGBTRIPLE) (j b : Nat) (p d : RGBTRIPLE) :
    (row.set j p).getD b d = if j = b ∧ j < row.length then p else row.getD b d := by
  rw [List.getD_eq_getElem?_getD, List.getD_eq_getElem?_getD, List.getElem?_set]
  by_cases h1 : j = b
  · by_cases h2 : j < row.length
    · rw [if_pos h1, if_pos h2, if_pos ⟨h1, h2⟩]
      rfl
    · rw [if_pos h1, if_neg h2, if_neg (fun h => h2 h.2)]
      subst h1
      rw [List.getElem?_eq_none (Nat.le_of_not_lt h2)]
  · rw [if_neg h1, if_neg (fun h => h1 h.1)]

theorem length_getD_of_shape (h w : Nat) (image : List (List RGBTRIPLE))
    (hs : has_shape h w image) (i : Nat) (hi : i < h) : (image.getD i []).length = w := by
  have hi2 : i < image.length := by rw [hs.1]; exact hi
  rw [List.getD_eq_getElem _ _ hi2]
  exact hs.2 _ (List.getElem_mem hi2)

theorem pixel_set_pixel (h w : Nat) (image : List (List RGBTRIPLE))
    (hs : has_shape h w image) (i j a b : Nat) (p : RGBTRIPLE) :
    pixel (set_pixel image i j p) a b
      = if a = i ∧ b = j ∧ i < h ∧ j < w then p else pixel image a b := by
  unfold pixel set_pixel
  rw [getD_set_row]
  by_cases hi : i = a ∧ i < image.length
  · rw [if_pos hi, getD_set_triple]
    obtain ⟨rfl, hi2⟩ := hi
    have hl := length_getD_of_shape h w image hs i (by rw [← hs.1]; exact hi2)
    rw [hl]
    by_cases hj : j = b ∧ j < w
    · rw [if_pos hj, if_pos ⟨rfl, hj.1.symm, by rw [← hs.1]; exact hi2, hj.2⟩]
    · rw [if_neg hj, if_neg]
      intro hc
      exact hj ⟨hc.2.1.symm, hc.2.2.2⟩
  · rw [if_neg hi, if_neg]
    intro hc
    exact hi ⟨hc.1.symm, by rw [hs.1]; exact hc.2.2.1⟩

theorem has_shape_set_pixel (h w : Nat) (image : List (List RGBTRIPLE))
    (hs : has_shape h w image) (i j : Nat) (p : RGBTRIPLE) :
    has_shape h w (set_pixel image i j p) := by
  unfold set_pixel
  refine ⟨by rw [List.length_set]; exact hs.1, ?_⟩
  intro row hrow
  by_cases hi : i < image.length
  · rcases List.mem_or_eq_of_mem_set hrow with hm | rfl
    · exact hs.2 row hm
    · rw [List.length_set]
      exact length_getD_of_shape h w image hs i (by rw [← hs.1]; exact hi)
  · rw [List.set_eq_of_length_le (Nat.le_of_not_lt hi)] at hrow
    exact hs.2 row hrow

theorem image_ext (h w : Nat) (A B : List (List RGBTRIPLE)) (hA : has_shape h w A)
    (hB : has_shape h w B)
    (hp : ∀ i j, i < h → j < w → pixel A i j = pixel B i j) : A = B := by
  apply List.ext_getElem (by rw [hA.1, hB.1])
  intro i h1 h2
  have hi : i < h := by rw [← hA.1]; exact h1
  have lA : (A[i]).length = w := hA.2 _ (List.getElem_mem h1)
  have lB : (B[i]).length = w := hB.2 _ (List.getElem_mem h2)
  apply List.ext_getElem (by rw [lA, lB])
  intro j h3 h4
  have := hp i j hi (by rw [← lA]; exact h3)
  unfold pixel at this
  rw [List.getD_eq_getElem _ _ h1, List.getD_eq_getElem _ _ h2, List.getD_eq_getElem _ _ h3,
    List.getD_eq_getElem _ _ h4] at this
  exact this

theorem has_shape_of_is_image (h w : Nat) (image : List (List RGBTRIPLE))
    (hi : is_image h w image) : has_shape h w image :=
  ⟨hi.1, fun row hr => (hi.2 row hr).1⟩

theorem pixel_in_range (h w : Nat) (image : List (List RGBTRIPLE)) (hi : is_image h w image)
    (i j : Nat) : triple_in_range (pixel image i j) := by
  unfold pixel
  rw [List.getD_eq_getElem?_getD, List.getD_eq_getElem?_getD]
  cases e1 : image[i]? with
  | none =>
    simp only [Option.getD_none, List.getElem?_nil]
    exact ⟨by decide, by decide, by decide⟩
  | some row =>
    simp only [Option.getD_some]
    cases e2 : row[j]? with
    | none => exact ⟨by decide, by decide, by decide⟩
    | some p =>
      simp only [Option.getD_some]
      exact (hi.2 row (List.getElem?_mem e1)).2 p (List.getElem?_mem e2)

theorem has_shape_zero_image (h w : Nat) : has_shape h w (zero_image h w) := by
  unfold zero_image
  refine ⟨List.length_replicate _ _, ?_⟩
  intro row hr
  rw [List.eq_of_mem_replicate hr, List.length_replicate]

theorem pixel_zero_image (h w i j : Nat) : pixel (zero_image h w) i j = ⟨0, 0, 0⟩ := by
  unfold pixel zero_image
  rw [List.getD_eq_getElem?_getD, List.getD_eq_getElem?_getD, List.getElem?_replicate]
  by_cases hi : i < h
  · rw [if_pos hi]
    simp only [Option.getD_some, List.getElem?_replicate]
    by_cases hj : j < w
    · rw [if_pos hj]; rfl
    · rw [if_neg hj]; rfl
  · rw [if_neg hi]
    rfl

/-- Two nested loops that replace every pixel by a function of its old value. -/
theorem map_pixels_loop (f : RGBTRIPLE → RGBTRIPLE) (h w : Nat)
    (image : List (List RGBTRIPLE)) (hs : has_shape h w image) :
    has_shape h w (for_loop 0 h (fun i im =>
        for_loop 0 w (fun j im => set_pixel im i j (f (pixel im i j))) im) image)
    ∧ ∀ i j, i < h → j < w →
        pixel (for_loop 0 h (fun i im =>
          for_loop 0 w (fun j im => set_pixel im i j (f (pixel im i j))) im) image) i j
          = f (pixel image i j) := by
  have key := for_loop_inv
    (fun i im => for_loop 0 w (fun j im => set_pixel im i j (f (pixel im i j))) im)
    (fun k im => has_shape h w im ∧ ∀ a b, pixel im a b
      = if a < k ∧ b < w then f (pixel image a b) else pixel image a b)
    0 h image (Nat.zero_le _)
    ⟨hs, fun a b => by rw [if_neg (by omega)]⟩
    (by
      intro i t _ hi ⟨hst, hpt⟩
      have inner := for_loop_inv (fun j im => set_pixel im i j (f (pixel im i j)))
        (fun k im => has_shape h w im ∧ ∀ a b, pixel im a b
          = if (a < i ∧ b < w) ∨ (a = i ∧ b < k) then f (pixel image a b)
            else pixel image a b)
        0 w t (Nat.zero_le _)
        ⟨hst, fun a b => by
          rw [hpt a b]
          by_cases c : a < i ∧ b < w
          · rw [if_pos c, if_pos (Or.inl c)]
          · rw [if_neg c, if_neg (by omega)]⟩
        (by
          intro j u _ hj ⟨hsu, hpu⟩
          refine ⟨has_shape_set_pixel h w u hsu i j _, ?_⟩
          intro a b
          have e1 : pixel u i j = pixel image i j := by
            rw [hpu i j, if_neg (by omega)]
          rw [pixel_set_pixel h w u hsu, e1, hpu a b]
          by_cases c1 : a = i ∧ b = j ∧ i < h ∧ j < w
          · obtain ⟨ha, hb, _, _⟩ := c1
            subst ha hb
            rw [if_pos ⟨rfl, rfl, hi, hj⟩, if_pos (Or.inr ⟨rfl, Nat.lt_succ_self _⟩)]
          · rw [if_neg c1]
            by_cases c2 : (a < i ∧ b < w) ∨ (a = i ∧ b < j)
            · rw [if_pos c2, if_pos (by omega)]
            · rw [if_neg c2, if_neg (by omega)])
      refine ⟨inner.1, ?_⟩
      intro a b
      rw [inner.2 a b]
      by_cases c : a < i + 1 ∧ b < w
      · rw [if_pos c, if_pos (by omega)]
      · rw [if_neg c, if_neg (by omega)])
  refine ⟨key.1, ?_⟩
  intro i j hi hj
  rw [key.2 i j, if_pos ⟨hi, hj⟩]

/-! ## Decoding: short scanlines; encoding: the value returned -/

/-- C11 as stated fails: a 54-byte stream with a supported header announcing a
255 by 2147483647 image has accepted dimensions and no scanline at all, yet
where `calloc` grants at most 4 GiB `read_image` fails with the error "not
enough memory", not with the read error: the buffer is allocated before the
first scanline is read. -/
theorem read_image_short_stream_no_memory :
    54 ≤ (sample_header 255 0xff 0xff 0xff 0x7f).length
    ∧ bmp_check_header (decoded_bf (sample_header 255 0xff 0xff 0xff 0x7f))
        (decoded_bi (sample_header 255 0xff 0xff 0xff 0x7f)) = true
    ∧ abs_height (decoded_bi (sample_header 255 0xff 0xff 0xff 0x7f)).bi_height = 2147483647
    ∧ int32_to_size_t (decoded_bi (sample_header 255 0xff 0xff 0xff 0x7f)).bi_width = 255
    ∧ (sample_header 255 0xff 0xff 0xff 0x7f).length
        < 54 + 2147483647 * (3 * 255 + determine_padding 255)
    ∧ read_image (fun nmemb size => decide (nmemb * size ≤ 4294967296))
        (sample_header 255 0xff 0xff 0xff 0x7f) = .error .not_enough_memory
    ∧ read_image (fun nmemb size => decide (nmemb * size ≤ 4294967296))
        (sample_header 255 0xff 0xff 0xff 0x7f) ≠ .error .failed_to_read_scanlines := by
  have e : read_image (fun nmemb size => decide (nmemb * size ≤ 4294967296))
      (sample_header 255 0xff 0xff 0xff 0x7f) = .error .not_enough_memory := by
    rw [read_image_eq]
    rfl
  refine ⟨by decide, by decide, by decide, by decide, by decide, e, ?_⟩
  rw [e]
  intro hc
  cases hc

/-- C11, amended: on a stream whose headers are supported and whose dimensions
`h`, `w` are accepted, when `calloc` grants the buffer `read_image` fails with
the read error of the scanlines if fewer than `h * (3 * w + p)` bytes follow
the 54-byte header and succeeds otherwise; a stream that lacks only the
padding bytes of the last row is rejected. When `calloc` refuses the buffer
`read_image` fails with the error "not enough memory" whatever the length. -/
theorem read_image_scanlines (c : Nat → Nat → Bool) (s : List Nat) (hlen : 54 ≤ s.length)
    (hchk : bmp_check_header (decoded_bf s) (decoded_bi s) = true)
    (hh : abs_height (decoded_bi s).bi_height ≠ 0)
    (hw0 : int32_to_size_t (decoded_bi s).bi_width ≠ 0)
    (hw : int32_to_size_t (decoded_bi s).bi_width ≤ (SIZE_MAX - 3) / 3) :
    (c (abs_height (decoded_bi s).bi_height)
        (int32_to_size_t (decoded_bi s).bi_width * 3 % SIZE_MOD) = true →
      (s.length < 54 + abs_height (decoded_bi s).bi_height
          * (3 * int32_to_size_t (decoded_bi s).bi_width
            + determine_padding (int32_to_size_t (decoded_bi s).bi_width)) →
        read_image c s = .error .failed_to_read_scanlines)
      ∧ (54 + abs_height (decoded_bi s).bi_height
          * (3 * int32_to_size_t (decoded_bi s).bi_width
            + determine_padding (int32_to_size_t (decoded_bi s).bi_width)) ≤ s.length →
        read_image c s = .ok ⟨decoded_bf s, decoded_bi s,
          abs_height (decoded_bi s).bi_height, int32_to_size_t (decoded_bi s).bi_width,
          scanline_image (abs_height (decoded_bi s).bi_height)
            (int32_to_size_t (decoded_bi s).bi_width)
            (determine_padding (int32_to_size_t (decoded_bi s).bi_width)) (s.drop 54)⟩)
      ∧ (0 < determine_padding (int32_to_size_t (decoded_bi s).bi_width) →
        s.length + determine_padding (int32_to_size_t (decoded_bi s).bi_width)
          = 54 + abs_height (decoded_bi s).bi_height
            * (3 * int32_to_size_t (decoded_bi s).bi_width
              + determine_padding (int32_to_size_t (decoded_bi s).bi_width)) →
        read_image c s = .error .failed_to_read_scanlines))
    ∧ (c (abs_height (decoded_bi s).bi_height)
        (int32_to_size_t (decoded_bi s).bi_width * 3 % SIZE_MOD) = false →
      read_image c s = .error .not_enough_memory) := by
  have hb := abs_height_lt (decoded_bi s).bi_height
  have base : read_image c s =
      if !c (abs_height (decoded_bi s).bi_height)
          (int32_to_size_t (decoded_bi s).bi_width * 3 % SIZE_MOD) then
        .error .not_enough_memory
      else if s.length < 54 + abs_height (decoded_bi s).bi_height
          * (3 * int32_to_size_t (decoded_bi s).bi_width
            + determine_padding (int32_to_size_t (decoded_bi s).bi_width)) then
        .error .failed_to_read_scanlines
      else .ok ⟨decoded_bf s, decoded_bi s, abs_height (decoded_bi s).bi_height,
        int32_to_size_t (decoded_bi s).bi_width,
        scanline_image (abs_height (decoded_bi s).bi_height)
          (int32_to_size_t (decoded_bi s).bi_width)
          (determine_padding (int32_to_size_t (decoded_bi s).bi_width)) (s.drop 54)⟩ := by
    rw [read_image_eq, if_neg (by omega), hchk]
    simp only [Bool.not_true, Bool.false_eq_true, if_false]
    rw [if_neg (by unfold SIZE_MAX; omega), if_neg (by omega), if_neg (by omega)]
  constructor
  · intro hc
    rw [base, hc]
    simp only [Bool.not_true, Bool.false_eq_true, if_false]
    refine ⟨fun hshort => by rw [if_pos hshort], fun hlong => ?_, fun hp hl => ?_⟩
    · rw [if_neg (by omega)]
    · rw [if_pos (by omega)]
  · intro hc
    rw [base, hc]
    rfl

theorem read_image_scanlines_witness :
    read_image (fun _ _ => true)
        (sample_header 2 0xfe 0xff 0xff 0xff ++ [1, 2, 3, 4, 5, 6, 9, 9, 7, 8, 9, 10, 11, 12])
      = .error .failed_to_read_scanlines :=
  (read_image_scanlines (fun _ _ => true)
    (sample_header 2 0xfe 0xff 0xff 0xff ++ [1, 2, 3, 4, 5, 6, 9, 9, 7, 8, 9, 10, 11, 12])
    (by decide) (by decide) (by decide) (by decide) (by decide)).1 (by rfl) |>.2.2
      (by decide) (by decide)

/-- The value `write_image` returns. -/
theorem write_image_return (bf : BITMAPFILEHEADER) (bi : BITMAPINFOHEADER)
    (out : OutStream) (h w : Nat) (image : List (List RGBTRIPLE))
    (himg : image.length = h) (hrow : ∀ row ∈ image, row.length = w) :
    (write_image bf bi out h w image).1 =
      if out.is_stdout = false ∧ out.freopen_ok = false then -1
      else if out.room < 54 + h * (3 * w + determine_padding w) then -1
      else if out.is_stdout = true ∨ out.fclose_ok = true then 1
      else 0 := by
  by_cases c1 : out.is_stdout = false ∧ out.freopen_ok = false
  · rw [if_pos c1, write_image_fail_reopen bf bi out h w image c1.1 c1.2]
  rw [if_neg c1]
  by_cases c2 : out.room < 54 + h * (3 * w + determine_padding w)
  · rw [if_pos c2, write_image_fail_room bf bi out h w image c2]
  rw [if_neg c2]
  have hopen : out.is_stdout = true ∨ out.freopen_ok = true := by
    cases e1 : out.is_stdout
    · cases e2 : out.freopen_ok
      · exact absurd ⟨e1, e2⟩ c1
      · exact Or.inr rfl
    · exact Or.inl rfl
  rw [write_image_ok bf bi out h w image hopen (Nat.le_of_not_lt c2) himg hrow]
  simp only [Bool.or_eq_true]

/-- C12 fails on the code: a `write_image` that wrote every byte and closed
the stream returns 1, not 0 (also on `stdout`), and one whose `fclose` failed
returns 0, not -1; only a failed `freopen` and a short write return -1. -/
theorem write_image_return_values :
    (write_image ⟨0x4d42, 0, 0, 0, 54⟩ ⟨40, 1, 1, 1, 24, 0, 0, 0, 0, 0, 0⟩
        ⟨false, true, true, 100⟩ 1 1 [[⟨1, 2, 3⟩]]).1 = 1
    ∧ (write_image ⟨0x4d42, 0, 0, 0, 54⟩ ⟨40, 1, 1, 1, 24, 0, 0, 0, 0, 0, 0⟩
        ⟨true, false, false, 100⟩ 1 1 [[⟨1, 2, 3⟩]]).1 = 1
    ∧ (write_image ⟨0x4d42, 0, 0, 0, 54⟩ ⟨40, 1, 1, 1, 24, 0, 0, 0, 0, 0, 0⟩
        ⟨false, true, false, 100⟩ 1 1 [[⟨1, 2, 3⟩]]).1 = 0
    ∧ (write_image ⟨0x4d42, 0, 0, 0, 54⟩ ⟨40, 1, 1, 1, 24, 0, 0, 0, 0, 0, 0⟩
        ⟨false, false, true, 100⟩ 1 1 [[⟨1, 2, 3⟩]]).1 = -1
    ∧ (write_image ⟨0x4d42, 0, 0, 0, 54⟩ ⟨40, 1, 1, 1, 24, 0, 0, 0, 0, 0, 0⟩
        ⟨false, true, true, 57⟩ 1 1 [[⟨1, 2, 3⟩]]).1 = -1 := by
  refine ⟨by rfl, by rfl, by rfl, by rfl, by rfl⟩

/-! ## Grayscale -/

/-- What `grayscale` does to one pixel, read off its loops. -/
theorem grayscale_pixels (h w : Nat) (image : List (List RGBTRIPLE))
    (hs : has_shape h w image) :
    has_shape h w (grayscale h w image)
    ∧ ∀ i j, i < h → j < w →
        pixel (grayscale h w image) i j
          = ⟨((pixel image i j).rgbt_blue + (pixel image i j).rgbt_red
                + (pixel image i j).rgbt_green
              + ((pixel image i j).rgbt_blue + (pixel image i j).rgbt_red
                + (pixel image i j).rgbt_green) % 2 + 1) / 3 % 256,
            ((pixel image i j).rgbt_blue + (pixel image i j).rgbt_red
                + (pixel image i j).rgbt_green
              + ((pixel image i j).rgbt_blue + (pixel image i j).rgbt_red
                + (pixel image i j).rgbt_green) % 2 + 1) / 3 % 256,
            ((pixel image i j).rgbt_blue + (pixel image i j).rgbt_red
                + (pixel image i j).rgbt_green
              + ((pixel image i j).rgbt_blue + (pixel image i j).rgbt_red
                + (pixel image i j).rgbt_green) % 2 + 1) / 3 % 256⟩ :=
  map_pixels_loop (fun p =>
    ⟨(p.rgbt_blue + p.rgbt_red + p.rgbt_green
        + (p.rgbt_blue + p.rgbt_red + p.rgbt_green) % 2 + 1) / 3 % 256,
      (p.rgbt_blue + p.rgbt_red + p.rgbt_green
        + (p.rgbt_blue + p.rgbt_red + p.rgbt_green) % 2 + 1) / 3 % 256,
      (p.rgbt_blue + p.rgbt_red + p.rgbt_green
        + (p.rgbt_blue + p.rgbt_red + p.rgbt_green) % 2 + 1) / 3 % 256⟩) h w image hs

/-- An image of the given shape whose pixels all are in range. -/
theorem is_image_of_pixels (h w : Nat) (image : List (List RGBTRIPLE))
    (hs : has_shape h w image)
    (hp : ∀ i j, i < h → j < w → triple_in_range (pixel image i j)) : is_image h w image := by
  refine ⟨hs.1, fun row hr => ⟨hs.2 row hr, fun p hpm => ?_⟩⟩
  obtain ⟨i, hi, rfl⟩ := List.getElem_of_mem hr
  obtain ⟨j, hj, rfl⟩ := List.getElem_of_mem hpm
  have hl : (image[i]).length = w := hs.2 _ (List.getElem_mem hi)
  have := hp i j (by rw [← hs.1]; exact hi) (by rw [← hl]; exact hj)
  unfold pixel at this
  rw [List.getD_eq_getElem _ _ hi, List.getD_eq_getElem _ _ hj] at this
  exact this

/-- C13: on an `h`-by-`w` buffer, `grayscale` sets the three channels of every
pixel to `(s + s mod 2 + 1) div 3` with `s = R + G + B` of that pixel, so the
three channels are equal afterwards, and the result is again an `h`-by-`w`
buffer. -/
theorem grayscale_spec (h w : Nat) (B : List (List RGBTRIPLE)) (hB : is_image h w B) :
    is_image h w (grayscale h w B)
    ∧ ∀ i j, i < h → j < w →
        (pixel (grayscale h w B) i j).rgbt_red
          = ((pixel B i j).rgbt_red + (pixel B i j).rgbt_green + (pixel B i j).rgbt_blue
            + ((pixel B i j).rgbt_red + (pixel B i j).rgbt_green
              + (pixel B i j).rgbt_blue) % 2 + 1) / 3
        ∧ (pixel (grayscale h w B) i j).rgbt_green = (pixel (grayscale h w B) i j).rgbt_red
        ∧ (pixel (grayscale h w B) i j).rgbt_blue = (pixel (grayscale h w B) i j).rgbt_red := by
  obtain ⟨hs, hp⟩ := grayscale_pixels h w B (has_shape_of_is_image h w B hB)
  constructor
  · apply is_image_of_pixels h w _ hs
    intro i j hi hj
    rw [hp i j hi hj]
    exact ⟨Nat.mod_lt _ (by decide), Nat.mod_lt _ (by decide), Nat.mod_lt _ (by decide)⟩
  · intro i j hi hj
    rw [hp i j hi hj]
    obtain ⟨hb, hg, hr⟩ := pixel_in_range h w B hB i j
    refine ⟨?_, rfl, rfl⟩
    simp only
    have e : (pixel B i j).rgbt_red + (pixel B i j).rgbt_green + (pixel B i j).rgbt_blue
        = (pixel B i j).rgbt_blue + (pixel B i j).rgbt_red + (pixel B i j).rgbt_green := by
      omega
    rw [e]
    have hsum : (pixel B i j).rgbt_blue + (pixel B i j).rgbt_red + (pixel B i j).rgbt_green
        ≤ 765 := by omega
    generalize (pixel B i j).rgbt_blue + (pixel B i j).rgbt_red + (pixel B i j).rgbt_green
      = s at hsum
    omega

theorem grayscale_spec_witness :
    is_image 1 2 (grayscale 1 2 [[⟨1, 0, 0⟩, ⟨10, 20, 30⟩]])
    ∧ (pixel (grayscale 1 2 [[⟨1, 0, 0⟩, ⟨10, 20, 30⟩]]) 0 1).rgbt_red = 20 :=
  ⟨(grayscale_spec 1 2 [[⟨1, 0, 0⟩, ⟨10, 20, 30⟩]]
      (by unfold is_image triple_in_range; decide)).1,
    ((grayscale_spec 1 2 [[⟨1, 0, 0⟩, ⟨10, 20, 30⟩]]
      (by unfold is_image triple_in_range; decide)).2 0 1 (by decide) (by decide)).1⟩

/-- C14 as stated fails: on the pixel with red 1, green 0, blue 0 `grayscale`
writes 1, while `(R + G + B + 1) div 3`, the mean 1/3 rounded half-up, is 0. -/
theorem grayscale_not_half_up :
    pixel (grayscale 1 1 [[⟨0, 0, 1⟩]]) 0 0 = ⟨1, 1, 1⟩
    ∧ (1 + 0 + 0 + 1) / 3 = 0
    ∧ ⌊((1 + 0 + 0 : ℚ) / 3 + 1 / 2)⌋ = 0
    ∧ (pixel (grayscale 1 1 [[⟨0, 0, 1⟩]]) 0 0).rgbt_red ≠ (1 + 0 + 0 + 1) / 3 := by
  refine ⟨by decide, by decide, ?_, by decide⟩
  rw [Int.floor_eq_iff]
  norm_num

/-- C14, amended: for a pixel with channels in 0..255 and `s = R + G + B`, the
value `grayscale` writes is `(s + 1) div 3`, the mean rounded half-up, unless
`s mod 6 = 1`, where it is `(s + 1) div 3 + 1`. -/
theorem grayscale_rounding (h w : Nat) (B : List (List RGBTRIPLE)) (hB : is_image h w B)
    (i j : Nat) (hi : i < h) (hj : j < w) :
    (((pixel B i j).rgbt_red + (pixel B i j).rgbt_green + (pixel B i j).rgbt_blue) % 6 ≠ 1 →
      (pixel (grayscale h w B) i j).rgbt_red
        = ((pixel B i j).rgbt_red + (pixel B i j).rgbt_green + (pixel B i j).rgbt_blue + 1) / 3)
    ∧ (((pixel B i j).rgbt_red + (pixel B i j).rgbt_green + (pixel B i j).rgbt_blue) % 6 = 1 →
      (pixel (grayscale h w B) i j).rgbt_red
        = ((pixel B i j).rgbt_red + (pixel B i j).rgbt_green + (pixel B i j).rgbt_blue + 1) / 3
          + 1)
    ∧ (pixel (grayscale h w B) i j).rgbt_green = (pixel (grayscale h w B) i j).rgbt_red
    ∧ (pixel (grayscale h w B) i j).rgbt_blue = (pixel (grayscale h w B) i j).rgbt_red := by
  obtain ⟨_, hp⟩ := grayscale_pixels h w B (has_shape_of_is_image h w B hB)
  rw [hp i j hi hj]
  obtain ⟨hb, hg, hr⟩ := pixel_in_range h w B hB i j
  have e : (pixel B i j).rgbt_red + (pixel B i j).rgbt_green + (pixel B i j).rgbt_blue
      = (pixel B i j).rgbt_blue + (pixel B i j).rgbt_red + (pixel B i j).rgbt_green := by
    omega
  rw [e]
  have hsum : (pixel B i j).rgbt_blue + (pixel B i j).rgbt_red + (pixel B i j).rgbt_green
      ≤ 765 := by omega
  generalize (pixel B i j).rgbt_blue + (pixel B i j).rgbt_red + (pixel B i j).rgbt_green
    = s at hsum
  have h6 : s % 6 = 0 ∨ s % 6 = 1 ∨ s % 6 = 2 ∨ s % 6 = 3 ∨ s % 6 = 4 ∨ s % 6 = 5 := by
    omega
  refine ⟨?_, ?_, rfl, rfl⟩
  · intro hs
    simp only
    rcases h6 with c | c | c | c | c | c <;> omega
  · intro hs
    simp only
    omega

theorem grayscale_rounding_witness :
    (pixel (grayscale 1 2 [[⟨0, 0, 1⟩, ⟨10, 20, 30⟩]]) 0 0).rgbt_red = (1 + 0 + 0 + 1) / 3 + 1
    ∧ (pixel (grayscale 1 2 [[⟨0, 0, 1⟩, ⟨10, 20, 30⟩]]) 0 1).rgbt_red = (30 + 20 + 10 + 1) / 3 :=
  ⟨(grayscale_rounding 1 2 [[⟨0, 0, 1⟩, ⟨10, 20, 30⟩]]
      (by unfold is_image triple_in_range; decide) 0 0 (by decide) (by decide)).2.1 (by decide),
    (grayscale_rounding 1 2 [[⟨0, 0, 1⟩, ⟨10, 20, 30⟩]]
      (by unfold is_image triple_in_range; decide) 0 1 (by decide) (by decide)).1 (by decide)⟩

/-- C15: `grayscale` is idempotent on every `h`-by-`w` buffer. -/
theorem grayscale_idempotent (h w : Nat) (B : List (List RGBTRIPLE)) (hB : has_shape h w B) :
    grayscale h w (grayscale h w B) = grayscale h w B := by
  obtain ⟨hs1, hp1⟩ := grayscale_pixels h w B hB
  obtain ⟨hs2, hp2⟩ := grayscale_pixels h w (grayscale h w B) hs1
  apply image_ext h w _ _ hs2 hs1
  intro i j hi hj
  rw [hp2 i j hi hj, hp1 i j hi hj]
  simp only
  have ha : ((pixel B i j).rgbt_blue + (pixel B i j).rgbt_red + (pixel B i j).rgbt_green
      + ((pixel B i j).rgbt_blue + (pixel B i j).rgbt_red + (pixel B i j).rgbt_green) % 2
      + 1) / 3 % 256 < 256 := Nat.mod_lt _ (by decide)
  generalize ((pixel B i j).rgbt_blue + (pixel B i j).rgbt_red + (pixel B i j).rgbt_green
      + ((pixel B i j).rgbt_blue + (pixel B i j).rgbt_red + (pixel B i j).rgbt_green) % 2
      + 1) / 3 % 256 = a at ha
  have e : (a + a + a + (a + a + a) % 2 + 1) / 3 % 256 = a := by
    have hpar : (a + a + a) % 2 = 0 ∨ (a + a + a) % 2 = 1 := by omega
    rcases hpar with c | c <;> rw [c] <;> omega
  rw [e]

theorem grayscale_idempotent_witness :
    grayscale 1 2 (grayscale 1 2 [[⟨1, 0, 0⟩, ⟨10, 20, 30⟩]])
      = grayscale 1 2 [[⟨1, 0, 0⟩, ⟨10, 20, 30⟩]] :=
  grayscale_idempotent 1 2 [[⟨1, 0, 0⟩, ⟨10, 20, 30⟩]] (by unfold has_shape; decide)

/-! ## Sepia -/

theorem scale_up_eq (m k : Nat) (h1 : k * 1000 ≤ m * 8192 + 500)
    (h2 : m * 8192 + 500 < (k + 1) * 1000) : SCALE_UP ((m : ℚ) / 1000) = k := by
  unfold SCALE_UP SCALE
  have e : (m : ℚ) / 1000 * ((8192 : ℕ) : ℚ) + 1 / 2
      = (((m * 8192 + 500 : ℕ) : ℚ)) / ((1000 : ℕ) : ℚ) := by
    push_cast
    ring
  rw [e, Rat.floor_natCast_div_natCast]
  omega

theorem scale_up_393 : SCALE_UP (393 / 1000) = 3219 := by
  have := scale_up_eq 393 3219 (by decide) (by decide)
  simp only [Nat.cast_ofNat] at this
  exact this

theorem scale_up_769 : SCALE_UP (769 / 1000) = 6300 := by
  have := scale_up_eq 769 6300 (by decide) (by decide)
  simp only [Nat.cast_ofNat] at this
  exact this

theorem scale_up_189 : SCALE_UP (189 / 1000) = 1548 := by
  have := scale_up_eq 189 1548 (by decide) (by decide)
  simp only [Nat.cast_ofNat] at this
  exact this

theorem scale_up_349 : SCALE_UP (349 / 1000) = 2859 := by
  have := scale_up_eq 349 2859 (by decide) (by decide)
  simp only [Nat.cast_ofNat] at this
  exact this

theorem scale_up_686 : SCALE_UP (686 / 1000) = 5620 := by
  have := scale_up_eq 686 5620 (by decide) (by decide)
  simp only [Nat.cast_ofNat] at this
  exact this

theorem scale_up_168 : SCALE_UP (168 / 1000) = 1376 := by
  have := scale_up_eq 168 1376 (by decide) (by decide)
  simp only [Nat.cast_ofNat] at this
  exact this

theorem scale_up_272 : SCALE_UP (272 / 1000) = 2228 := by
  have := scale_up_eq 272 2228 (by decide) (by decide)
  simp only [Nat.cast_ofNat] at this
  exact this

theorem scale_up_534 : SCALE_UP (534 / 1000) = 4375 := by
  have := scale_up_eq 534 4375 (by decide) (by decide)
  simp only [Nat.cast_ofNat] at this
  exact this

theorem scale_up_131 : SCALE_UP (131 / 1000) = 1073 := by
  have := scale_up_eq 131 1073 (by decide) (by decide)
  simp only [Nat.cast_ofNat] at this
  exact this

theorem min_255_mod (x : Nat) : MIN 255 x % 256 = min 255 x := by
  unfold MIN
  split_ifs <;> omega

/-- What `sepia` does to one pixel, read off its loops. -/
theorem sepia_pixels (h w : Nat) (image : List (List RGBTRIPLE))
    (hs : has_shape h w image) :
    has_shape h w (sepia h w image)
    ∧ ∀ i j, i < h → j < w →
        pixel (sepia h w image) i j
          = ⟨min 255 ((2228 * (pixel image i j).rgbt_red + 4375 * (pixel image i j).rgbt_green
                + 1073 * (pixel image i j).rgbt_blue + 4096) / 8192),
              min 255 ((2859 * (pixel image i j).rgbt_red + 5620 * (pixel image i j).rgbt_green
                + 1376 * (pixel image i j).rgbt_blue + 4096) / 8192),
              min 255 ((3219 * (pixel image i j).rgbt_red + 6300 * (pixel image i j).rgbt_green
                + 1548 * (pixel image i j).rgbt_blue + 4096) / 8192)⟩ := by
  have key := map_pixels_loop (fun p =>
    ⟨MIN 255 (((SCALE_UP (272 / 1000) * p.rgbt_red + SCALE_UP (534 / 1000) * p.rgbt_green
          + SCALE_UP (131 / 1000) * p.rgbt_blue) + SCALE / 2) / SCALE) % 256,
      MIN 255 (((SCALE_UP (349 / 1000) * p.rgbt_red + SCALE_UP (686 / 1000) * p.rgbt_green
          + SCALE_UP (168 / 1000) * p.rgbt_blue) + SCALE / 2) / SCALE) % 256,
      MIN 255 (((SCALE_UP (393 / 1000) * p.rgbt_red + SCALE_UP (769 / 1000) * p.rgbt_green
          + SCALE_UP (189 / 1000) * p.rgbt_blue) + SCALE / 2) / SCALE) % 256⟩) h w image hs
  refine ⟨key.1, ?_⟩
  intro i j hi hj
  have e : pixel (sepia h w image) i j = _ := key.2 i j hi hj
  rw [e]
  simp only [scale_up_393, scale_up_769, scale_up_189, scale_up_349, scale_up_686,
    scale_up_168, scale_up_272, scale_up_534, scale_up_131, min_255_mod, SCALE]

/-- C16: on an `h`-by-`w` buffer, `sepia` sets red to
`min 255 ((3219 R + 6300 G + 1548 B + 4096) div 8192)`, green to
`min 255 ((2859 R + 5620 G + 1376 B + 4096) div 8192)` and blue to
`min 255 ((2228 R + 4375 G + 1073 B + 4096) div 8192)` of the pixel's original
channels; every channel written is at most 255, black stays black, and each
integer coefficient is `SCALE_UP c`, the floor of `c * 8192 + 1/2`. -/
theorem sepia_spec (h w : Nat) (B : List (List RGBTRIPLE)) (hB : has_shape h w B) :
    has_shape h w (sepia h w B)
    ∧ (∀ i j, i < h → j < w →
        (pixel (sepia h w B) i j).rgbt_red
          = min 255 ((3219 * (pixel B i j).rgbt_red + 6300 * (pixel B i j).rgbt_green
              + 1548 * (pixel B i j).rgbt_blue + 4096) / 8192)
        ∧ (pixel (sepia h w B) i j).rgbt_green
          = min 255 ((2859 * (pixel B i j).rgbt_red + 5620 * (pixel B i j).rgbt_green
              + 1376 * (pixel B i j).rgbt_blue + 4096) / 8192)
        ∧ (pixel (sepia h w B) i j).rgbt_blue
          = min 255 ((2228 * (pixel B i j).rgbt_red + 4375 * (pixel B i j).rgbt_green
              + 1073 * (pixel B i j).rgbt_blue + 4096) / 8192)
        ∧ triple_in_range (pixel (sepia h w B) i j)
        ∧ (pixel B i j = ⟨0, 0, 0⟩ → pixel (sepia h w B) i j = ⟨0, 0, 0⟩))
    ∧ (SCALE_UP (393 / 1000) = 3219 ∧ SCALE_UP (769 / 1000) = 6300
        ∧ SCALE_UP (189 / 1000) = 1548 ∧ SCALE_UP (349 / 1000) = 2859
        ∧ SCALE_UP (686 / 1000) = 5620 ∧ SCALE_UP (168 / 1000) = 1376
        ∧ SCALE_UP (272 / 1000) = 2228 ∧ SCALE_UP (534 / 1000) = 4375
        ∧ SCALE_UP (131 / 1000) = 1073)
    ∧ ∀ c : ℚ, (SCALE_UP c : Int) = max 0 ⌊c * 8192 + 1 / 2⌋ := by
  obtain ⟨hs, hp⟩ := sepia_pixels h w B hB
  refine ⟨hs, ?_, ⟨scale_up_393, scale_up_769, scale_up_189, scale_up_349, scale_up_686,
    scale_up_168, scale_up_272, scale_up_534, scale_up_131⟩, ?_⟩
  · intro i j hi hj
    rw [hp i j hi hj]
    refine ⟨rfl, rfl, rfl, ⟨?_, ?_, ?_⟩, ?_⟩
    · simp only
      omega
    · simp only
      omega
    · simp only
      omega
    · intro hz
      rw [hz]
      rfl
  · intro c
    unfold SCALE_UP SCALE
    rw [Int.toNat_eq_max, max_comm]
    norm_num

theorem sepia_spec_witness :
    has_shape 1 2 (sepia 1 2 [[⟨5, 1, 2⟩, ⟨255, 255, 255⟩]])
      ∧ (pixel (sepia 1 2 [[⟨5, 1, 2⟩, ⟨255, 255, 255⟩]]) 0 1).rgbt_red
        = min 255 ((3219 * 255 + 6300 * 255 + 1548 * 255 + 4096) / 8192) :=
  ⟨(sepia_spec 1 2 [[⟨5, 1, 2⟩, ⟨255, 255, 255⟩]] (by unfold has_shape; decide)).1,
    ((sepia_spec 1 2 [[⟨5, 1, 2⟩, ⟨255, 255, 255⟩]] (by unfold has_shape; decide)).2.1
      0 1 (by decide) (by decide)).1⟩

theorem round_half_up_thousandths (n : Nat) :
    round_half_up ((n : ℚ) / 1000) = ((n + 500) / 1000 : Nat) := by
  unfold round_half_up
  have e : (n : ℚ) / 1000 + 1 / 2 = (((n + 500 : ℕ) : ℚ)) / ((1000 : ℕ) : ℚ) := by
    push_cast
    ring
  rw [e, Rat.floor_natCast_div_natCast]
  norm_cast

theorem round_half_up_scaled (n : Nat) :
    round_half_up ((n : ℚ) / 8192) = ((n + 4096) / 8192 : Nat) := by
  unfold round_half_up
  have e : (n : ℚ) / 8192 + 1 / 2 = (((n + 4096 : ℕ) : ℚ)) / ((8192 : ℕ) : ℚ) := by
    push_cast
    ring
  rw [e, Rat.floor_natCast_div_natCast]
  norm_cast

theorem clamp_byte_natCast (n : Nat) : clamp_byte (n : Int) = (min 255 n : Nat) := by
  unfold clamp_byte
  omega

/-- C17 as stated fails: on the pixel with red 2, green 1, blue 5 the exact
sum `0.393 * 2 + 0.769 * 1 + 0.189 * 5` is 2.5, which rounds half-up to 3,
while `sepia` writes 2 to the red channel. -/
theorem sepia_not_exact :
    (pixel (sepia 1 1 [[⟨5, 1, 2⟩]]) 0 0).rgbt_red = 2
    ∧ (393 / 1000 : ℚ) * 2 + 769 / 1000 * 1 + 189 / 1000 * 5 = 5 / 2
    ∧ clamp_byte (round_half_up ((393 / 1000 : ℚ) * 2 + 769 / 1000 * 1 + 189 / 1000 * 5)) = 3
    ∧ ((pixel (sepia 1 1 [[⟨5, 1, 2⟩]]) 0 0).rgbt_red : Int)
        ≠ clamp_byte (round_half_up ((393 / 1000 : ℚ) * 2 + 769 / 1000 * 1 + 189 / 1000 * 5)) := by
  have e1 : (pixel (sepia 1 1 [[⟨5, 1, 2⟩]]) 0 0).rgbt_red = 2 := by
    rw [(sepia_pixels 1 1 [[⟨5, 1, 2⟩]] (by unfold has_shape; decide)).2 0 0 (by decide)
      (by decide)]
    decide
  have e2 : (393 / 1000 : ℚ) * 2 + 769 / 1000 * 1 + 189 / 1000 * 5 = 5 / 2 := by norm_num
  have e3 : clamp_byte (round_half_up
      ((393 / 1000 : ℚ) * 2 + 769 / 1000 * 1 + 189 / 1000 * 5)) = 3 := by
    have e : (393 / 1000 : ℚ) * 2 + 769 / 1000 * 1 + 189 / 1000 * 5
        = ((2500 : ℕ) : ℚ) / 1000 := by norm_num
    rw [e, round_half_up_thousandths, clamp_byte_natCast]
    decide
  refine ⟨e1, e2, e3, ?_⟩
  rw [e1, e3]
  decide

/-- C17, amended: for a pixel with channels in 0..255, each channel written by
`sepia` is the weighted sum with the coefficients scaled to multiples of
1/8192 (3219/8192 for 0.393, 6300/8192 for 0.769, ...) rounded half-up and
clamped to [0,255]; it differs by at most 1 from the exact sum with the
documented coefficients rounded half-up and clamped. -/
theorem sepia_rounding (h w : Nat) (B : List (List RGBTRIPLE)) (hB : is_image h w B)
    (i j : Nat) (hi : i < h) (hj : j < w) :
    (((pixel (sepia h w B) i j).rgbt_red : Int)
        = clamp_byte (round_half_up ((3219 / 8192 : ℚ) * (pixel B i j).rgbt_red
            + 6300 / 8192 * (pixel B i j).rgbt_green + 1548 / 8192 * (pixel B i j).rgbt_blue))
      ∧ ((pixel (sepia h w B) i j).rgbt_red : Int)
        ≤ clamp_byte (round_half_up ((393 / 1000 : ℚ) * (pixel B i j).rgbt_red
            + 769 / 1000 * (pixel B i j).rgbt_green + 189 / 1000 * (pixel B i j).rgbt_blue)) + 1
      ∧ clamp_byte (round_half_up ((393 / 1000 : ℚ) * (pixel B i j).rgbt_red
            + 769 / 1000 * (pixel B i j).rgbt_green + 189 / 1000 * (pixel B i j).rgbt_blue))
        ≤ ((pixel (sepia h w B) i j).rgbt_red : Int) + 1)
    ∧ (((pixel (sepia h w B) i j).rgbt_green : Int)
        = clamp_byte (round_half_up ((2859 / 8192 : ℚ) * (pixel B i j).rgbt_red
            + 5620 / 8192 * (pixel B i j).rgbt_green + 1376 / 8192 * (pixel B i j).rgbt_blue))
      ∧ ((pixel (sepia h w B) i j).rgbt_green : Int)
        ≤ clamp_byte (round_half_up ((349 / 1000 : ℚ) * (pixel B i j).rgbt_red
            + 686 / 1000 * (pixel B i j).rgbt_green + 168 / 1000 * (pixel B i j).rgbt_blue)) + 1
      ∧ clamp_byte (round_half_up ((349 / 1000 : ℚ) * (pixel B i j).rgbt_red
            + 686 / 1000 * (pixel B i j).rgbt_green + 168 / 1000 * (pixel B i j).rgbt_blue))
        ≤ ((pixel (sepia h w B) i j).rgbt_green : Int) + 1)
    ∧ (((pixel (sepia h w B) i j).rgbt_blue : Int)
        = clamp_byte (round_half_up ((2228 / 8192 : ℚ) * (pixel B i j).rgbt_red
            + 4375 / 8192 * (pixel B i j).rgbt_green + 1073 / 8192 * (pixel B i j).rgbt_blue))
      ∧ ((pixel (sepia h w B) i j).rgbt_blue : Int)
        ≤ clamp_byte (round_half_up ((272 / 1000 : ℚ) * (pixel B i j).rgbt_red
            + 534 / 1000 * (pixel B i j).rgbt_green + 131 / 1000 * (pixel B i j).rgbt_blue)) + 1
      ∧ clamp_byte (round_half_up ((272 / 1000 : ℚ) * (pixel B i j).rgbt_red
            + 534 / 1000 * (pixel B i j).rgbt_green + 131 / 1000 * (pixel B i j).rgbt_blue))
        ≤ ((pixel (sepia h w B) i j).rgbt_blue : Int) + 1) := by
  obtain ⟨_, hp⟩ := sepia_pixels h w B (has_shape_of_is_image h w B hB)
  rw [hp i j hi hj]
  obtain ⟨hb, hg, hr⟩ := pixel_in_range h w B hB i j
  generalize (pixel B i j).rgbt_red = R at hr
  generalize (pixel B i j).rgbt_green = G at hg
  generalize (pixel B i j).rgbt_blue = Bl at hb
  have s1 : (3219 / 8192 : ℚ) * R + 6300 / 8192 * G + 1548 / 8192 * Bl
      = ((3219 * R + 6300 * G + 1548 * Bl : ℕ) : ℚ) / 8192 := by push_cast; ring
  have s2 : (2859 / 8192 : ℚ) * R + 5620 / 8192 * G + 1376 / 8192 * Bl
      = ((2859 * R + 5620 * G + 1376 * Bl : ℕ) : ℚ) / 8192 := by push_cast; ring
  have s3 : (2228 / 8192 : ℚ) * R + 4375 / 8192 * G + 1073 / 8192 * Bl
      = ((2228 * R + 4375 * G + 1073 * Bl : ℕ) : ℚ) / 8192 := by push_cast; ring
  have x1 : (393 / 1000 : ℚ) * R + 769 / 1000 * G + 189 / 1000 * Bl
      = ((393 * R + 769 * G + 189 * Bl : ℕ) : ℚ) / 1000 := by push_cast; ring
  have x2 : (349 / 1000 : ℚ) * R + 686 / 1000 * G + 168 / 1000 * Bl
      = ((349 * R + 686 * G + 168 * Bl : ℕ) : ℚ) / 1000 := by push_cast; ring
  have x3 : (272 / 1000 : ℚ) * R + 534 / 1000 * G + 131 / 1000 * Bl
      = ((272 * R + 534 * G + 131 * Bl : ℕ) : ℚ) / 1000 := by push_cast; ring
  simp only [s1, s2, s3, x1, x2, x3, round_half_up_thousandths, round_half_up_scaled,
    clamp_byte_natCast]
  refine ⟨⟨trivial, ?_, ?_⟩, ⟨trivial, ?_, ?_⟩, ⟨trivial, ?_, ?_⟩⟩ <;> omega

theorem sepia_rounding_witness :
    ((pixel (sepia 1 1 [[⟨5, 1, 2⟩]]) 0 0).rgbt_red : Int)
      ≤ clamp_byte (round_half_up ((393 / 1000 : ℚ) * (pixel [[⟨5, 1, 2⟩]] 0 0).rgbt_red
          + 769 / 1000 * (pixel [[⟨5, 1, 2⟩]] 0 0).rgbt_green
          + 189 / 1000 * (pixel [[⟨5, 1, 2⟩]] 0 0).rgbt_blue)) + 1 :=
  (sepia_rounding 1 1 [[⟨5, 1, 2⟩]] (by unfold is_image triple_in_range; decide) 0 0
    (by decide) (by decide)).1.2.1

/-! ## Reflect -/

theorem has_shape_swap (h w : Nat) (image : List (List RGBTRIPLE)) (hs : has_shape h w image)
    (i x y : Nat) : has_shape h w (swap image i x y) := by
  unfold swap
  exact has_shape_set_pixel h w _ (has_shape_set_pixel h w _ hs _ _ _) _ _ _

theorem pixel_swap (h w : Nat) (image : List (List RGBTRIPLE)) (hs : has_shape h w image)
    (i x y : Nat) (hi : i < h) (hx : x < w) (hy : y < w) (a b : Nat) :
    pixel (swap image i x y) a b
      = if a = i ∧ b = y then pixel image i x
        else if a = i ∧ b = x then pixel image i y
        else pixel image a b := by
  unfold swap
  simp only
  rw [pixel_set_pixel h w _ (has_shape_set_pixel h w _ hs _ _ _),
    pixel_set_pixel h w _ hs]
  by_cases c1 : a = i ∧ b = y
  · rw [if_pos c1, if_pos ⟨c1.1, c1.2, hi, hy⟩]
  · rw [if_neg c1, if_neg (fun hc => c1 ⟨hc.1, hc.2.1⟩)]
    by_cases c2 : a = i ∧ b = x
    · rw [if_pos c2, if_pos ⟨c2.1, c2.2, hi, hx⟩]
    · rw [if_neg c2, if_neg (fun hc => c2 ⟨hc.1, hc.2.1⟩)]

/-- What the `while` loop of `reflect` does to row `i`. -/
theorem reflect_while_pixels (h w : Nat) (i : Nat) (hi : i < h) :
    ∀ (n start stop : Nat) (image : List (List RGBTRIPLE)),
      stop - start ≤ n → stop ≤ w → has_shape h w image →
      has_shape h w (reflect_while i start stop image)
      ∧ ∀ a b, pixel (reflect_while i start stop image) a b
          = if a = i ∧ start ≤ b ∧ b < stop then pixel image i (start + stop - 1 - b)
            else pixel image a b := by
  intro n
  induction n with
  | zero =>
    intro start stop image hn _ hs
    rw [reflect_while, if_neg (by omega)]
    exact ⟨hs, fun a b => by rw [if_neg (by omega)]⟩
  | succ n ih =>
    intro start stop image hn hw hs
    rw [reflect_while]
    by_cases c : start < stop
    · rw [if_pos c]
      have hs1 := has_shape_swap h w image hs i start (stop - 1)
      obtain ⟨r1, r2⟩ := ih (start + 1) (stop - 1) (swap image i start (stop - 1))
        (by omega) (by omega) hs1
      refine ⟨r1, ?_⟩
      intro a b
      rw [r2 a b]
      have ps := pixel_swap h w image hs i start (stop - 1) hi (by omega) (by omega)
      by_cases c1 : a = i ∧ start + 1 ≤ b ∧ b < stop - 1
      · rw [if_pos c1, if_pos ⟨c1.1, by omega, by omega⟩, ps,
          if_neg (by omega), if_neg (by omega)]
        congr 1
        omega
      · rw [if_neg c1, ps]
        by_cases c2 : a = i ∧ b = stop - 1
        · rw [if_pos c2, if_pos ⟨c2.1, by omega, by omega⟩]
          congr 1
          omega
        · rw [if_neg c2]
          by_cases c3 : a = i ∧ b = start
          · rw [if_pos c3, if_pos ⟨c3.1, by omega, by omega⟩]
            congr 1
            omega
          · rw [if_neg c3, if_neg (by omega)]
    · rw [if_neg c]
      exact ⟨hs, fun a b => by rw [if_neg (by omega)]⟩

/-- What `reflect` does to one pixel, read off its loops. -/
theorem reflect_pixels (h w : Nat) (image : List (List RGBTRIPLE))
    (hs : has_shape h w image) :
    has_shape h w (reflect h w image)
    ∧ ∀ i j, i < h → j < w →
        pixel (reflect h w image) i j = pixel image i (w - 1 - j) := by
  have key := for_loop_inv (fun i im => reflect_while i 0 w im)
    (fun k im => has_shape h w im ∧ ∀ a b, pixel im a b
      = if a < k ∧ b < w then pixel image a (w - 1 - b) else pixel image a b)
    0 h image (Nat.zero_le _)
    ⟨hs, fun a b => by rw [if_neg (by omega)]⟩
    (by
      intro i t _ hi ⟨hst, hpt⟩
      obtain ⟨r1, r2⟩ := reflect_while_pixels h w i hi w 0 w t (by omega) (Nat.le_refl _) hst
      refine ⟨r1, ?_⟩
      intro a b
      rw [r2 a b]
      by_cases c1 : a = i ∧ 0 ≤ b ∧ b < w
      · rw [if_pos c1, if_pos (by omega), hpt, if_neg (by omega)]
        obtain ⟨rfl, _, _⟩ := c1
        congr 1
        omega
      · rw [if_neg c1, hpt a b]
        by_cases c2 : a < i ∧ b < w
        · rw [if_pos c2, if_pos (by omega)]
        · rw [if_neg c2, if_neg (by omega)])
  refine ⟨key.1, ?_⟩
  intro i j hi hj
  have e : pixel (reflect h w image) i j = _ := key.2 i j
  rw [e, if_pos ⟨hi, hj⟩]

/-- C18: on an `h`-by-`w` buffer `B`, `reflect` gives an `h`-by-`w` buffer whose
pixel `(i, j)` is the pixel `(i, w - 1 - j)` of `B`, for every row `i < h`
and column `j < w`; in a row of odd width the middle pixel is unchanged. -/
theorem reflect_spec (h w : Nat) (B : List (List RGBTRIPLE)) (hB : has_shape h w B) :
    has_shape h w (reflect h w B)
    ∧ (∀ i j, i < h → j < w → pixel (reflect h w B) i j = pixel B i (w - 1 - j))
    ∧ (∀ i, i < h → w % 2 = 1 → pixel (reflect h w B) i (w / 2) = pixel B i (w / 2)) := by
  obtain ⟨hs, hp⟩ := reflect_pixels h w B hB
  refine ⟨hs, hp, ?_⟩
  intro i hi hodd
  rw [hp i (w / 2) hi (by omega)]
  congr 1
  omega

theorem reflect_spec_witness :
    pixel (reflect 1 3 [[⟨1, 0, 0⟩, ⟨2, 0, 0⟩, ⟨3, 0, 0⟩]]) 0 0
      = pixel [[⟨1, 0, 0⟩, ⟨2, 0, 0⟩, ⟨3, 0, 0⟩]] 0 (3 - 1 - 0)
    ∧ reflect 1 3 [[⟨1, 0, 0⟩, ⟨2, 0, 0⟩, ⟨3, 0, 0⟩]] = [[⟨3, 0, 0⟩, ⟨2, 0, 0⟩, ⟨1, 0, 0⟩]] :=
  ⟨(reflect_spec 1 3 [[⟨1, 0, 0⟩, ⟨2, 0, 0⟩, ⟨3, 0, 0⟩]] (by unfold has_shape; decide)).2.1
      0 0 (by decide) (by decide), by decide⟩

/-- C19: `reflect` is an involution on every `h`-by-`w` buffer. -/
theorem reflect_involution (h w : Nat) (B : List (List RGBTRIPLE)) (hB : has_shape h w B) :
    reflect h w (reflect h w B) = B := by
  obtain ⟨hs1, hp1⟩ := reflect_pixels h w B hB
  obtain ⟨hs2, hp2⟩ := reflect_pixels h w (reflect h w B) hs1
  apply image_ext h w _ _ hs2 hB
  intro i j hi hj
  rw [hp2 i j hi hj, hp1 i (w - 1 - j) hi (by omega)]
  congr 1
  omega

theorem reflect_involution_witness :
    reflect 2 3 (reflect 2 3 [[⟨1, 0, 0⟩, ⟨2, 0, 0⟩, ⟨3, 0, 0⟩], [⟨4, 0, 0⟩, ⟨5, 0, 0⟩, ⟨6, 0, 0⟩]])
      = [[⟨1, 0, 0⟩, ⟨2, 0, 0⟩, ⟨3, 0, 0⟩], [⟨4, 0, 0⟩, ⟨5, 0, 0⟩, ⟨6, 0, 0⟩]] :=
  reflect_involution 2 3 [[⟨1, 0, 0⟩, ⟨2, 0, 0⟩, ⟨3, 0, 0⟩], [⟨4, 0, 0⟩, ⟨5, 0, 0⟩, ⟨6, 0, 0⟩]]
    (by unfold has_shape; decide)

/-! ## Box blur -/

theorem for_loop_from_shift {σ : Type} (body : Nat → σ → σ) :
    ∀ (n i : Nat) (s : σ),
      for_loop_from body n (i + 1) s = for_loop_from (fun k => body (k + 1)) n i s := by
  intro n
  induction n with
  | zero => intro i s; rfl
  | succ n ih =>
    intro i s
    rw [for_loop_from, for_loop_from, ih]

theorem for_loop_shift {σ : Type} (body : Nat → σ → σ) (n : Nat) (s : σ) :
    for_loop 1 (n + 1) body s = for_loop 0 n (fun k => body (k + 1)) s := by
  unfold for_loop
  rw [Nat.add_sub_cancel, Nat.sub_zero]
  exact for_loop_from_shift body n 0 s

/-- Two nested loops that store `g i j` at `(i + oi, j + oj)`. -/
theorem write_pixels_loop (H W h w oi oj : Nat) (g : Nat → Nat → RGBTRIPLE)
    (t : List (List RGBTRIPLE)) (ht : has_shape H W t) (hH : h + oi ≤ H) (hW : w + oj ≤ W) :
    has_shape H W (for_loop 0 h (fun i t =>
        for_loop 0 w (fun j t => set_pixel t (i + oi) (j + oj) (g i j)) t) t)
    ∧ ∀ a b,
        pixel (for_loop 0 h (fun i t =>
          for_loop 0 w (fun j t => set_pixel t (i + oi) (j + oj) (g i j)) t) t) a b
          = if (oi ≤ a ∧ a < h + oi) ∧ (oj ≤ b ∧ b < w + oj) then g (a - oi) (b - oj)
            else pixel t a b := by
  exact for_loop_inv
    (fun i t => for_loop 0 w (fun j t => set_pixel t (i + oi) (j + oj) (g i j)) t)
    (fun k im => has_shape H W im ∧ ∀ a b, pixel im a b
      = if (oi ≤ a ∧ a < k + oi) ∧ (oj ≤ b ∧ b < w + oj) then g (a - oi) (b - oj)
        else pixel t a b)
    0 h t (Nat.zero_le _)
    ⟨ht, fun a b => by rw [if_neg (by omega)]⟩
    (by
      intro i u _ hi ⟨hsu, hpu⟩
      have inner := for_loop_inv (fun j t => set_pixel t (i + oi) (j + oj) (g i j))
        (fun k im => has_shape H W im ∧ ∀ a b, pixel im a b
          = if ((oi ≤ a ∧ a < i + oi) ∧ (oj ≤ b ∧ b < w + oj))
              ∨ (a = i + oi ∧ oj ≤ b ∧ b < k + oj) then g (a - oi) (b - oj)
            else pixel t a b)
        0 w u (Nat.zero_le _)
        ⟨hsu, fun a b => by
          rw [hpu a b]
          by_cases c : (oi ≤ a ∧ a < i + oi) ∧ (oj ≤ b ∧ b < w + oj)
          · rw [if_pos c, if_pos (Or.inl c)]
          · rw [if_neg c, if_neg (by omega)]⟩
        (by
          intro j v _ hj ⟨hsv, hpv⟩
          refine ⟨has_shape_set_pixel H W v hsv _ _ _, ?_⟩
          intro a b
          rw [pixel_set_pixel H W v hsv, hpv a b]
          by_cases c1 : a = i + oi ∧ b = j + oj ∧ i + oi < H ∧ j + oj < W
          · obtain ⟨ha, hb, _, _⟩ := c1
            subst ha hb
            rw [if_pos ⟨rfl, rfl, by omega, by omega⟩, if_pos (by omega)]
            congr 1 <;> omega
          · rw [if_neg c1]
            by_cases c2 : ((oi ≤ a ∧ a < i + oi) ∧ (oj ≤ b ∧ b < w + oj))
                ∨ (a = i + oi ∧ oj ≤ b ∧ b < j + oj)
            · rw [if_pos c2, if_pos (by omega)]
            · rw [if_neg c2, if_neg (by omega)])
      refine ⟨inner.1, ?_⟩
      intro a b
      rw [inner.2 a b]
      by_cases c : (oi ≤ a ∧ a < i + 1 + oi) ∧ (oj ≤ b ∧ b < w + oj)
      · rw [if_pos c, if_pos (by omega)]
      · rw [if_neg c, if_neg (by omega)])

/-- The loop of `box_blur` that copies the left and the right edge. -/
theorem copy_columns_loop (H W w : Nat) (hw : 1 ≤ w) (hW : w + 2 = W)
    (t : List (List RGBTRIPLE)) (ht : has_shape H W t) :
    has_shape H W (for_loop 0 H (fun i temp =>
        set_pixel (set_pixel temp i 0 (pixel temp i 1)) i (w + 1)
          (pixel (set_pixel temp i 0 (pixel temp i 1)) i w)) t)
    ∧ ∀ a b,
        pixel (for_loop 0 H (fun i temp =>
          set_pixel (set_pixel temp i 0 (pixel temp i 1)) i (w + 1)
            (pixel (set_pixel temp i 0 (pixel temp i 1)) i w)) t) a b
          = if a < H ∧ b = 0 then pixel t a 1
            else if a < H ∧ b = w + 1 then pixel t a w
            else pixel t a b := by
  exact for_loop_inv
    (fun i temp => set_pixel (set_pixel temp i 0 (pixel temp i 1)) i (w + 1)
      (pixel (set_pixel temp i 0 (pixel temp i 1)) i w))
    (fun k im => has_shape H W im ∧ ∀ a b, pixel im a b
      = if a < k ∧ b = 0 then pixel t a 1
        else if a < k ∧ b = w + 1 then pixel t a w
        else pixel t a b)
    0 H t (Nat.zero_le _)
    ⟨ht, fun a b => by rw [if_neg (by omega), if_neg (by omega)]⟩
    (by
      intro i u _ hi ⟨hsu, hpu⟩
      have hs1 := has_shape_set_pixel H W u hsu i 0 (pixel u i 1)
      refine ⟨has_shape_set_pixel H W _ hs1 _ _ _, ?_⟩
      intro a b
      have e1 : pixel u i 1 = pixel t i 1 := by
        rw [hpu i 1, if_neg (by omega), if_neg (by omega)]
      have e2 : pixel (set_pixel u i 0 (pixel u i 1)) i w = pixel t i w := by
        rw [pixel_set_pixel H W u hsu, if_neg (by omega), hpu i w, if_neg (by omega),
          if_neg (by omega)]
      rw [pixel_set_pixel H W _ hs1, e2, pixel_set_pixel H W u hsu, e1, hpu a b]
      by_cases ha : a = i
      · subst ha
        by_cases hb0 : b = 0
        · repeat (first | rw [if_pos (by omega)] | rw [if_neg (by omega)])
        · by_cases hb1 : b = w + 1
          · repeat (first | rw [if_pos (by omega)] | rw [if_neg (by omega)])
          · repeat (first | rw [if_pos (by omega)] | rw [if_neg (by omega)])
      · by_cases hb0 : a < i ∧ b = 0
        · repeat (first | rw [if_pos (by omega)] | rw [if_neg (by omega)])
        · by_cases hb1 : a < i ∧ b = w + 1
          · repeat (first | rw [if_pos (by omega)] | rw [if_neg (by omega)])
          · repeat (first | rw [if_pos (by omega)] | rw [if_neg (by omega)]))

/-- The loop of `box_blur` that copies the top and the bottom edge. -/
theorem copy_rows_loop (H W h : Nat) (hh : 1 ≤ h) (hH : h + 2 = H)
    (t : List (List RGBTRIPLE)) (ht : has_shape H W t) :
    has_shape H W (for_loop 0 W (fun j temp =>
        set_pixel (set_pixel temp 0 j (pixel temp 1 j)) (h + 1) j
          (pixel (set_pixel temp 0 j (pixel temp 1 j)) h j)) t)
    ∧ ∀ a b,
        pixel (for_loop 0 W (fun j temp =>
          set_pixel (set_pixel temp 0 j (pixel temp 1 j)) (h + 1) j
            (pixel (set_pixel temp 0 j (pixel temp 1 j)) h j)) t) a b
          = if a = 0 ∧ b < W then pixel t 1 b
            else if a = h + 1 ∧ b < W then pixel t h b
            else pixel t a b := by
  exact for_loop_inv
    (fun j temp => set_pixel (set_pixel temp 0 j (pixel temp 1 j)) (h + 1) j
      (pixel (set_pixel temp 0 j (pixel temp 1 j)) h j))
    (fun k im => has_shape H W im ∧ ∀ a b, pixel im a b
      = if a = 0 ∧ b < k then pixel t 1 b
        else if a = h + 1 ∧ b < k then pixel t h b
        else pixel t a b)
    0 W t (Nat.zero_le _)
    ⟨ht, fun a b => by rw [if_neg (by omega), if_neg (by omega)]⟩
    (by
      intro j u _ hj ⟨hsu, hpu⟩
      have hs1 := has_shape_set_pixel H W u hsu 0 j (pixel u 1 j)
      refine ⟨has_shape_set_pixel H W _ hs1 _ _ _, ?_⟩
      intro a b
      have e1 : pixel u 1 j = pixel t 1 j := by
        rw [hpu 1 j, if_neg (by omega), if_neg (by omega)]
      have e2 : pixel (set_pixel u 0 j (pixel u 1 j)) h j = pixel t h j := by
        rw [pixel_set_pixel H W u hsu, if_neg (by omega), hpu h j, if_neg (by omega),
          if_neg (by omega)]
      rw [pixel_set_pixel H W _ hs1, e2, pixel_set_pixel H W u hsu, e1, hpu a b]
      by_cases hb : b = j
      · subst hb
        by_cases ha0 : a = 0
        · repeat (first | rw [if_pos (by omega)] | rw [if_neg (by omega)])
        · by_cases ha1 : a = h + 1
          · repeat (first | rw [if_pos (by omega)] | rw [if_neg (by omega)])
          · repeat (first | rw [if_pos (by omega)] | rw [if_neg (by omega)])
      · by_cases ha0 : a = 0 ∧ b < j
        · repeat (first | rw [if_pos (by omega)] | rw [if_neg (by omega)])
        · by_cases ha1 : a = h + 1 ∧ b < j
          · repeat (first | rw [if_pos (by omega)] | rw [if_neg (by omega)])
          · repeat (first | rw [if_pos (by omega)] | rw [if_neg (by omega)]))

theorem for_loop_three {σ : Type} (start stop : Nat) (body : Nat → σ → σ) (s : σ)
    (h : stop = start + 3) :
    for_loop start stop body s = body (start + 2) (body (start + 1) (body start s)) := by
  subst h
  unfold for_loop
  rw [Nat.add_sub_cancel_left]
  rfl

/-- The sums `box_blur` takes around the entry `(i + 1, j + 1)` of `temp`. -/
theorem neighborhood_sums_eq (temp : List (List RGBTRIPLE)) (i j : Nat) :
    neighborhood_sums temp (i + 1) (j + 1)
      = (0 + (pixel temp i j).rgbt_red + (pixel temp i (j + 1)).rgbt_red
            + (pixel temp i (j + 2)).rgbt_red
          + (pixel temp (i + 1) j).rgbt_red + (pixel temp (i + 1) (j + 1)).rgbt_red
            + (pixel temp (i + 1) (j + 2)).rgbt_red
          + (pixel temp (i + 2) j).rgbt_red + (pixel temp (i + 2) (j + 1)).rgbt_red
            + (pixel temp (i + 2) (j + 2)).rgbt_red,
        0 + (pixel temp i j).rgbt_green + (pixel temp i (j + 1)).rgbt_green
            + (pixel temp i (j + 2)).rgbt_green
          + (pixel temp (i + 1) j).rgbt_green + (pixel temp (i + 1) (j + 1)).rgbt_green
            + (pixel temp (i + 1) (j + 2)).rgbt_green
          + (pixel temp (i + 2) j).rgbt_green + (pixel temp (i + 2) (j + 1)).rgbt_green
            + (pixel temp (i + 2) (j + 2)).rgbt_green,
        0 + (pixel temp i j).rgbt_blue + (pixel temp i (j + 1)).rgbt_blue
            + (pixel temp i (j + 2)).rgbt_blue
          + (pixel temp (i + 1) j).rgbt_blue + (pixel temp (i + 1) (j + 1)).rgbt_blue
            + (pixel temp (i + 1) (j + 2)).rgbt_blue
          + (pixel temp (i + 2) j).rgbt_blue + (pixel temp (i + 2) (j + 1)).rgbt_blue
            + (pixel temp (i + 2) (j + 2)).rgbt_blue) := by
  unfold neighborhood_sums
  have e1 : i + 1 - 1 = i := rfl
  have e2 : j + 1 - 1 = j := rfl
  rw [e1, e2, for_loop_three i (i + 1 + 2) _ _ (by omega)]
  simp only [for_loop_three j (j + 1 + 2) _ _ (show j + 1 + 2 = j + 3 by omega)]

/-- The temporary buffer of `box_blur` once its four edges are copied: entry
`(a, b)` is the pixel of the image nearest to `(a - 1, b - 1)`. -/
theorem box_blur_temp (h w : Nat) (hh : 1 ≤ h) (hw : 1 ≤ w) (image : List (List RGBTRIPLE)) :
    has_shape (h + 2) (w + 2)
      (for_loop 0 (w + 2) (fun j temp =>
          set_pixel (set_pixel temp 0 j (pixel temp 1 j)) (h + 1) j
            (pixel (set_pixel temp 0 j (pixel temp 1 j)) h j))
        (for_loop 0 (h + 2) (fun i temp =>
            set_pixel (set_pixel temp i 0 (pixel temp i 1)) i (w + 1)
              (pixel (set_pixel temp i 0 (pixel temp i 1)) i w))
          (for_loop 0 h (fun i temp =>
              for_loop 0 w (fun j temp => set_pixel temp (i + 1) (j + 1) (pixel image i j)) temp)
            (zero_image (h + 2) (w + 2)))))
    ∧ ∀ a b, a < h + 2 → b < w + 2 →
        pixel (for_loop 0 (w + 2) (fun j temp =>
          set_pixel (set_pixel temp 0 j (pixel temp 1 j)) (h + 1) j
            (pixel (set_pixel temp 0 j (pixel temp 1 j)) h j))
        (for_loop 0 (h + 2) (fun i temp =>
            set_pixel (set_pixel temp i 0 (pixel temp i 1)) i (w + 1)
              (pixel (set_pixel temp i 0 (pixel temp i 1)) i w))
          (for_loop 0 h (fun i temp =>
              for_loop 0 w (fun j temp => set_pixel temp (i + 1) (j + 1) (pixel image i j)) temp)
            (zero_image (h + 2) (w + 2))))) a b
          = pixel image (min (a - 1) (h - 1)) (min (b - 1) (w - 1)) := by
  obtain ⟨s1, p1⟩ := write_pixels_loop (h + 2) (w + 2) h w 1 1 (fun i j => pixel image i j)
    (zero_image (h + 2) (w + 2)) (has_shape_zero_image _ _) (by omega) (by omega)
  obtain ⟨s2, p2⟩ := copy_columns_loop (h + 2) (w + 2) w hw rfl _ s1
  obtain ⟨s3, p3⟩ := copy_rows_loop (h + 2) (w + 2) h hh rfl _ s2
  refine ⟨s3, ?_⟩
  intro a b ha hb
  have q1 : ∀ x y, 1 ≤ x → x ≤ h → 1 ≤ y → y ≤ w →
      pixel (for_loop 0 h (fun i temp =>
          for_loop 0 w (fun j temp => set_pixel temp (i + 1) (j + 1) (pixel image i j)) temp)
        (zero_image (h + 2) (w + 2))) x y = pixel image (x - 1) (y - 1) := by
    intro x y hx1 hx2 hy1 hy2
    rw [p1 x y, if_pos (by omega)]
  have q2 : ∀ x y, 1 ≤ x → x ≤ h → y < w + 2 →
      pixel (for_loop 0 (h + 2) (fun i temp =>
            set_pixel (set_pixel temp i 0 (pixel temp i 1)) i (w + 1)
              (pixel (set_pixel temp i 0 (pixel temp i 1)) i w))
          (for_loop 0 h (fun i temp =>
              for_loop 0 w (fun j temp => set_pixel temp (i + 1) (j + 1) (pixel image i j)) temp)
            (zero_image (h + 2) (w + 2)))) x y
        = pixel image (x - 1) (min (y - 1) (w - 1)) := by
    intro x y hx1 hx2 hy
    rw [p2 x y]
    by_cases c0 : y = 0
    · rw [if_pos (by omega), q1 x 1 hx1 hx2 (by omega) (by omega)]
      congr 1
      omega
    · rw [if_neg (by omega)]
      by_cases c1 : y = w + 1
      · rw [if_pos (by omega), q1 x w hx1 hx2 (by omega) (by omega)]
        congr 1
        omega
      · rw [if_neg (by omega), q1 x y hx1 hx2 (by omega) (by omega)]
        congr 1
        omega
  rw [p3 a b]
  by_cases c0 : a = 0
  · rw [if_pos (by omega), q2 1 b (by omega) (by omega) hb]
    congr 1
    omega
  · rw [if_neg (by omega)]
    by_cases c1 : a = h + 1
    · rw [if_pos (by omega), q2 h b (by omega) (by omega) hb]
      congr 1
      omega
    · rw [if_neg (by omega), q2 a b (by omega) (by omega) hb]
      congr 1
      omega

theorem clamp_pred (i h : Nat) (hh : 1 ≤ h) :
    (clamp ((i : Int) + -1) 0 ((h : Int) - 1)).toNat = min (i - 1) (h - 1) := by
  unfold clamp
  omega

theorem clamp_self (i h : Nat) (hh : 1 ≤ h) :
    (clamp ((i : Int) + 0) 0 ((h : Int) - 1)).toNat = min i (h - 1) := by
  unfold clamp
  omega

theorem clamp_succ (i h : Nat) (hh : 1 ≤ h) :
    (clamp ((i : Int) + 1) 0 ((h : Int) - 1)).toNat = min (i + 1) (h - 1) := by
  unfold clamp
  omega

theorem box_sum_eq (channel : RGBTRIPLE → Nat) (B : List (List RGBTRIPLE)) (h w i j : Nat)
    (hh : 1 ≤ h) (hw : 1 ≤ w) :
    box_sum channel B h w i j
      = channel (pixel B (min (i - 1) (h - 1)) (min (j - 1) (w - 1)))
        + channel (pixel B (min (i - 1) (h - 1)) (min j (w - 1)))
        + channel (pixel B (min (i - 1) (h - 1)) (min (j + 1) (w - 1)))
        + channel (pixel B (min i (h - 1)) (min (j - 1) (w - 1)))
        + channel (pixel B (min i (h - 1)) (min j (w - 1)))
        + channel (pixel B (min i (h - 1)) (min (j + 1) (w - 1)))
        + channel (pixel B (min (i + 1) (h - 1)) (min (j - 1) (w - 1)))
        + channel (pixel B (min (i + 1) (h - 1)) (min j (w - 1)))
        + channel (pixel B (min (i + 1) (h - 1)) (min (j + 1) (w - 1))) := by
  unfold box_sum
  simp only [List.map_cons, List.map_nil, List.sum_cons, List.sum_nil, clamp_pred _ _ hh,
    clamp_self _ _ hh, clamp_succ _ _ hh, clamp_pred _ _ hw, clamp_self _ _ hw,
    clamp_succ _ _ hw]
  omega

/-- The last pair of loops of `box_blur`, which store the averages. -/
theorem box_blur_store (h w : Nat) (temp image : List (List RGBTRIPLE))
    (hs : has_shape h w image) :
    has_shape h w (for_loop 1 (h + 1) (fun i image =>
      for_loop 1 (w + 1) (fun j image =>
        set_pixel image (i - 1) (j - 1)
          { rgbt_blue := ((neighborhood_sums temp i j).2.2 + NEIGHBORHOOD_SIZE / 2)
              / NEIGHBORHOOD_SIZE % 256
            rgbt_green := ((neighborhood_sums temp i j).2.1 + NEIGHBORHOOD_SIZE / 2)
              / NEIGHBORHOOD_SIZE % 256
            rgbt_red := ((neighborhood_sums temp i j).1 + NEIGHBORHOOD_SIZE / 2)
              / NEIGHBORHOOD_SIZE % 256 })
        image) image)
    ∧ ∀ i j, i < h → j < w →
        pixel (for_loop 1 (h + 1) (fun i image =>
          for_loop 1 (w + 1) (fun j image =>
            set_pixel image (i - 1) (j - 1)
              { rgbt_blue := ((neighborhood_sums temp i j).2.2 + NEIGHBORHOOD_SIZE / 2)
                  / NEIGHBORHOOD_SIZE % 256
                rgbt_green := ((neighborhood_sums temp i j).2.1 + NEIGHBORHOOD_SIZE / 2)
                  / NEIGHBORHOOD_SIZE % 256
                rgbt_red := ((neighborhood_sums temp i j).1 + NEIGHBORHOOD_SIZE / 2)
                  / NEIGHBORHOOD_SIZE % 256 })
            image) image) i j
          = { rgbt_blue := ((neighborhood_sums temp (i + 1) (j + 1)).2.2 + 4) / 9 % 256
              rgbt_green := ((neighborhood_sums temp (i + 1) (j + 1)).2.1 + 4) / 9 % 256
              rgbt_red := ((neighborhood_sums temp (i + 1) (j + 1)).1 + 4) / 9 % 256 } := by
  have key := write_pixels_loop h w h w 0 0 (fun i j =>
    { rgbt_blue := ((neighborhood_sums temp (i + 1) (j + 1)).2.2 + 4) / 9 % 256
      rgbt_green := ((neighborhood_sums temp (i + 1) (j + 1)).2.1 + 4) / 9 % 256
      rgbt_red := ((neighborhood_sums temp (i + 1) (j + 1)).1 + 4) / 9 % 256 })
    image hs (Nat.le_refl _) (Nat.le_refl _)
  simp only [for_loop_shift]
  refine ⟨key.1, ?_⟩
  intro i j hi hj
  have e := key.2 i j
  rw [if_pos (by omega)] at e
  exact e

/-- What one `box_blur` pass does to one pixel, read off its loops. -/
theorem box_blur_pixels (c : Nat → Nat → Bool) (h w : Nat) (hh : 1 ≤ h) (hw : 1 ≤ w)
    (image : List (List RGBTRIPLE)) (hs : has_shape h w image)
    (halloc : c (h + 2) ((w + 2) * 3) = true) :
    ∃ R, box_blur c h w image = some R ∧ has_shape h w R
      ∧ ∀ i j, i < h → j < w →
          pixel R i j
            = { rgbt_blue := (box_sum RGBTRIPLE.rgbt_blue image h w i j + 4) / 9 % 256
                rgbt_green := (box_sum RGBTRIPLE.rgbt_green image h w i j + 4) / 9 % 256
                rgbt_red := (box_sum RGBTRIPLE.rgbt_red image h w i j + 4) / 9 % 256 } := by
  obtain ⟨st, pt⟩ := box_blur_temp h w hh hw image
  obtain ⟨sr, pr⟩ := box_blur_store h w
    (for_loop 0 (w + 2) (fun j temp =>
          set_pixel (set_pixel temp 0 j (pixel temp 1 j)) (h + 1) j
            (pixel (set_pixel temp 0 j (pixel temp 1 j)) h j))
        (for_loop 0 (h + 2) (fun i temp =>
            set_pixel (set_pixel temp i 0 (pixel temp i 1)) i (w + 1)
              (pixel (set_pixel temp i 0 (pixel temp i 1)) i w))
          (for_loop 0 h (fun i temp =>
              for_loop 0 w (fun j temp => set_pixel temp (i + 1) (j + 1) (pixel image i j)) temp)
            (zero_image (h + 2) (w + 2))))) image hs
  refine ⟨_, ?_, sr, ?_⟩
  · unfold box_blur
    rw [show sizeof_RGBTRIPLE = 3 from rfl, halloc]
    rfl
  · intro i j hi hj
    rw [pr i j hi hj, neighborhood_sums_eq]
    simp only [box_sum_eq _ image h w i j hh hw]
    rw [pt i j (by omega) (by omega), pt i (j + 1) (by omega) (by omega),
      pt i (j + 2) (by omega) (by omega), pt (i + 1) j (by omega) (by omega),
      pt (i + 1) (j + 1) (by omega) (by omega), pt (i + 1) (j + 2) (by omega) (by omega),
      pt (i + 2) j (by omega) (by omega), pt (i + 2) (j + 1) (by omega) (by omega),
      pt (i + 2) (j + 2) (by omega) (by omega)]
    simp only [Nat.add_sub_cancel, Nat.zero_add, show i + 2 - 1 = i + 1 from rfl,
      show j + 2 - 1 = j + 1 from rfl]

theorem box_sum_le (channel : RGBTRIPLE → Nat) (hc : ∀ p, triple_in_range p → channel p < 256)
    (h w : Nat) (hh : 1 ≤ h) (hw : 1 ≤ w) (B : List (List RGBTRIPLE)) (hB : is_image h w B)
    (i j : Nat) : box_sum channel B h w i j ≤ 2295 := by
  rw [box_sum_eq channel B h w i j hh hw]
  have r := fun a b => hc _ (pixel_in_range h w B hB a b)
  have r1 := r (min (i - 1) (h - 1)) (min (j - 1) (w - 1))
  have r2 := r (min (i - 1) (h - 1)) (min j (w - 1))
  have r3 := r (min (i - 1) (h - 1)) (min (j + 1) (w - 1))
  have r4 := r (min i (h - 1)) (min (j - 1) (w - 1))
  have r5 := r (min i (h - 1)) (min j (w - 1))
  have r6 := r (min i (h - 1)) (min (j + 1) (w - 1))
  have r7 := r (min (i + 1) (h - 1)) (min (j - 1) (w - 1))
  have r8 := r (min (i + 1) (h - 1)) (min j (w - 1))
  have r9 := r (min (i + 1) (h - 1)) (min (j + 1) (w - 1))
  omega

/-- C20: for `h ≥ 1`, `w ≥ 1` and an `h`-by-`w` buffer `B`, one `box_blur` pass
(its temporary buffer being granted) returns an `h`-by-`w` buffer in which
each channel of pixel `(i, j)` is `(S + 4) div 9`, `S` being the sum of that
channel of `B` over the nine positions
`(clamp (i + di, 0, h - 1), clamp (j + dj, 0, w - 1))`, `di`, `dj` in -1, 0, 1:
all values are those of `B` before the pass, and the edges are replicated. -/
theorem box_blur_spec (c : Nat → Nat → Bool) (h w : Nat) (hh : 1 ≤ h) (hw : 1 ≤ w)
    (B : List (List RGBTRIPLE)) (hB : is_image h w B)
    (halloc : c (h + 2) ((w + 2) * 3) = true) :
    ∃ R, box_blur c h w B = some R ∧ is_image h w R
      ∧ ∀ i j, i < h → j < w →
          (pixel R i j).rgbt_red = (box_sum RGBTRIPLE.rgbt_red B h w i j + 4) / 9
          ∧ (pixel R i j).rgbt_green = (box_sum RGBTRIPLE.rgbt_green B h w i j + 4) / 9
          ∧ (pixel R i j).rgbt_blue = (box_sum RGBTRIPLE.rgbt_blue B h w i j + 4) / 9 := by
  obtain ⟨R, e, hs, hp⟩ :=
    box_blur_pixels c h w hh hw B (has_shape_of_is_image h w B hB) halloc
  have lr := box_sum_le RGBTRIPLE.rgbt_red (fun p hp => hp.2.2) h w hh hw B hB
  have lg := box_sum_le RGBTRIPLE.rgbt_green (fun p hp => hp.2.1) h w hh hw B hB
  have lb := box_sum_le RGBTRIPLE.rgbt_blue (fun p hp => hp.1) h w hh hw B hB
  refine ⟨R, e, ?_, ?_⟩
  · apply is_image_of_pixels h w R hs
    intro i j hi hj
    rw [hp i j hi hj]
    exact ⟨Nat.mod_lt _ (by decide), Nat.mod_lt _ (by decide), Nat.mod_lt _ (by decide)⟩
  · intro i j hi hj
    rw [hp i j hi hj]
    have := lr i j
    have := lg i j
    have := lb i j
    refine ⟨?_, ?_, ?_⟩ <;> simp only <;> omega

theorem box_blur_spec_witness :
    ∃ R, box_blur (fun _ _ => true) 2 3
          [[⟨9, 0, 0⟩, ⟨0, 0, 0⟩, ⟨0, 0, 0⟩], [⟨0, 0, 0⟩, ⟨0, 0, 0⟩, ⟨90, 9, 0⟩]] = some R
      ∧ is_image 2 3 R
      ∧ ∀ i j, i < 2 → j < 3 →
          (pixel R i j).rgbt_red = (box_sum RGBTRIPLE.rgbt_red
            [[⟨9, 0, 0⟩, ⟨0, 0, 0⟩, ⟨0, 0, 0⟩], [⟨0, 0, 0⟩, ⟨0, 0, 0⟩, ⟨90, 9, 0⟩]] 2 3 i j + 4) / 9
          ∧ (pixel R i j).rgbt_green = (box_sum RGBTRIPLE.rgbt_green
            [[⟨9, 0, 0⟩, ⟨0, 0, 0⟩, ⟨0, 0, 0⟩], [⟨0, 0, 0⟩, ⟨0, 0, 0⟩, ⟨90, 9, 0⟩]] 2 3 i j + 4) / 9
          ∧ (pixel R i j).rgbt_blue = (box_sum RGBTRIPLE.rgbt_blue
            [[⟨9, 0, 0⟩, ⟨0, 0, 0⟩, ⟨0, 0, 0⟩], [⟨0, 0, 0⟩, ⟨0, 0, 0⟩, ⟨90, 9, 0⟩]] 2 3 i j + 4) / 9 :=
  box_blur_spec (fun _ _ => true) 2 3 (by decide) (by decide)
    [[⟨9, 0, 0⟩, ⟨0, 0, 0⟩, ⟨0, 0, 0⟩], [⟨0, 0, 0⟩, ⟨0, 0, 0⟩, ⟨90, 9, 0⟩]]
    (by unfold is_image triple_in_range; decide) (by rfl)

/-- The pass of the witness above, evaluated. -/
theorem box_blur_example :
    box_blur (fun _ _ => true) 2 3
        [[⟨9, 0, 0⟩, ⟨0, 0, 0⟩, ⟨0, 0, 0⟩], [⟨0, 0, 0⟩, ⟨0, 0, 0⟩, ⟨90, 9, 0⟩]]
      = some [[⟨4, 0, 0⟩, ⟨12, 1, 0⟩, ⟨20, 2, 0⟩], [⟨2, 0, 0⟩, ⟨21, 2, 0⟩, ⟨40, 4, 0⟩]] := by
  decide

/-! ## Blur -/

/-- Three passes that return make `blur` return what the last one returns. -/
theorem blur_some (c : Nat → Nat → Bool) (h w : Nat) (B B1 B2 B3 : List (List RGBTRIPLE))
    (e1 : box_blur c h w B = some B1) (e2 : box_blur c h w B1 = some B2)
    (e3 : box_blur c h w B2 = some B3) : blur c h w B = some B3 := by
  unfold blur
  rw [show BLUR_TIMES = 3 from rfl, for_loop_three _ _ _ _ rfl]
  simp only [Option.some_bind, e1, e2, e3]

/-- Where the temporary buffer is refused, `box_blur` and `blur` exit. -/
theorem blur_none (c : Nat → Nat → Bool) (h w : Nat) (B : List (List RGBTRIPLE))
    (halloc : c (h + 2) ((w + 2) * 3) = false) :
    box_blur c h w B = none ∧ blur c h w B = none := by
  have e : box_blur c h w B = none := by
    unfold box_blur
    rw [show sizeof_RGBTRIPLE = 3 from rfl, halloc]
    rfl
  refine ⟨e, ?_⟩
  unfold blur
  rw [show BLUR_TIMES = 3 from rfl, for_loop_three _ _ _ _ rfl]
  simp only [Option.some_bind, e, Option.none_bind]

/-- C21: `blur` is three `box_blur` passes in a row: the first on the buffer
given, each later one on the whole buffer the pass before it returned (and
`blur` exits where one of them exits). -/
theorem blur_three_passes (c : Nat → Nat → Bool) (h w : Nat) (B : List (List RGBTRIPLE)) :
    blur c h w B
      = (box_blur c h w B).bind fun B1 =>
          (box_blur c h w B1).bind fun B2 => box_blur c h w B2 := by
  unfold blur
  rw [show BLUR_TIMES = 3 from rfl, for_loop_three _ _ _ _ rfl, Option.some_bind,
    Option.bind_assoc]

/-- A pass over a buffer of one colour returns the buffer. -/
theorem box_blur_uniform (c : Nat → Nat → Bool) (h w : Nat) (hh : 1 ≤ h) (hw : 1 ≤ w)
    (col : RGBTRIPLE) (hc : triple_in_range col) (B : List (List RGBTRIPLE))
    (hB : has_shape h w B) (hu : ∀ i j, i < h → j < w → pixel B i j = col)
    (halloc : c (h + 2) ((w + 2) * 3) = true) :
    box_blur c h w B = some B := by
  obtain ⟨R, e, hs, hp⟩ := box_blur_pixels c h w hh hw B hB halloc
  rw [e]
  congr 1
  apply image_ext h w R B hs hB
  intro i j hi hj
  rw [hp i j hi hj, hu i j hi hj]
  simp only [box_sum_eq _ B h w i j hh hw]
  rw [hu _ _ (by omega) (by omega), hu _ _ (by omega) (by omega),
    hu _ _ (by omega) (by omega), hu _ _ (by omega) (by omega),
    hu _ _ (by omega) (by omega), hu _ _ (by omega) (by omega),
    hu _ _ (by omega) (by omega), hu _ _ (by omega) (by omega),
    hu _ _ (by omega) (by omega)]
  obtain ⟨c1, c2, c3⟩ := hc
  cases col with
  | mk b g r =>
    simp only at c1 c2 c3 ⊢
    congr 1 <;> omega

/-- C22: for `h ≥ 1`, `w ≥ 1` and a colour `col`, `blur` (its temporary buffers
being granted) returns an `h`-by-`w` buffer whose pixels all equal `col` as
it received it. -/
theorem blur_uniform (c : Nat → Nat → Bool) (h w : Nat) (hh : 1 ≤ h) (hw : 1 ≤ w)
    (col : RGBTRIPLE) (hc : triple_in_range col) (B : List (List RGBTRIPLE))
    (hB : has_shape h w B) (hu : ∀ i j, i < h → j < w → pixel B i j = col)
    (halloc : c (h + 2) ((w + 2) * 3) = true) :
    blur c h w B = some B := by
  have e := box_blur_uniform c h w hh hw col hc B hB hu halloc
  exact blur_some c h w B B B B e e e

theorem blur_uniform_witness :
    blur (fun _ _ => true) 2 2 [[⟨7, 200, 255⟩, ⟨7, 200, 255⟩], [⟨7, 200, 255⟩, ⟨7, 200, 255⟩]]
      = some [[⟨7, 200, 255⟩, ⟨7, 200, 255⟩], [⟨7, 200, 255⟩, ⟨7, 200, 255⟩]] :=
  blur_uniform (fun _ _ => true) 2 2 (by decide) (by decide) ⟨7, 200, 255⟩
    (by unfold triple_in_range; decide) _ (by unfold has_shape; decide)
    (by
      intro i j hi hj
      have hi2 : i = 0 ∨ i = 1 := by omega
      have hj2 : j = 0 ∨ j = 1 := by omega
      rcases hi2 with rfl | rfl <;> rcases hj2 with rfl | rfl <;> rfl)
    (by rfl)

/-! ## Accuracy of the pointwise filters -/

/-- C26: for a pixel with channels in 0..255, each channel `sepia` writes
differs by at most 1 from the exact weighted sum with the documented
coefficients, rounded half-up and clamped to [0,255]. -/
theorem sepia_within_one (h w : Nat) (B : List (List RGBTRIPLE)) (hB : is_image h w B)
    (i j : Nat) (hi : i < h) (hj : j < w) :
    |((pixel (sepia h w B) i j).rgbt_red : Int)
        - clamp_byte (round_half_up ((393 / 1000 : ℚ) * (pixel B i j).rgbt_red
            + 769 / 1000 * (pixel B i j).rgbt_green + 189 / 1000 * (pixel B i j).rgbt_blue))| ≤ 1
    ∧ |((pixel (sepia h w B) i j).rgbt_green : Int)
        - clamp_byte (round_half_up ((349 / 1000 : ℚ) * (pixel B i j).rgbt_red
            + 686 / 1000 * (pixel B i j).rgbt_green + 168 / 1000 * (pixel B i j).rgbt_blue))| ≤ 1
    ∧ |((pixel (sepia h w B) i j).rgbt_blue : Int)
        - clamp_byte (round_half_up ((272 / 1000 : ℚ) * (pixel B i j).rgbt_red
            + 534 / 1000 * (pixel B i j).rgbt_green + 131 / 1000 * (pixel B i j).rgbt_blue))| ≤ 1 := by
  obtain ⟨_, hp⟩ := sepia_pixels h w B (has_shape_of_is_image h w B hB)
  rw [hp i j hi hj]
  obtain ⟨hb, hg, hr⟩ := pixel_in_range h w B hB i j
  generalize (pixel B i j).rgbt_red = R at hr
  generalize (pixel B i j).rgbt_green = G at hg
  generalize (pixel B i j).rgbt_blue = Bl at hb
  have x1 : (393 / 1000 : ℚ) * R + 769 / 1000 * G + 189 / 1000 * Bl
      = ((393 * R + 769 * G + 189 * Bl : ℕ) : ℚ) / 1000 := by push_cast; ring
  have x2 : (349 / 1000 : ℚ) * R + 686 / 1000 * G + 168 / 1000 * Bl
      = ((349 * R + 686 * G + 168 * Bl : ℕ) : ℚ) / 1000 := by push_cast; ring
  have x3 : (272 / 1000 : ℚ) * R + 534 / 1000 * G + 131 / 1000 * Bl
      = ((272 * R + 534 * G + 131 * Bl : ℕ) : ℚ) / 1000 := by push_cast; ring
  simp only [x1, x2, x3, round_half_up_thousandths, clamp_byte_natCast, abs_sub_le_iff]
  refine ⟨⟨?_, ?_⟩, ⟨?_, ?_⟩, ⟨?_, ?_⟩⟩ <;> omega

theorem sepia_within_one_witness :
    |((pixel (sepia 1 1 [[⟨5, 1, 2⟩]]) 0 0).rgbt_red : Int)
        - clamp_byte (round_half_up ((393 / 1000 : ℚ) * (pixel [[⟨5, 1, 2⟩]] 0 0).rgbt_red
            + 769 / 1000 * (pixel [[⟨5, 1, 2⟩]] 0 0).rgbt_green
            + 189 / 1000 * (pixel [[⟨5, 1, 2⟩]] 0 0).rgbt_blue))| ≤ 1 :=
  (sepia_within_one 1 1 [[⟨5, 1, 2⟩]] (by unfold is_image triple_in_range; decide) 0 0
    (by decide) (by decide)).1

theorem round_half_up_thirds (s : Nat) :
    round_half_up ((s : ℚ) / 3) = ((2 * s + 3) / 6 : Nat) := by
  unfold round_half_up
  have e : (s : ℚ) / 3 + 1 / 2 = (((2 * s + 3 : ℕ) : ℚ)) / ((6 : ℕ) : ℚ) := by
    push_cast
    ring
  rw [e, Rat.floor_natCast_div_natCast]
  norm_cast

theorem ceil_thirds (s : Nat) : ⌈(s : ℚ) / 3⌉ = ((s + 2) / 3 : Nat) := by
  have h1 : 3 * ((s + 2) / 3) ≤ s + 2 := by omega
  have h2 : s + 2 < 3 * ((s + 2) / 3) + 3 := by omega
  generalize (s + 2) / 3 = k at h1 h2
  have q1 : (3 * (k : ℚ)) ≤ s + 2 := by exact_mod_cast h1
  have q2 : (s : ℚ) ≤ 3 * k := by exact_mod_cast (by omega : s ≤ 3 * k)
  rw [Int.ceil_eq_iff]
  constructor
  · rw [lt_div_iff₀ (by norm_num)]
    push_cast
    linarith
  · rw [div_le_iff₀ (by norm_num)]
    push_cast
    linarith

/-- C27: for a pixel with channels in 0..255 and `s = R + G + B`, the value `g`
that `grayscale` writes is the nearest integer to `s / 3` (less than one half
away from it) when `s` is even and the ceiling of `s / 3` when `s` is odd;
`g` is at least the mean rounded to the nearest integer and at most that
plus 1, lies between the least and the greatest of `R`, `G`, `B`, and is the
value before the cast to 8 bits, which is below 256. -/
theorem grayscale_nearest (h w : Nat) (B : List (List RGBTRIPLE)) (hB : is_image h w B)
    (i j : Nat) (hi : i < h) (hj : j < w) :
    (channel_sum (pixel B i j) % 2 = 0 →
      ((pixel (grayscale h w B) i j).rgbt_red : Int)
          = round_half_up ((channel_sum (pixel B i j) : ℚ) / 3)
        ∧ |((pixel (grayscale h w B) i j).rgbt_red : ℚ)
            - (channel_sum (pixel B i j) : ℚ) / 3| < 1 / 2)
    ∧ (channel_sum (pixel B i j) % 2 = 1 →
      ((pixel (grayscale h w B) i j).rgbt_red : Int)
        = ⌈(channel_sum (pixel B i j) : ℚ) / 3⌉)
    ∧ round_half_up ((channel_sum (pixel B i j) : ℚ) / 3)
        ≤ ((pixel (grayscale h w B) i j).rgbt_red : Int)
    ∧ ((pixel (grayscale h w B) i j).rgbt_red : Int)
        ≤ round_half_up ((channel_sum (pixel B i j) : ℚ) / 3) + 1
    ∧ min (pixel B i j).rgbt_red (min (pixel B i j).rgbt_green (pixel B i j).rgbt_blue)
        ≤ (pixel (grayscale h w B) i j).rgbt_red
    ∧ (pixel (grayscale h w B) i j).rgbt_red
        ≤ max (pixel B i j).rgbt_red (max (pixel B i j).rgbt_green (pixel B i j).rgbt_blue)
    ∧ (channel_sum (pixel B i j) + channel_sum (pixel B i j) % 2 + 1) / 3 < 256
    ∧ (pixel (grayscale h w B) i j).rgbt_red
        = (channel_sum (pixel B i j) + channel_sum (pixel B i j) % 2 + 1) / 3
    ∧ (pixel (grayscale h w B) i j).rgbt_green = (pixel (grayscale h w B) i j).rgbt_red
    ∧ (pixel (grayscale h w B) i j).rgbt_blue = (pixel (grayscale h w B) i j).rgbt_red := by
  obtain ⟨_, hp⟩ := grayscale_pixels h w B (has_shape_of_is_image h w B hB)
  rw [hp i j hi hj]
  obtain ⟨hb, hg, hr⟩ := pixel_in_range h w B hB i j
  unfold channel_sum
  generalize (pixel B i j).rgbt_red = R at hr
  generalize (pixel B i j).rgbt_green = G at hg
  generalize (pixel B i j).rgbt_blue = Bl at hb
  have e : Bl + R + G = R + G + Bl := by omega
  simp only [e, round_half_up_thirds, ceil_thirds]
  have hmin : 3 * min R (min G Bl) ≤ R + G + Bl := by omega
  have hmax : R + G + Bl ≤ 3 * max R (max G Bl) := by omega
  generalize min R (min G Bl) = lo at hmin
  generalize max R (max G Bl) = hi at hmax
  have hsum : R + G + Bl ≤ 765 := by omega
  generalize R + G + Bl = s at hsum hmin hmax
  have h6 : s % 6 = 0 ∨ s % 6 = 1 ∨ s % 6 = 2 ∨ s % 6 = 3 ∨ s % 6 = 4 ∨ s % 6 = 5 := by
    omega
  refine ⟨?_, ?_, ?_, ?_, ?_, ?_, ?_, ?_, trivial, trivial⟩
  · intro hs
    have hg1 : 3 * ((s + s % 2 + 1) / 3 % 256) ≤ s + 1 := by
      rcases h6 with c | c | c | c | c | c <;> omega
    have hg2 : s ≤ 3 * ((s + s % 2 + 1) / 3 % 256) + 1 := by
      rcases h6 with c | c | c | c | c | c <;> omega
    constructor
    · rcases h6 with c | c | c | c | c | c <;> omega
    · generalize (s + s % 2 + 1) / 3 % 256 = g at hg1 hg2
      have q1 : (3 * (g : ℚ)) ≤ s + 1 := by exact_mod_cast hg1
      have q2 : (s : ℚ) ≤ 3 * g + 1 := by exact_mod_cast hg2
      rw [abs_lt]
      constructor <;> linarith
  · intro hs
    rcases h6 with c | c | c | c | c | c <;> omega
  · rcases h6 with c | c | c | c | c | c <;> omega
  · rcases h6 with c | c | c | c | c | c <;> omega
  · rcases h6 with c | c | c | c | c | c <;> omega
  · rcases h6 with c | c | c | c | c | c <;> omega
  · omega
  · omega

theorem grayscale_nearest_witness :
    ((pixel (grayscale 1 2 [[⟨0, 0, 1⟩, ⟨10, 20, 30⟩]]) 0 0).rgbt_red : Int)
        = ⌈(channel_sum (pixel [[⟨0, 0, 1⟩, ⟨10, 20, 30⟩]] 0 0) : ℚ) / 3⌉
    ∧ ((pixel (grayscale 1 2 [[⟨0, 0, 1⟩, ⟨10, 20, 30⟩]]) 0 1).rgbt_red : Int)
        = round_half_up ((channel_sum (pixel [[⟨0, 0, 1⟩, ⟨10, 20, 30⟩]] 0 1) : ℚ) / 3) :=
  ⟨(grayscale_nearest 1 2 [[⟨0, 0, 1⟩, ⟨10, 20, 30⟩]]
      (by unfold is_image triple_in_range; decide) 0 0 (by decide) (by decide)).2.1 (by decide),
    ((grayscale_nearest 1 2 [[⟨0, 0, 1⟩, ⟨10, 20, 30⟩]]
      (by unfold is_image triple_in_range; decide) 0 1 (by decide) (by decide)).1
        (by decide)).1⟩

/-! ## Reflect and the other filters -/

/-- What one `box_blur` pass does, for every height and width. -/
theorem box_blur_pixels_any (c : Nat → Nat → Bool) (h w : Nat)
    (image : List (List RGBTRIPLE)) (hs : has_shape h w image)
    (halloc : c (h + 2) ((w + 2) * 3) = true) :
    ∃ R, box_blur c h w image = some R ∧ has_shape h w R
      ∧ ∀ i j, i < h → j < w →
          pixel R i j
            = { rgbt_blue := (box_sum RGBTRIPLE.rgbt_blue image h w i j + 4) / 9 % 256
                rgbt_green := (box_sum RGBTRIPLE.rgbt_green image h w i j + 4) / 9 % 256
                rgbt_red := (box_sum RGBTRIPLE.rgbt_red image h w i j + 4) / 9 % 256 } := by
  by_cases hd : 1 ≤ h ∧ 1 ≤ w
  · exact box_blur_pixels c h w hd.1 hd.2 image hs halloc
  · obtain ⟨sr, _⟩ := box_blur_store h w
      (for_loop 0 (w + 2) (fun j temp =>
            set_pixel (set_pixel temp 0 j (pixel temp 1 j)) (h + 1) j
              (pixel (set_pixel temp 0 j (pixel temp 1 j)) h j))
          (for_loop 0 (h + 2) (fun i temp =>
              set_pixel (set_pixel temp i 0 (pixel temp i 1)) i (w + 1)
                (pixel (set_pixel temp i 0 (pixel temp i 1)) i w))
            (for_loop 0 h (fun i temp =>
                for_loop 0 w (fun j temp => set_pixel temp (i + 1) (j + 1) (pixel image i j)) temp)
              (zero_image (h + 2) (w + 2))))) image hs
    refine ⟨_, ?_, sr, ?_⟩
    · unfold box_blur
      rw [show sizeof_RGBTRIPLE = 3 from rfl, halloc]
      rfl
    · intro i j hi hj
      omega

theorem box_sum_reflect (channel : RGBTRIPLE → Nat) (h w : Nat) (B : List (List RGBTRIPLE))
    (hB : has_shape h w B) (i j : Nat) (hi : i < h) (hj : j < w) :
    box_sum channel (reflect h w B) h w i j = box_sum channel B h w i (w - 1 - j) := by
  obtain ⟨_, hp⟩ := reflect_pixels h w B hB
  rw [box_sum_eq channel _ h w i j (by omega) (by omega),
    box_sum_eq channel _ h w i (w - 1 - j) (by omega) (by omega)]
  rw [hp _ _ (by omega) (by omega), hp _ _ (by omega) (by omega),
    hp _ _ (by omega) (by omega), hp _ _ (by omega) (by omega),
    hp _ _ (by omega) (by omega), hp _ _ (by omega) (by omega),
    hp _ _ (by omega) (by omega), hp _ _ (by omega) (by omega),
    hp _ _ (by omega) (by omega)]
  have e1 : w - 1 - min (j - 1) (w - 1) = min (w - 1 - j + 1) (w - 1) := by omega
  have e2 : w - 1 - min j (w - 1) = min (w - 1 - j) (w - 1) := by omega
  have e3 : w - 1 - min (j + 1) (w - 1) = min (w - 1 - j - 1) (w - 1) := by omega
  rw [e1, e2, e3]
  omega

/-- One `box_blur` pass commutes with `reflect`. -/
theorem box_blur_reflect (c : Nat → Nat → Bool) (h w : Nat) (B : List (List RGBTRIPLE))
    (hB : has_shape h w B) :
    box_blur c h w (reflect h w B) = (box_blur c h w B).map (reflect h w) := by
  cases halloc : c (h + 2) ((w + 2) * 3) with
  | false => rw [(blur_none c h w _ halloc).1, (blur_none c h w _ halloc).1]; rfl
  | true =>
    obtain ⟨hsr, hpr⟩ := reflect_pixels h w B hB
    obtain ⟨R1, e1, s1, p1⟩ := box_blur_pixels_any c h w (reflect h w B) hsr halloc
    obtain ⟨R2, e2, s2, p2⟩ := box_blur_pixels_any c h w B hB halloc
    obtain ⟨s3, p3⟩ := reflect_pixels h w R2 s2
    rw [e1, e2, Option.map_some']
    congr 1
    apply image_ext h w _ _ s1 s3
    intro i j hi hj
    rw [p1 i j hi hj, p3 i j hi hj, p2 i (w - 1 - j) hi (by omega),
      box_sum_reflect _ h w B hB i j hi hj, box_sum_reflect _ h w B hB i j hi hj,
      box_sum_reflect _ h w B hB i j hi hj]

/-- C25: on every `h`-by-`w` buffer `reflect` commutes with `grayscale`, with
`sepia` and with `blur` (which exits on the reflected buffer exactly when it
exits on the buffer itself). -/
theorem reflect_commutes (c : Nat → Nat → Bool) (h w : Nat) (B : List (List RGBTRIPLE))
    (hB : has_shape h w B) :
    grayscale h w (reflect h w B) = reflect h w (grayscale h w B)
    ∧ sepia h w (reflect h w B) = reflect h w (sepia h w B)
    ∧ blur c h w (reflect h w B) = (blur c h w B).map (reflect h w) := by
  obtain ⟨hsr, hpr⟩ := reflect_pixels h w B hB
  refine ⟨?_, ?_, ?_⟩
  · obtain ⟨s1, p1⟩ := grayscale_pixels h w (reflect h w B) hsr
    obtain ⟨s2, p2⟩ := grayscale_pixels h w B hB
    obtain ⟨s3, p3⟩ := reflect_pixels h w (grayscale h w B) s2
    apply image_ext h w _ _ s1 s3
    intro i j hi hj
    rw [p1 i j hi hj, p3 i j hi hj, p2 i (w - 1 - j) hi (by omega), hpr i j hi hj]
  · obtain ⟨s1, p1⟩ := sepia_pixels h w (reflect h w B) hsr
    obtain ⟨s2, p2⟩ := sepia_pixels h w B hB
    obtain ⟨s3, p3⟩ := reflect_pixels h w (sepia h w B) s2
    apply image_ext h w _ _ s1 s3
    intro i j hi hj
    rw [p1 i j hi hj, p3 i j hi hj, p2 i (w - 1 - j) hi (by omega), hpr i j hi hj]
  · cases halloc : c (h + 2) ((w + 2) * 3) with
    | false => rw [(blur_none c h w _ halloc).2, (blur_none c h w _ halloc).2]; rfl
    | true =>
      obtain ⟨B1, e1, s1, _⟩ := box_blur_pixels_any c h w B hB halloc
      obtain ⟨B2, e2, s2, _⟩ := box_blur_pixels_any c h w B1 s1 halloc
      obtain ⟨B3, e3, s3, _⟩ := box_blur_pixels_any c h w B2 s2 halloc
      have r1 := box_blur_reflect c h w B hB
      have r2 := box_blur_reflect c h w B1 s1
      have r3 := box_blur_reflect c h w B2 s2
      rw [e1, Option.map_some'] at r1
      rw [e2, Option.map_some'] at r2
      rw [e3, Option.map_some'] at r3
      rw [blur_some c h w _ _ _ _ r1 r2 r3, blur_some c h w _ _ _ _ e1 e2 e3]
      rfl

theorem reflect_commutes_witness :
    grayscale 2 3 (reflect 2 3
        [[⟨1, 2, 3⟩, ⟨20, 0, 7⟩, ⟨3, 90, 0⟩], [⟨4, 0, 0⟩, ⟨5, 50, 0⟩, ⟨255, 0, 6⟩]])
      = reflect 2 3 (grayscale 2 3
        [[⟨1, 2, 3⟩, ⟨20, 0, 7⟩, ⟨3, 90, 0⟩], [⟨4, 0, 0⟩, ⟨5, 50, 0⟩, ⟨255, 0, 6⟩]])
    ∧ sepia 2 3 (reflect 2 3
        [[⟨1, 2, 3⟩, ⟨20, 0, 7⟩, ⟨3, 90, 0⟩], [⟨4, 0, 0⟩, ⟨5, 50, 0⟩, ⟨255, 0, 6⟩]])
      = reflect 2 3 (sepia 2 3
        [[⟨1, 2, 3⟩, ⟨20, 0, 7⟩, ⟨3, 90, 0⟩], [⟨4, 0, 0⟩, ⟨5, 50, 0⟩, ⟨255, 0, 6⟩]])
    ∧ blur (fun _ _ => true) 2 3 (reflect 2 3
        [[⟨1, 2, 3⟩, ⟨20, 0, 7⟩, ⟨3, 90, 0⟩], [⟨4, 0, 0⟩, ⟨5, 50, 0⟩, ⟨255, 0, 6⟩]])
      = (blur (fun _ _ => true) 2 3
        [[⟨1, 2, 3⟩, ⟨20, 0, 7⟩, ⟨3, 90, 0⟩], [⟨4, 0, 0⟩, ⟨5, 50, 0⟩, ⟨255, 0, 6⟩]]).map
          (reflect 2 3) :=
  reflect_commutes (fun _ _ => true) 2 3
    [[⟨1, 2, 3⟩, ⟨20, 0, 7⟩, ⟨3, 90, 0⟩], [⟨4, 0, 0⟩, ⟨5, 50, 0⟩, ⟨255, 0, 6⟩]]
    (by unfold has_shape; decide)

/-! ## The filter table of the driver -/

/-- The buffer `sepia` returns for a single pixel. -/
theorem sepia_single (p : RGBTRIPLE) :
    sepia 1 1 [[p]]
      = [[⟨min 255 ((2228 * p.rgbt_red + 4375 * p.rgbt_green + 1073 * p.rgbt_blue + 4096)
              / 8192),
            min 255 ((2859 * p.rgbt_red + 5620 * p.rgbt_green + 1376 * p.rgbt_blue + 4096)
              / 8192),
            min 255 ((3219 * p.rgbt_red + 6300 * p.rgbt_green + 1548 * p.rgbt_blue + 4096)
              / 8192)⟩]] := by
  obtain ⟨hs, hp⟩ := sepia_pixels 1 1 [[p]] (by unfold has_shape; simp)
  apply image_ext 1 1 _ _ hs (by unfold has_shape; simp)
  intro i j hi hj
  obtain rfl : i = 0 := by omega
  obtain rfl : j = 0 := by omega
  rw [hp 0 0 hi hj]
  rfl

/-- C24 as stated fails: when the options select grayscale first and sepia
second, the flags are those of sepia and grayscale, and on the pixel with
red 100, green 0, blue 0 `apply_filter` returns grayscale of sepia, all
channels 34, while sepia of grayscale, the filters in the order selected, has
red 45, green 40, blue 31. -/
theorem apply_filter_not_selection_order :
    parse_options (fun _ => true) [('g', ""), ('s', "")] initial_flags
      = .ok ⟨true, false, true, false, .stdout⟩
    ∧ parse_options (fun _ => true) [('s', ""), ('g', "")] initial_flags
      = .ok ⟨true, false, true, false, .stdout⟩
    ∧ apply_filter (fun _ _ => true) ⟨true, false, true, false, .stdout⟩ 1 1 [[⟨0, 0, 100⟩]]
      = some [[⟨34, 34, 34⟩]]
    ∧ sepia 1 1 (grayscale 1 1 [[⟨0, 0, 100⟩]]) = [[⟨31, 40, 45⟩]]
    ∧ apply_filter (fun _ _ => true) ⟨true, false, true, false, .stdout⟩ 1 1 [[⟨0, 0, 100⟩]]
      ≠ some (sepia 1 1 (grayscale 1 1 [[⟨0, 0, 100⟩]])) := by
  have e1 : apply_filter (fun _ _ => true) ⟨true, false, true, false, .stdout⟩ 1 1
      [[⟨0, 0, 100⟩]] = some [[⟨34, 34, 34⟩]] := by
    show some (grayscale 1 1 (sepia 1 1 [[⟨0, 0, 100⟩]])) = _
    rw [sepia_single]
    decide
  have e2 : sepia 1 1 (grayscale 1 1 [[⟨0, 0, 100⟩]]) = [[⟨31, 40, 45⟩]] := by
    rw [show grayscale 1 1 [[⟨0, 0, 100⟩]] = [[⟨33, 33, 33⟩]] by decide, sepia_single]
    decide
  refine ⟨by rfl, by rfl, e1, e2, ?_⟩
  rw [e1, e2]
  decide

/-- C24, amended: for every combination of the four flags and every buffer,
`apply_filter` applies each flagged filter exactly once to the whole buffer,
the output of one feeding the next, in the order of its table: sepia,
reflect, grayscale, blur (exiting where `blur` exits); with no flag set it
returns the buffer unchanged. -/
theorem apply_filter_table_order (c : Nat → Nat → Bool) (options : flags) (h w : Nat)
    (B : List (List RGBTRIPLE)) :
    apply_filter c options h w B
      = (if options.bflag then
          blur c h w
            (apply_if options.gflag (grayscale h w)
              (apply_if options.rflag (reflect h w) (apply_if options.sflag (sepia h w) B)))
        else
          some (apply_if options.gflag (grayscale h w)
            (apply_if options.rflag (reflect h w) (apply_if options.sflag (sepia h w) B))))
    ∧ (options.sflag = false → options.rflag = false → options.gflag = false →
        options.bflag = false → apply_filter c options h w B = some B) := by
  obtain ⟨s, r, g, b, f⟩ := options
  constructor
  · cases s <;> cases r <;> cases g <;> cases b <;> rfl
  · intro hs hr hg hb
    simp only at hs hr hg hb
    subst hs hr hg hb
    rfl

theorem apply_filter_table_order_witness :
    apply_filter (fun _ _ => true) ⟨false, false, false, false, .stdout⟩ 1 2
        [[⟨1, 0, 0⟩, ⟨10, 20, 30⟩]] = some [[⟨1, 0, 0⟩, ⟨10, 20, 30⟩]] :=
  (apply_filter_table_order (fun _ _ => true) ⟨false, false, false, false, .stdout⟩ 1 2
    [[⟨1, 0, 0⟩, ⟨10, 20, 30⟩]]).2 rfl rfl rfl rfl

/-! ## Headers: loading then storing -/

theorem slice_append (l : List Nat) (a n b m : Nat) (hb : b = a + n) :
    (l.drop a).take n ++ (l.drop b).take m = (l.drop a).take (n + m) := by
  subst hb
  rw [List.take_add, List.drop_drop]

theorem slice_two (l : List Nat) (off : Nat) (h : off + 2 ≤ l.length) :
    (l.drop off).take 2 = [byte_at l off, byte_at l (off + 1)] := by
  rw [List.drop_eq_getElem_cons (by omega : off < l.length),
    List.drop_eq_getElem_cons (by omega : off + 1 < l.length)]
  unfold byte_at
  rw [List.getD_eq_getElem _ _ (by omega : off < l.length),
    List.getD_eq_getElem _ _ (by omega : off + 1 < l.length)]
  rfl

theorem slice_four (l : List Nat) (off : Nat) (h : off + 4 ≤ l.length) :
    (l.drop off).take 4
      = [byte_at l off, byte_at l (off + 1), byte_at l (off + 2), byte_at l (off + 3)] := by
  rw [List.drop_eq_getElem_cons (by omega : off < l.length),
    List.drop_eq_getElem_cons (by omega : off + 1 < l.length),
    List.drop_eq_getElem_cons (by omega : off + 1 + 1 < l.length),
    List.drop_eq_getElem_cons (by omega : off + 1 + 1 + 1 < l.length)]
  unfold byte_at
  rw [List.getD_eq_getElem _ _ (by omega : off < l.length),
    List.getD_eq_getElem _ _ (by omega : off + 1 < l.length),
    List.getD_eq_getElem _ _ (by omega : off + 2 < l.length),
    List.getD_eq_getElem _ _ (by omega : off + 3 < l.length)]
  rfl

theorem store_uint16_load (l : List Nat) (hl : is_bytes l) (off : Nat)
    (h : off + 2 ≤ l.length) :
    store_uint16 (load_uint16 l off) = (l.drop off).take 2 := by
  rw [slice_two l off h]
  have b0 := byte_at_lt l hl off
  have b1 := byte_at_lt l hl (off + 1)
  unfold store_uint16 load_uint16
  congr 1
  · omega
  · congr 1
    omega

theorem store_uint32_load (l : List Nat) (hl : is_bytes l) (off : Nat)
    (h : off + 4 ≤ l.length) :
    store_uint32 (load_uint32 l off) = (l.drop off).take 4 := by
  rw [slice_four l off h]
  have b0 := byte_at_lt l hl off
  have b1 := byte_at_lt l hl (off + 1)
  have b2 := byte_at_lt l hl (off + 2)
  have b3 := byte_at_lt l hl (off + 3)
  unfold store_uint32 load_uint32
  congr 1
  · omega
  · congr 1
    · omega
    · congr 1
      · omega
      · congr 1
        omega

theorem store_int32_load (l : List Nat) (hl : is_bytes l) (off : Nat)
    (h : off + 4 ≤ l.length) :
    store_int32 (load_int32 l off) = (l.drop off).take 4 := by
  rw [← store_uint32_load l hl off h]
  have b0 := byte_at_lt l hl off
  have b1 := byte_at_lt l hl (off + 1)
  have b2 := byte_at_lt l hl (off + 2)
  have b3 := byte_at_lt l hl (off + 3)
  have hu : load_uint32 l off < 4294967296 := by
    unfold load_uint32
    omega
  unfold store_int32 load_int32
  congr 1
  split_ifs <;> omega

/-- The 12 bytes stored from a file header are those it was loaded from. -/
theorem file_header_region_load (sig region : List Nat) (hr : is_bytes region)
    (hlen : region.length = 12) :
    file_header_region (load_file_header sig region) = region := by
  unfold file_header_region load_file_header
  simp only
  rw [store_uint32_load region hr 0 (by omega), store_uint16_load region hr 4 (by omega),
    store_uint16_load region hr 6 (by omega), store_uint32_load region hr 8 (by omega),
    slice_append region 0 4 4 2 rfl, slice_append region 0 6 6 2 rfl,
    slice_append region 0 8 8 4 rfl, List.drop_zero, List.take_of_length_le (by omega)]

/-- The 40 bytes stored from an info header are those it was loaded from. -/
theorem info_header_bytes_load (bytes : List Nat) (hb : is_bytes bytes)
    (hlen : bytes.length = 40) :
    info_header_bytes (load_info_header bytes) = bytes := by
  unfold info_header_bytes load_info_header
  simp only
  rw [store_uint32_load bytes hb 0 (by omega), store_int32_load bytes hb 4 (by omega),
    store_int32_load bytes hb 8 (by omega), store_uint16_load bytes hb 12 (by omega),
    store_uint16_load bytes hb 14 (by omega), store_uint32_load bytes hb 16 (by omega),
    store_uint32_load bytes hb 20 (by omega), store_int32_load bytes hb 24 (by omega),
    store_int32_load bytes hb 28 (by omega), store_uint32_load bytes hb 32 (by omega),
    store_uint32_load bytes hb 36 (by omega),
    slice_append bytes 0 4 4 4 rfl, slice_append bytes 0 8 8 4 rfl,
    slice_append bytes 0 12 12 2 rfl, slice_append bytes 0 14 14 2 rfl,
    slice_append bytes 0 16 16 4 rfl, slice_append bytes 0 20 20 4 rfl,
    slice_append bytes 0 24 24 4 rfl, slice_append bytes 0 28 28 4 rfl,
    slice_append bytes 0 32 32 4 rfl, slice_append bytes 0 36 36 4 rfl,
    List.drop_zero, List.take_of_length_le (by omega)]

/-- The 54 header bytes stored from the headers decoded from a stream of bytes
are its first 54 bytes. -/
theorem header_bytes_decoded (s : List Nat) (hs : is_bytes s) (hlen : 54 ≤ s.length) :
    store_uint16 (decoded_bf s).bf_type ++ file_header_region (decoded_bf s)
      ++ info_header_bytes (decoded_bi s) = s.take 54 := by
  have e1 : store_uint16 (decoded_bf s).bf_type = (s.drop 0).take 2 := by
    show store_uint16 (load_uint16 (s.take 2) 0) = _
    have := store_uint16_load (s.take 2) (is_bytes_take_drop s hs 0 2) 0
      (by rw [List.length_take]; omega)
    rw [this, List.drop_zero, List.drop_zero, List.take_take]
    rfl
  have e2 : file_header_region (decoded_bf s) = (s.drop 2).take 12 :=
    file_header_region_load _ _ (is_bytes_take_drop s hs 2 12)
      (by rw [List.length_take, List.length_drop]; omega)
  have e3 : info_header_bytes (decoded_bi s) = (s.drop 14).take 40 :=
    info_header_bytes_load _ (is_bytes_take_drop s hs 14 40)
      (by rw [List.length_take, List.length_drop]; omega)
  rw [e1, e2, e3, slice_append s 0 2 2 12 rfl, slice_append s 0 14 14 40 rfl, List.drop_zero]

/-! ## Encoding what was decoded -/

theorem list_eq_of_byte_at (A B : List Nat) (hl : A.length = B.length)
    (hp : ∀ k, k < A.length → byte_at A k = byte_at B k) : A = B := by
  apply List.ext_getElem hl
  intro k h1 h2
  have := hp k h1
  unfold byte_at at this
  rw [List.getD_eq_getElem _ _ h1, List.getD_eq_getElem _ _ h2] at this
  exact this

theorem byte_at_append_left (A B : List Nat) (k : Nat) (hk : k < A.length) :
    byte_at (A ++ B) k = byte_at A k :=
  List.getD_append A B 0 k hk

theorem byte_at_append_right (A B : List Nat) (k : Nat) (hk : A.length ≤ k) :
    byte_at (A ++ B) k = byte_at B (k - A.length) :=
  List.getD_append_right A B 0 k hk

theorem byte_at_replicate (p k : Nat) : byte_at (List.replicate p 0) k = 0 := by
  unfold byte_at
  rw [List.getD_eq_getElem?_getD, List.getElem?_replicate]
  split_ifs <;> rfl

/-- The bytes of a row loaded from at least `3 * w` bytes are those bytes. -/
theorem row_bytes_load_row (w : Nat) :
    ∀ l : List Nat, 3 * w ≤ l.length → row_bytes (load_row w l) = l.take (3 * w) := by
  induction w with
  | zero => intro l _; rfl
  | succ n ih =>
    intro l hl
    match l, hl with
    | b :: g :: r :: l, hl =>
      rw [load_row_succ]
      have e : 3 * (n + 1) = 3 * n + 1 + 1 + 1 := by omega
      rw [e, List.take_succ_cons, List.take_succ_cons, List.take_succ_cons]
      show triple_bytes _ ++ row_bytes (load_row n l) = _
      rw [ih l (by simp only [List.length_cons] at hl; omega)]
      rfl
    | [], hl => simp at hl
    | [_], hl => simp only [List.length_cons, List.length_nil] at hl; omega
    | [_, _], hl => simp only [List.length_cons, List.length_nil] at hl; omega

/-- The scanlines written from the image decoded from `pixels`: their number
of bytes, and byte by byte the bytes of `pixels` with the padding zeroed. -/
theorem scanlines_decoded (w p : Nat) (pixels : List Nat) :
    ∀ h, h * (3 * w + p) ≤ pixels.length →
      (((scanline_image h w p pixels).map fun row =>
          row_bytes row ++ List.replicate p 0).flatten).length = h * (3 * w + p)
      ∧ ∀ m, m < h * (3 * w + p) →
          byte_at ((scanline_image h w p pixels).map fun row =>
              row_bytes row ++ List.replicate p 0).flatten m
            = if 3 * w ≤ m % (3 * w + p) then 0 else byte_at pixels m := by
  intro h
  induction h with
  | zero =>
    intro _
    refine ⟨by simp [scanline_image], ?_⟩
    intro m hm
    omega
  | succ h ih =>
    intro hlen
    have hmul : (h + 1) * (3 * w + p) = h * (3 * w + p) + (3 * w + p) := Nat.succ_mul _ _
    rw [hmul] at hlen ⊢
    obtain ⟨l1, p1⟩ := ih (by omega)
    have e : ((scanline_image (h + 1) w p pixels).map fun row =>
          row_bytes row ++ List.replicate p 0).flatten
        = ((scanline_image h w p pixels).map fun row =>
            row_bytes row ++ List.replicate p 0).flatten
          ++ ((pixels.drop (h * (3 * w + p))).take (3 * w) ++ List.replicate p 0) := by
      unfold scanline_image
      rw [List.range_succ, List.map_append, List.map_append, List.flatten_append]
      simp only [List.map_cons, List.map_nil, List.flatten_cons, List.flatten_nil,
        List.append_nil]
      rw [row_bytes_load_row w _ (by rw [List.length_take, List.length_drop]; omega),
        List.take_take, Nat.min_self]
    have l2 : ((pixels.drop (h * (3 * w + p))).take (3 * w)).length = 3 * w := by
      rw [List.length_take, List.length_drop]
      omega
    rw [e]
    refine ⟨by rw [List.length_append, List.length_append, l1, l2, List.length_replicate], ?_⟩
    intro m hm
    by_cases c : m < h * (3 * w + p)
    · rw [byte_at_append_left _ _ _ (by rw [l1]; exact c)]
      exact p1 m c
    · have c : h * (3 * w + p) ≤ m := Nat.le_of_not_lt c
      rw [byte_at_append_right _ _ _ (by rw [l1]; exact c), l1]
      have hmod : m % (3 * w + p) = m - h * (3 * w + p) := by
        have em : m = (m - h * (3 * w + p)) + h * (3 * w + p) := by omega
        rw [em, Nat.add_mul_mod_self_right, Nat.add_sub_cancel]
        exact Nat.mod_eq_of_lt (by omega)
      rw [hmod]
      by_cases d : 3 * w ≤ m - h * (3 * w + p)
      · rw [if_pos d, byte_at_append_right _ _ _ (by rw [l2]; exact d), byte_at_replicate]
      · rw [if_neg d, byte_at_append_left _ _ _ (by rw [l2]; omega),
          byte_at_take_drop _ _ _ _ (by omega)]
        congr 1
        omega

theorem byte_at_clear_padding (w p : Nat) (f : List Nat) (n k : Nat) (hk : k < n) :
    byte_at (clear_padding w p f n) k
      = if 54 ≤ k ∧ 3 * w ≤ (k - 54) % (3 * w + p) then 0 else byte_at f k := by
  unfold clear_padding byte_at
  rw [List.getD_eq_getElem _ _ (by simpa using hk)]
  simp

/-- The bytes `write_image` writes from what `read_image` decoded, offset by
offset. -/
theorem write_read_bytes (c : Nat → Nat → Bool) (f : List Nat) (hf : is_bytes f)
    (r : ReadResult) (hr : read_image c f = .ok r) (out : OutStream)
    (hok : (write_image r.bf r.bi out r.height r.width r.image).1 ≠ -1) :
    (write_image r.bf r.bi out r.height r.width r.image).2.length
        = 54 + r.height * (3 * r.width + determine_padding r.width)
    ∧ 54 + r.height * (3 * r.width + determine_padding r.width) ≤ f.length
    ∧ ∀ k, k < 54 + r.height * (3 * r.width + determine_padding r.width) →
        byte_at (write_image r.bf r.bi out r.height r.width r.image).2 k
          = if 54 ≤ k ∧ 3 * r.width ≤ (k - 54) % (3 * r.width + determine_padding r.width)
            then 0 else byte_at f k := by
  obtain ⟨h54, _, _, _, _, _, hlen, rfl⟩ := read_image_ok c f r hr
  simp only at hok ⊢
  generalize abs_height (decoded_bi f).bi_height = h at hok hlen ⊢
  generalize int32_to_size_t (decoded_bi f).bi_width = w at hok hlen ⊢
  obtain ⟨hopen, hroom⟩ := write_image_not_failed _ _ out h w _ hok
  rw [write_image_ok _ _ out h w _ hopen hroom (length_scanline_image h w _ _)
    (row_length_scanline_image h w _ _)]
  simp only
  rw [header_bytes_decoded f hf h54]
  obtain ⟨l1, p1⟩ := scanlines_decoded w (determine_padding w) (f.drop 54) h
    (by rw [List.length_drop]; omega)
  have l0 : (f.take 54).length = 54 := by rw [List.length_take]; omega
  refine ⟨by rw [List.length_append, l0, l1], hlen, ?_⟩
  intro k hk
  by_cases c54 : k < 54
  · rw [byte_at_append_left _ _ _ (by rw [l0]; exact c54), if_neg (by omega),
      byte_at_take _ _ _ c54]
  · have c54 : 54 ≤ k := Nat.le_of_not_lt c54
    rw [byte_at_append_right _ _ _ (by rw [l0]; exact c54), l0, p1 _ (by omega),
      byte_at_drop]
    by_cases d : 3 * w ≤ (k - 54) % (3 * w + determine_padding w)
    · rw [if_pos d, if_pos ⟨c54, d⟩]
    · rw [if_neg d, if_neg (fun x => d x.2)]
      congr 1
      omega

/-- C28: when `read_image` decodes a stream of bytes `f` to `(bf, bi, h, w, B)`
and `write_image (bf, bi, h, w, B)` does not fail, the bytes written are the
first `54 + h * (3 * w + p)` bytes of `f` with every padding byte replaced by
zero; they are `f` itself exactly when `f` has that many bytes and all of its
padding bytes are zero. -/
theorem write_after_read (c : Nat → Nat → Bool) (f : List Nat) (hf : is_bytes f)
    (r : ReadResult) (hr : read_image c f = .ok r) (out : OutStream)
    (hok : (write_image r.bf r.bi out r.height r.width r.image).1 ≠ -1) :
    (write_image r.bf r.bi out r.height r.width r.image).2
        = clear_padding r.width (determine_padding r.width) f
            (54 + r.height * (3 * r.width + determine_padding r.width))
    ∧ ((write_image r.bf r.bi out r.height r.width r.image).2 = f
        ↔ f.length = 54 + r.height * (3 * r.width + determine_padding r.width)
          ∧ ∀ k, 54 ≤ k → k < f.length →
              3 * r.width ≤ (k - 54) % (3 * r.width + determine_padding r.width) →
              byte_at f k = 0) := by
  obtain ⟨hl, hlen, hp⟩ := write_read_bytes c f hf r hr out hok
  refine ⟨?_, ?_, ?_⟩
  · apply list_eq_of_byte_at
    · rw [hl]
      simp [clear_padding]
    · intro k hk
      rw [hl] at hk
      rw [hp k hk, byte_at_clear_padding _ _ _ _ _ hk]
  · intro e
    rw [e] at hl hp
    refine ⟨hl, ?_⟩
    intro k h1 h2 h3
    have := hp k (by omega)
    rw [if_pos ⟨h1, h3⟩] at this
    exact this
  · intro ⟨e1, e2⟩
    apply list_eq_of_byte_at _ _ (by rw [hl, e1])
    intro k hk
    rw [hl] at hk
    rw [hp k hk]
    split_ifs with d
    · exact (e2 k d.1 (by omega) d.2).symm
    · rfl

theorem write_after_read_witness :
    (write_image (decoded_bf (sample_header 1 1 0 0 0 ++ [1, 2, 3, 9, 7]))
        (decoded_bi (sample_header 1 1 0 0 0 ++ [1, 2, 3, 9, 7]))
        ⟨true, false, false, 100⟩ 1 1 [[⟨1, 2, 3⟩]]).2
      = clear_padding 1 (determine_padding 1) (sample_header 1 1 0 0 0 ++ [1, 2, 3, 9, 7])
          (54 + 1 * (3 * 1 + determine_padding 1)) :=
  (write_after_read (fun _ _ => true) (sample_header 1 1 0 0 0 ++ [1, 2, 3, 9, 7])
    (by unfold is_bytes; decide)
    ⟨decoded_bf (sample_header 1 1 0 0 0 ++ [1, 2, 3, 9, 7]),
      decoded_bi (sample_header 1 1 0 0 0 ++ [1, 2, 3, 9, 7]), 1, 1, [[⟨1, 2, 3⟩]]⟩
    (by rfl) ⟨true, false, false, 100⟩ (by decide)).1

/-- The bytes of the witness above, evaluated: the padding byte 9 is written
as 0 and the trailing byte 7 is not written. -/
theorem write_after_read_example :
    (write_image (decoded_bf (sample_header 1 1 0 0 0 ++ [1, 2, 3, 9, 7]))
        (decoded_bi (sample_header 1 1 0 0 0 ++ [1, 2, 3, 9, 7]))
        ⟨true, false, false, 100⟩ 1 1 [[⟨1, 2, 3⟩]]).2
      = sample_header 1 1 0 0 0 ++ [1, 2, 3, 0] := by
  rfl

/-! ## A single pixel through the whole pipeline -/

/-- What `read_image` returns on a stream whose headers are supported and give
width 1 and height 1 or -1. -/
theorem read_image_single (c : Nat → Nat → Bool) (s : List Nat) (hlen : 58 ≤ s.length)
    (hchk : bmp_check_header (decoded_bf s) (decoded_bi s) = true)
    (hw : (decoded_bi s).bi_width = 1)
    (hh : (decoded_bi s).bi_height = 1 ∨ (decoded_bi s).bi_height = -1)
    (hrd : c 1 3 = true) :
    read_image c s
      = .ok ⟨decoded_bf s, decoded_bi s, 1, 1,
          [[⟨byte_at s 54, byte_at s 55, byte_at s 56⟩]]⟩ := by
  have eh : abs_height (decoded_bi s).bi_height = 1 := by
    rcases hh with e | e <;> rw [e] <;> rfl
  have ew : int32_to_size_t (decoded_bi s).bi_width = 1 := by
    rw [hw]
    rfl
  have ep : determine_padding 1 = 1 := rfl
  have em : 1 * 3 % SIZE_MOD = 3 := rfl
  rw [read_image_eq, eh, ew, hchk, em, hrd, ep]
  simp only [Bool.not_true, Bool.false_eq_true, if_false]
  rw [if_neg (by omega), if_neg (by unfold SIZE_MAX; omega), if_neg (by omega),
    if_neg (by unfold SIZE_MAX; omega), if_neg (by omega)]
  have e : scanline_image 1 1 1 (s.drop 54)
      = [[⟨byte_at s 54, byte_at s 55, byte_at s 56⟩]] := by
    show [[(⟨byte_at _ (3 * 0), byte_at _ (3 * 0 + 1), byte_at _ (3 * 0 + 2)⟩ : RGBTRIPLE)]] = _
    rw [byte_at_take_drop _ _ _ _ (by omega), byte_at_take_drop _ _ _ _ (by omega),
      byte_at_take_drop _ _ _ _ (by omega), byte_at_drop, byte_at_drop, byte_at_drop]
  rw [e]

/-- C23: for a stream of bytes with a supported header, width field 1, height
field 1 or -1 and at least the four bytes of one scanline (one pixel, one
padding byte), `read_image` returns the 1-by-1 buffer holding that pixel,
`blur` returns this buffer unchanged, and `read_image` applied to the bytes of
a `write_image` that did not fail returns the same headers and again the
1-by-1 buffer holding the original pixel (the allocations being granted). -/
theorem single_pixel_blur_roundtrip (c : Nat → Nat → Bool) (s : List Nat) (hs : is_bytes s)
    (hlen : 58 ≤ s.length)
    (hchk : bmp_check_header (decoded_bf s) (decoded_bi s) = true)
    (hw : (decoded_bi s).bi_width = 1)
    (hh : (decoded_bi s).bi_height = 1 ∨ (decoded_bi s).bi_height = -1)
    (hrd : c 1 3 = true) (hbl : c 3 9 = true) :
    read_image c s
      = .ok ⟨decoded_bf s, decoded_bi s, 1, 1,
          [[⟨byte_at s 54, byte_at s 55, byte_at s 56⟩]]⟩
    ∧ blur c 1 1 [[⟨byte_at s 54, byte_at s 55, byte_at s 56⟩]]
      = some [[⟨byte_at s 54, byte_at s 55, byte_at s 56⟩]]
    ∧ ∀ out : OutStream,
        (write_image (decoded_bf s) (decoded_bi s) out 1 1
          [[⟨byte_at s 54, byte_at s 55, byte_at s 56⟩]]).1 ≠ -1 →
        read_image c (write_image (decoded_bf s) (decoded_bi s) out 1 1
          [[⟨byte_at s 54, byte_at s 55, byte_at s 56⟩]]).2
          = .ok ⟨decoded_bf s, decoded_bi s, 1, 1,
              [[⟨byte_at s 54, byte_at s 55, byte_at s 56⟩]]⟩ := by
  refine ⟨read_image_single c s hlen hchk hw hh hrd, ?_, ?_⟩
  · have e := box_blur_uniform c 1 1 (Nat.le_refl _) (Nat.le_refl _)
      ⟨byte_at s 54, byte_at s 55, byte_at s 56⟩
      ⟨byte_at_lt s hs 54, byte_at_lt s hs 55, byte_at_lt s hs 56⟩
      [[⟨byte_at s 54, byte_at s 55, byte_at s 56⟩]] (by unfold has_shape; simp)
      (by
        intro i j hi hj
        obtain rfl : i = 0 := by omega
        obtain rfl : j = 0 := by omega
        rfl)
      hbl
    exact blur_some c 1 1 _ _ _ _ e e e
  · intro out hok
    obtain ⟨hopen, hroom⟩ := write_image_not_failed _ _ out 1 1 _ hok
    rw [write_image_ok _ _ out 1 1 [[⟨byte_at s 54, byte_at s 55, byte_at s 56⟩]] hopen
      hroom rfl (by simp)]
    simp only
    rw [header_bytes_decoded s hs (by omega)]
    have l0 : (s.take 54).length = 54 := by rw [List.length_take]; omega
    have ex : ([[(⟨byte_at s 54, byte_at s 55, byte_at s 56⟩ : RGBTRIPLE)]].map fun row =>
        row_bytes row ++ List.replicate (determine_padding 1) 0).flatten
        = [byte_at s 54, byte_at s 55, byte_at s 56, 0] := rfl
    rw [ex]
    have ebf : decoded_bf (s.take 54 ++ [byte_at s 54, byte_at s 55, byte_at s 56, 0])
        = decoded_bf s := by
      rw [← decoded_bf_take (s.take 54 ++ _), List.take_left' l0, decoded_bf_take]
    have ebi : decoded_bi (s.take 54 ++ [byte_at s 54, byte_at s 55, byte_at s 56, 0])
        = decoded_bi s := by
      rw [← decoded_bi_take (s.take 54 ++ _), List.take_left' l0, decoded_bi_take]
    have key := read_image_single c
      (s.take 54 ++ [byte_at s 54, byte_at s 55, byte_at s 56, 0])
      (by rw [List.length_append, l0]; simp)
      (by rw [ebf, ebi]; exact hchk) (by rw [ebi]; exact hw) (by rw [ebi]; exact hh) hrd
    rw [key, ebf, ebi]
    have b0 : byte_at (s.take 54 ++ [byte_at s 54, byte_at s 55, byte_at s 56, 0]) 54
        = byte_at s 54 := by
      rw [byte_at_append_right _ _ _ (by rw [l0]), l0]
      rfl
    have b1 : byte_at (s.take 54 ++ [byte_at s 54, byte_at s 55, byte_at s 56, 0]) 55
        = byte_at s 55 := by
      rw [byte_at_append_right _ _ _ (by rw [l0]; omega), l0]
      rfl
    have b2 : byte_at (s.take 54 ++ [byte_at s 54, byte_at s 55, byte_at s 56, 0]) 56
        = byte_at s 56 := by
      rw [byte_at_append_right _ _ _ (by rw [l0]; omega), l0]
      rfl
    rw [b0, b1, b2]

theorem single_pixel_blur_roundtrip_witness :
    read_image (fun _ _ => true)
        (write_image (decoded_bf (sample_header 1 0xff 0xff 0xff 0xff ++ [10, 20, 30, 9]))
          (decoded_bi (sample_header 1 0xff 0xff 0xff 0xff ++ [10, 20, 30, 9]))
          ⟨false, true, true, 58⟩ 1 1
          [[⟨byte_at (sample_header 1 0xff 0xff 0xff 0xff ++ [10, 20, 30, 9]) 54,
              byte_at (sample_header 1 0xff 0xff 0xff 0xff ++ [10, 20, 30, 9]) 55,
              byte_at (sample_header 1 0xff 0xff 0xff 0xff ++ [10, 20, 30, 9]) 56⟩]]).2
      = .ok ⟨decoded_bf (sample_header 1 0xff 0xff 0xff 0xff ++ [10, 20, 30, 9]),
          decoded_bi (sample_header 1 0xff 0xff 0xff 0xff ++ [10, 20, 30, 9]), 1, 1,
          [[⟨byte_at (sample_header 1 0xff 0xff 0xff 0xff ++ [10, 20, 30, 9]) 54,
              byte_at (sample_header 1 0xff 0xff 0xff 0xff ++ [10, 20, 30, 9]) 55,
              byte_at (sample_header 1 0xff 0xff 0xff 0xff ++ [10, 20, 30, 9]) 56⟩]]⟩ :=
  (single_pixel_blur_roundtrip (fun _ _ => true)
    (sample_header 1 0xff 0xff 0xff 0xff ++ [10, 20, 30, 9]) (by unfold is_bytes; decide)
    (by decide) (by decide) (by decide) (Or.inr (by decide)) (by rfl) (by rfl)).2.2
    ⟨false, true, true, 58⟩ (by decide)

/-- The pipeline of the witness above, evaluated: the pixel blue 10, green 20,
red 30 comes back. -/
theorem single_pixel_blur_example :
    read_image (fun _ _ => true) (sample_header 1 0xff 0xff 0xff 0xff ++ [10, 20, 30, 9])
      = .ok ⟨decoded_bf (sample_header 1 0xff 0xff 0xff 0xff),
          decoded_bi (sample_header 1 0xff 0xff 0xff 0xff), 1, 1, [[⟨10, 20, 30⟩]]⟩
    ∧ blur (fun _ _ => true) 1 1 [[⟨10, 20, 30⟩]] = some [[⟨10, 20, 30⟩]]
    ∧ (write_image (decoded_bf (sample_header 1 0xff 0xff 0xff 0xff))
        (decoded_bi (sample_header 1 0xff 0xff 0xff 0xff))
        ⟨false, true, true, 58⟩ 1 1 [[⟨10, 20, 30⟩]]).2
      = sample_header 1 0xff 0xff 0xff 0xff ++ [10, 20, 30, 0]
    ∧ read_image (fun _ _ => true) (sample_header 1 0xff 0xff 0xff 0xff ++ [10, 20, 30, 0])
      = .ok ⟨decoded_bf (sample_header 1 0xff 0xff 0xff 0xff),
          decoded_bi (sample_header 1 0xff 0xff 0xff 0xff), 1, 1, [[⟨10, 20, 30⟩]]⟩ := by
  refine ⟨by rfl, by decide, by rfl, by rfl⟩

end Filter
